import Mathlib

/-!
# Spartan RHI: barrier/layout engine, index-buffer upload, timeline wait, shader compilation,
sampler filter, frame constant buffer

A shallow embedding of

* `runtime/RHI/Vulkan/Vulkan_Utility.h` (`vulkan_utility::image::layout_to_access_mask`,
  `access_flags_to_pipeline_stage`, `set_layout`, `timeline_semaphore::wait`),
* `runtime/RHI/Vulkan/Vulkan_IndexBuffer.cpp` (`RHI_IndexBuffer::_create`, `Map`, `Unmap`,
  the destructor),
* `runtime/RHI/RHI_Shader.cpp` (`CompileShader`, `RHI_Shader::Compile`,
  `PreprocessIncludeDirectives`, `LoadSource`, `SetSource`),
* `runtime/RHI/D3D11/D3D11_Utility.h` (`d3d11_utility::sampler::get_filter`), and
* `runtime/Rendering/Renderer_ConstantBuffers.h` (`Cb_Frame::operator==`),

followed by the properties established about them.

Conventions: 32-bit unsigned values (`VkFlags`, `uint32_t`) are natural numbers, with the
bitwise complement taken inside 32 bits; pointers and Vulkan handles are natural numbers with
`0` for `nullptr` / `VK_NULL_HANDLE`; effects (log output, recorded commands, device calls) are
threaded explicitly; a failed `SP_ASSERT` stops the function and is returned as a `Fault`;
recursion and loops whose termination is not structural carry an iteration bound and return
`none` (or a fault) when it is used up.
-/

namespace Spartan

/-! ## Vulkan constants (values of `vulkan_core.h`) -/

abbrev VK_IMAGE_LAYOUT_UNDEFINED : Nat := 0
abbrev VK_IMAGE_LAYOUT_GENERAL : Nat := 1
abbrev VK_IMAGE_LAYOUT_COLOR_ATTACHMENT_OPTIMAL : Nat := 2
abbrev VK_IMAGE_LAYOUT_DEPTH_STENCIL_ATTACHMENT_OPTIMAL : Nat := 3
abbrev VK_IMAGE_LAYOUT_DEPTH_STENCIL_READ_ONLY_OPTIMAL : Nat := 4
abbrev VK_IMAGE_LAYOUT_SHADER_READ_ONLY_OPTIMAL : Nat := 5
abbrev VK_IMAGE_LAYOUT_TRANSFER_SRC_OPTIMAL : Nat := 6
abbrev VK_IMAGE_LAYOUT_TRANSFER_DST_OPTIMAL : Nat := 7
abbrev VK_IMAGE_LAYOUT_PREINITIALIZED : Nat := 8
abbrev VK_IMAGE_LAYOUT_DEPTH_READ_ONLY_STENCIL_ATTACHMENT_OPTIMAL : Nat := 1000117000
abbrev VK_IMAGE_LAYOUT_DEPTH_ATTACHMENT_STENCIL_READ_ONLY_OPTIMAL : Nat := 1000117001
abbrev VK_IMAGE_LAYOUT_DEPTH_ATTACHMENT_OPTIMAL : Nat := 1000241000
abbrev VK_IMAGE_LAYOUT_DEPTH_READ_ONLY_OPTIMAL : Nat := 1000241001
abbrev VK_IMAGE_LAYOUT_PRESENT_SRC_KHR : Nat := 1000001002

abbrev VK_ACCESS_2_NONE : Nat := 0
abbrev VK_ACCESS_INDIRECT_COMMAND_READ_BIT : Nat := 0x00000001
abbrev VK_ACCESS_INDEX_READ_BIT : Nat := 0x00000002
abbrev VK_ACCESS_VERTEX_ATTRIBUTE_READ_BIT : Nat := 0x00000004
abbrev VK_ACCESS_UNIFORM_READ_BIT : Nat := 0x00000008
abbrev VK_ACCESS_INPUT_ATTACHMENT_READ_BIT : Nat := 0x00000010
abbrev VK_ACCESS_SHADER_READ_BIT : Nat := 0x00000020
abbrev VK_ACCESS_SHADER_WRITE_BIT : Nat := 0x00000040
abbrev VK_ACCESS_COLOR_ATTACHMENT_READ_BIT : Nat := 0x00000080
abbrev VK_ACCESS_COLOR_ATTACHMENT_WRITE_BIT : Nat := 0x00000100
abbrev VK_ACCESS_DEPTH_STENCIL_ATTACHMENT_READ_BIT : Nat := 0x00000200
abbrev VK_ACCESS_DEPTH_STENCIL_ATTACHMENT_WRITE_BIT : Nat := 0x00000400
abbrev VK_ACCESS_TRANSFER_READ_BIT : Nat := 0x00000800
abbrev VK_ACCESS_TRANSFER_WRITE_BIT : Nat := 0x00001000
abbrev VK_ACCESS_HOST_READ_BIT : Nat := 0x00002000
abbrev VK_ACCESS_HOST_WRITE_BIT : Nat := 0x00004000
abbrev VK_ACCESS_MEMORY_READ_BIT : Nat := 0x00008000

abbrev VK_PIPELINE_STAGE_TOP_OF_PIPE_BIT : Nat := 0x00000001
abbrev VK_PIPELINE_STAGE_DRAW_INDIRECT_BIT : Nat := 0x00000002
abbrev VK_PIPELINE_STAGE_VERTEX_INPUT_BIT : Nat := 0x00000004
abbrev VK_PIPELINE_STAGE_FRAGMENT_SHADER_BIT : Nat := 0x00000080
abbrev VK_PIPELINE_STAGE_LATE_FRAGMENT_TESTS_BIT : Nat := 0x00000200
abbrev VK_PIPELINE_STAGE_COLOR_ATTACHMENT_OUTPUT_BIT : Nat := 0x00000400
abbrev VK_PIPELINE_STAGE_COMPUTE_SHADER_BIT : Nat := 0x00000800
abbrev VK_PIPELINE_STAGE_TRANSFER_BIT : Nat := 0x00001000
abbrev VK_PIPELINE_STAGE_BOTTOM_OF_PIPE_BIT : Nat := 0x00002000
abbrev VK_PIPELINE_STAGE_HOST_BIT : Nat := 0x00004000

abbrev VK_QUEUE_FAMILY_IGNORED : Nat := 0xFFFFFFFF

abbrev VK_BUFFER_USAGE_TRANSFER_SRC_BIT : Nat := 0x00000001
abbrev VK_BUFFER_USAGE_TRANSFER_DST_BIT : Nat := 0x00000002
abbrev VK_BUFFER_USAGE_INDEX_BUFFER_BIT : Nat := 0x00000040
abbrev VK_MEMORY_PROPERTY_DEVICE_LOCAL_BIT : Nat := 0x00000001
abbrev VK_MEMORY_PROPERTY_HOST_VISIBLE_BIT : Nat := 0x00000002
abbrev VK_MEMORY_PROPERTY_HOST_COHERENT_BIT : Nat := 0x00000004

/-- All ones in 32 bits. -/
abbrev UINT32_MAX : Nat := 0xFFFFFFFF

/-- The C++ operator `~` on a 32-bit unsigned value. -/
def bit_not32 (x : Nat) : Nat := UINT32_MAX ^^^ x

/-! ## Faults -/

/-- Ways in which an embedded function stops without a result. -/
inductive Fault where
  /-- A failed `SP_ASSERT` / `SP_ASSERT_MSG`, with the asserted expression. -/
  | assertion (expression : String)
  /-- The iteration bound of an embedded loop was reached. -/
  | out_of_fuel
  deriving DecidableEq, Repr

deriving instance DecidableEq for Except

/-- Modelled from the spec: the `SP_ASSERT` macro, whose definition is not among the sources.
Section 7 classes programmer-contract violations as "fatal assertions; not recoverable": when
the asserted condition is false the enclosing function does not continue, and the asserted
expression is handed back as the fault; when it is true nothing happens. -/
def SP_ASSERT (condition : Bool) (expression : String) : Except Fault Unit :=
  if condition then .ok () else .error (.assertion expression)

/-! ## `layout_to_access_mask` -/

/-- The layouts that have a `case` label in the `switch` of `layout_to_access_mask`. -/
def handled_layouts : List Nat :=
  [ VK_IMAGE_LAYOUT_UNDEFINED, VK_IMAGE_LAYOUT_PREINITIALIZED, VK_IMAGE_LAYOUT_PRESENT_SRC_KHR,
    VK_IMAGE_LAYOUT_TRANSFER_SRC_OPTIMAL, VK_IMAGE_LAYOUT_TRANSFER_DST_OPTIMAL,
    VK_IMAGE_LAYOUT_COLOR_ATTACHMENT_OPTIMAL, VK_IMAGE_LAYOUT_DEPTH_ATTACHMENT_OPTIMAL,
    VK_IMAGE_LAYOUT_DEPTH_STENCIL_ATTACHMENT_OPTIMAL,
    VK_IMAGE_LAYOUT_DEPTH_READ_ONLY_STENCIL_ATTACHMENT_OPTIMAL,
    VK_IMAGE_LAYOUT_DEPTH_ATTACHMENT_STENCIL_READ_ONLY_OPTIMAL, VK_IMAGE_LAYOUT_GENERAL,
    VK_IMAGE_LAYOUT_SHADER_READ_ONLY_OPTIMAL, VK_IMAGE_LAYOUT_DEPTH_READ_ONLY_OPTIMAL,
    VK_IMAGE_LAYOUT_DEPTH_STENCIL_READ_ONLY_OPTIMAL ]

/-- Embedding of `layout_to_access_mask(layout, is_destination_mask)`.  The log goes in and comes
out; the first component is the returned access mask, or the fault of a failed assertion. -/
def layout_to_access_mask (layout : Nat) (is_destination_mask : Bool) (log : List String) :
    Except Fault Nat × List String :=
  if layout = VK_IMAGE_LAYOUT_UNDEFINED then
    match SP_ASSERT (!is_destination_mask)
        "The new layout used in a transition must not be VK_IMAGE_LAYOUT_UNDEFINED." with
    | .error f => (.error f, log)
    | .ok _ => (.ok 0, log)
  else if layout = VK_IMAGE_LAYOUT_PREINITIALIZED then
    match SP_ASSERT (!is_destination_mask)
        "The new layout used in a transition must not be VK_IMAGE_LAYOUT_PREINITIALIZED." with
    | .error f => (.error f, log)
    | .ok _ => (.ok VK_ACCESS_HOST_WRITE_BIT, log)
  else if layout = VK_IMAGE_LAYOUT_PRESENT_SRC_KHR then
    (.ok VK_ACCESS_2_NONE, log)
  else if layout = VK_IMAGE_LAYOUT_TRANSFER_SRC_OPTIMAL then
    (.ok VK_ACCESS_TRANSFER_READ_BIT, log)
  else if layout = VK_IMAGE_LAYOUT_TRANSFER_DST_OPTIMAL then
    (.ok VK_ACCESS_TRANSFER_WRITE_BIT, log)
  else if layout = VK_IMAGE_LAYOUT_COLOR_ATTACHMENT_OPTIMAL then
    (.ok (VK_ACCESS_COLOR_ATTACHMENT_READ_BIT ||| VK_ACCESS_COLOR_ATTACHMENT_WRITE_BIT), log)
  else if layout = VK_IMAGE_LAYOUT_DEPTH_ATTACHMENT_OPTIMAL then
    (.ok (VK_ACCESS_DEPTH_STENCIL_ATTACHMENT_READ_BIT |||
      VK_ACCESS_DEPTH_STENCIL_ATTACHMENT_WRITE_BIT), log)
  else if layout = VK_IMAGE_LAYOUT_DEPTH_STENCIL_ATTACHMENT_OPTIMAL then
    (.ok (VK_ACCESS_DEPTH_STENCIL_ATTACHMENT_READ_BIT |||
      VK_ACCESS_DEPTH_STENCIL_ATTACHMENT_WRITE_BIT), log)
  else if layout = VK_IMAGE_LAYOUT_DEPTH_READ_ONLY_STENCIL_ATTACHMENT_OPTIMAL then
    (.ok VK_ACCESS_DEPTH_STENCIL_ATTACHMENT_READ_BIT, log)
  else if layout = VK_IMAGE_LAYOUT_DEPTH_ATTACHMENT_STENCIL_READ_ONLY_OPTIMAL then
    (.ok VK_ACCESS_DEPTH_STENCIL_ATTACHMENT_READ_BIT, log)
  else if layout = VK_IMAGE_LAYOUT_GENERAL then
    (.ok (VK_ACCESS_SHADER_READ_BIT ||| VK_ACCESS_SHADER_WRITE_BIT), log)
  else if layout = VK_IMAGE_LAYOUT_SHADER_READ_ONLY_OPTIMAL then
    (.ok VK_ACCESS_SHADER_READ_BIT, log)
  else if layout = VK_IMAGE_LAYOUT_DEPTH_READ_ONLY_OPTIMAL then
    (.ok VK_ACCESS_SHADER_READ_BIT, log)
  else if layout = VK_IMAGE_LAYOUT_DEPTH_STENCIL_READ_ONLY_OPTIMAL then
    (.ok VK_ACCESS_SHADER_READ_BIT, log)
  else
    -- default: SP_LOG_ERROR("Unexpected image layout"); access_mask keeps its initial 0
    (.ok 0, log ++ ["Unexpected image layout"])

/-! ## `access_flags_to_pipeline_stage` -/

/-- The `switch (access_flag)` of the loop body: the bits that the matching `case` ors into
`stages`; `0` when no `case` matches (the switch has no `default`, `stages` is left as it is). -/
def access_flag_stages (enabled_graphics_stages : Nat) (access_flag : Nat) : Nat :=
  if access_flag = VK_ACCESS_INDIRECT_COMMAND_READ_BIT then VK_PIPELINE_STAGE_DRAW_INDIRECT_BIT
  else if access_flag = VK_ACCESS_INDEX_READ_BIT then VK_PIPELINE_STAGE_VERTEX_INPUT_BIT
  else if access_flag = VK_ACCESS_VERTEX_ATTRIBUTE_READ_BIT then VK_PIPELINE_STAGE_VERTEX_INPUT_BIT
  else if access_flag = VK_ACCESS_UNIFORM_READ_BIT then
    enabled_graphics_stages ||| VK_PIPELINE_STAGE_COMPUTE_SHADER_BIT
  else if access_flag = VK_ACCESS_INPUT_ATTACHMENT_READ_BIT then
    VK_PIPELINE_STAGE_FRAGMENT_SHADER_BIT
  else if access_flag = VK_ACCESS_SHADER_READ_BIT then
    enabled_graphics_stages ||| VK_PIPELINE_STAGE_COMPUTE_SHADER_BIT
  else if access_flag = VK_ACCESS_SHADER_WRITE_BIT then
    enabled_graphics_stages ||| VK_PIPELINE_STAGE_COMPUTE_SHADER_BIT
  else if access_flag = VK_ACCESS_COLOR_ATTACHMENT_READ_BIT then
    VK_PIPELINE_STAGE_COLOR_ATTACHMENT_OUTPUT_BIT
  else if access_flag = VK_ACCESS_COLOR_ATTACHMENT_WRITE_BIT then
    VK_PIPELINE_STAGE_COLOR_ATTACHMENT_OUTPUT_BIT
  else if access_flag = VK_ACCESS_DEPTH_STENCIL_ATTACHMENT_READ_BIT then
    VK_PIPELINE_STAGE_FRAGMENT_SHADER_BIT
  else if access_flag = VK_ACCESS_DEPTH_STENCIL_ATTACHMENT_WRITE_BIT then
    VK_PIPELINE_STAGE_LATE_FRAGMENT_TESTS_BIT
  else if access_flag = VK_ACCESS_TRANSFER_READ_BIT then VK_PIPELINE_STAGE_TRANSFER_BIT
  else if access_flag = VK_ACCESS_TRANSFER_WRITE_BIT then VK_PIPELINE_STAGE_TRANSFER_BIT
  else if access_flag = VK_ACCESS_HOST_READ_BIT then VK_PIPELINE_STAGE_HOST_BIT
  else if access_flag = VK_ACCESS_HOST_WRITE_BIT then VK_PIPELINE_STAGE_HOST_BIT
  else 0

/-- The `while (access_flags != 0)` loop, with an iteration bound `fuel`.
`access_flags - 1` is only evaluated under the loop guard and `access_flag - 1` only after
`access_flag != 0` (short-circuit `&&`), so neither subtraction wraps. -/
def access_flags_to_pipeline_stage_loop (enabled_graphics_stages : Nat) :
    (fuel : Nat) → (access_flags : Nat) → (stages : Nat) → Except Fault Nat
  | 0, access_flags, stages =>
    if access_flags = 0 then .ok stages else .error .out_of_fuel
  | fuel + 1, access_flags, stages =>
    if access_flags = 0 then .ok stages
    else
      let access_flag := access_flags &&& bit_not32 (access_flags - 1)
      match SP_ASSERT (decide (access_flag ≠ 0) && decide (access_flag &&& (access_flag - 1) = 0))
          "access_flag != 0 && (access_flag & (access_flag - 1)) == 0" with
      | .error f => .error f
      | .ok _ =>
        access_flags_to_pipeline_stage_loop enabled_graphics_stages fuel
          (access_flags &&& bit_not32 access_flag)
          (stages ||| access_flag_stages enabled_graphics_stages access_flag)

/-- Embedding of `access_flags_to_pipeline_stage(access_flags)`.  `enabled_graphics_stages` is
the value of `RHI_Device::GetEnabledGraphicsStages()`.  A 32-bit mask has at most 32 set bits and
each iteration clears one, hence the bound of 32 iterations. -/
def access_flags_to_pipeline_stage (enabled_graphics_stages : Nat) (access_flags : Nat) :
    Except Fault Nat :=
  access_flags_to_pipeline_stage_loop enabled_graphics_stages 32 access_flags 0

/-! ## `set_layout` -/

/-- The fields of `VkImageMemoryBarrier` that `set_layout` fills in. -/
structure VkImageMemoryBarrier where
  oldLayout : Nat
  newLayout : Nat
  srcQueueFamilyIndex : Nat
  dstQueueFamilyIndex : Nat
  image : Nat
  aspectMask : Nat
  baseMipLevel : Nat
  levelCount : Nat
  baseArrayLayer : Nat
  layerCount : Nat
  srcAccessMask : Nat
  dstAccessMask : Nat
  deriving DecidableEq, Repr

/-- One recorded `vkCmdPipelineBarrier` call. -/
structure PipelineBarrier where
  commandBuffer : Nat
  srcStageMask : Nat
  dstStageMask : Nat
  dependencyFlags : Nat
  imageMemoryBarriers : List VkImageMemoryBarrier
  deriving DecidableEq, Repr

/-- What `set_layout` can change: the log and the commands recorded so far. -/
structure Recording where
  log : List String
  commands : List PipelineBarrier
  deriving DecidableEq, Repr

/-- The block computing `source_stage_mask` in `set_layout`. -/
def source_stage_mask (enabled_graphics_stages : Nat) (oldLayout srcAccessMask : Nat) :
    Except Fault Nat :=
  if oldLayout = VK_IMAGE_LAYOUT_PRESENT_SRC_KHR then .ok VK_PIPELINE_STAGE_BOTTOM_OF_PIPE_BIT
  else if oldLayout = VK_IMAGE_LAYOUT_UNDEFINED then .ok VK_PIPELINE_STAGE_TOP_OF_PIPE_BIT
  else access_flags_to_pipeline_stage enabled_graphics_stages srcAccessMask

/-- The block computing `destination_stage_mask` in `set_layout`. -/
def destination_stage_mask (enabled_graphics_stages : Nat) (newLayout dstAccessMask : Nat) :
    Except Fault Nat :=
  if newLayout = VK_IMAGE_LAYOUT_PRESENT_SRC_KHR then .ok VK_PIPELINE_STAGE_TOP_OF_PIPE_BIT
  else access_flags_to_pipeline_stage enabled_graphics_stages dstAccessMask

/-- Embedding of `set_layout(cmd_buffer, image, aspect_mask, mip_index, mip_range, array_length,
layout_old, layout_new)`.  `vulkan_image_layout` is the engine-to-Vulkan layout table (declared
outside the sources shown) and `enabled_graphics_stages` the device's enabled graphics stages. -/
def set_layout (vulkan_image_layout : Nat → Nat) (enabled_graphics_stages : Nat)
    (cmd_buffer image aspect_mask mip_index mip_range array_length layout_old layout_new : Nat)
    (r : Recording) : Except Fault Unit × Recording :=
  match SP_ASSERT (decide (cmd_buffer ≠ 0)) "cmd_buffer != nullptr" with
  | .error f => (.error f, r)
  | .ok _ =>
  match SP_ASSERT (decide (image ≠ 0)) "image != nullptr" with
  | .error f => (.error f, r)
  | .ok _ =>
  let oldLayout := vulkan_image_layout layout_old
  let newLayout := vulkan_image_layout layout_new
  match layout_to_access_mask oldLayout false r.log with
  | (.error f, log1) => (.error f, { r with log := log1 })
  | (.ok srcAccessMask, log1) =>
  match layout_to_access_mask newLayout true log1 with
  | (.error f, log2) => (.error f, { r with log := log2 })
  | (.ok dstAccessMask, log2) =>
  match source_stage_mask enabled_graphics_stages oldLayout srcAccessMask with
  | .error f => (.error f, { r with log := log2 })
  | .ok source_stage =>
  match destination_stage_mask enabled_graphics_stages newLayout dstAccessMask with
  | .error f => (.error f, { r with log := log2 })
  | .ok destination_stage =>
    let image_barrier : VkImageMemoryBarrier :=
      { oldLayout := oldLayout
        newLayout := newLayout
        srcQueueFamilyIndex := VK_QUEUE_FAMILY_IGNORED
        dstQueueFamilyIndex := VK_QUEUE_FAMILY_IGNORED
        image := image
        aspectMask := aspect_mask
        baseMipLevel := mip_index
        levelCount := mip_range
        baseArrayLayer := 0
        layerCount := array_length
        srcAccessMask := srcAccessMask
        dstAccessMask := dstAccessMask }
    (.ok (),
      { log := log2
        commands := r.commands ++
          [{ commandBuffer := cmd_buffer
             srcStageMask := source_stage
             dstStageMask := destination_stage
             dependencyFlags := 0
             imageMemoryBarriers := [image_barrier] }] })

/-- Union, over the bit positions `i < n` that are set in `access_flags`, of the stages the
switch contributes for the single flag `2 ^ i`.  Used to describe the result of the loop. -/
def stage_union (enabled_graphics_stages access_flags : Nat) : Nat → Nat
  | 0 => 0
  | n + 1 =>
    stage_union enabled_graphics_stages access_flags n |||
      (if access_flags.testBit n then access_flag_stages enabled_graphics_stages (2 ^ n) else 0)

/-! ## The device, as far as `RHI_IndexBuffer` uses it

`RHI_Device` is declared outside the sources shown.  Its state is kept to what the index buffer
can observe: the buffers currently allocated, the deferred deletion queue, and the sequence of
calls received.  Two things the device decides on its own are parameters of the embedding:
`new_handle n`, the handle given to the `n`-th buffer created, and `mapped_address h`, the host
address at which buffer `h` is mapped. -/

/-- `RHI_Resource_Type`, with the one enumerator the index buffer uses. -/
inductive RHI_Resource_Type where
  | Buffer
  deriving DecidableEq, Repr

/-- `RHI_Queue_Type`, with the one enumerator the index buffer uses. -/
inductive RHI_Queue_Type where
  | Copy
  deriving DecidableEq, Repr

/-- A buffer allocated on the device, with its bytes. -/
structure BufferAllocation where
  handle : Nat
  size : Nat
  usage : Nat
  memory_property_flags : Nat
  contents : List Nat
  deriving DecidableEq, Repr

/-- `VkBufferCopy`. -/
structure VkBufferCopy where
  srcOffset : Nat
  dstOffset : Nat
  size : Nat
  deriving DecidableEq, Repr

/-- One recorded `vkCmdCopyBuffer` (with a single region). -/
structure CopyCommand where
  srcBuffer : Nat
  dstBuffer : Nat
  region : VkBufferCopy
  deriving DecidableEq, Repr

/-- `RHI_CommandList`: the queue it was opened on and the copies recorded into it. -/
structure RHI_CommandList where
  queue : RHI_Queue_Type
  commands : List CopyCommand
  deriving DecidableEq, Repr

/-- The calls the device receives. -/
inductive DeviceCall where
  | AddToDeletionQueue (resource_type : RHI_Resource_Type) (resource : Nat)
  | CreateBuffer (resource size usage memory_property_flags : Nat) (has_data : Bool)
      (name : String)
  | GetMappedDataFromBuffer (resource : Nat)
  | ImmediateBegin (queue : RHI_Queue_Type)
  | CmdCopyBuffer (srcBuffer dstBuffer : Nat) (region : VkBufferCopy)
  | ImmediateSubmit
  | DestroyBuffer (resource : Nat)
  | SetResourceName (resource : Nat) (resource_type : RHI_Resource_Type) (name : String)
  deriving DecidableEq, Repr

/-- The observable state of the device. -/
structure RHI_Device where
  buffers : List BufferAllocation
  deletion_queue : List (RHI_Resource_Type × Nat)
  buffers_created : Nat
  calls : List DeviceCall
  deriving DecidableEq, Repr

/-- Modelled from the spec: `RHI_Device::AddToDeletionQueue` is not among the sources.  Section
4.4: the queue "accept[s] a (resource-kind, handle) pair"; the entry is kept for a later flush
and nothing is destroyed now. -/
def RHI_Device.AddToDeletionQueue (d : RHI_Device) (resource_type : RHI_Resource_Type)
    (resource : Nat) : RHI_Device :=
  { d with
    deletion_queue := d.deletion_queue ++ [(resource_type, resource)]
    calls := d.calls ++ [.AddToDeletionQueue resource_type resource] }

/-- Modelled from the spec: `RHI_Device::CreateBuffer` is not among the sources.  Section 4.2:
it "allocates" a buffer of the given size and, when data is passed, "copies the data into it".
The new handle is written to the caller's `resource` reference, here the first component.
Without data the bytes are unspecified; zeros stand for them. -/
def RHI_Device.CreateBuffer (new_handle : Nat → Nat) (d : RHI_Device)
    (size usage memory_property_flags : Nat) (data : Option (List Nat)) (name : String) :
    Nat × RHI_Device :=
  let resource := new_handle d.buffers_created
  (resource,
    { d with
      buffers := d.buffers ++
        [{ handle := resource
           size := size
           usage := usage
           memory_property_flags := memory_property_flags
           contents := match data with
             | some bytes => bytes.take size
             | none => List.replicate size 0 }]
      buffers_created := d.buffers_created + 1
      calls := d.calls ++
        [.CreateBuffer resource size usage memory_property_flags data.isSome name] })

/-- Modelled from the spec: `RHI_Device::GetMappedDataFromBuffer` is not among the sources.
Section 4.2: the buffer's "mapped address", fixed for the buffer's lifetime. -/
def RHI_Device.GetMappedDataFromBuffer (mapped_address : Nat → Nat) (d : RHI_Device)
    (resource : Nat) : Nat × RHI_Device :=
  (mapped_address resource, { d with calls := d.calls ++ [.GetMappedDataFromBuffer resource] })

/-- Modelled from the spec: `RHI_Device::ImmediateBegin` is not among the sources.  Section 4.2:
it "opens an immediate command context scoped to a copy-capable execution queue". -/
def RHI_Device.ImmediateBegin (d : RHI_Device) (queue : RHI_Queue_Type) :
    RHI_CommandList × RHI_Device :=
  ({ queue := queue, commands := [] }, { d with calls := d.calls ++ [.ImmediateBegin queue] })

/-- `vkCmdCopyBuffer` with one region: the copy is recorded, not yet executed. -/
def vkCmdCopyBuffer (d : RHI_Device) (cmd_list : RHI_CommandList) (srcBuffer dstBuffer : Nat)
    (region : VkBufferCopy) : RHI_CommandList × RHI_Device :=
  ({ cmd_list with
      commands := cmd_list.commands ++
        [{ srcBuffer := srcBuffer, dstBuffer := dstBuffer, region := region }] },
    { d with calls := d.calls ++ [.CmdCopyBuffer srcBuffer dstBuffer region] })

/-- The bytes of the destination after copying `region` from the source bytes. -/
def copy_bytes (src dst : List Nat) (region : VkBufferCopy) : List Nat :=
  dst.take region.dstOffset ++ ((src.drop region.srcOffset).take region.size ++
    dst.drop (region.dstOffset + region.size))

/-- Execution of one recorded copy on the allocated buffers. -/
def RHI_Device.execute_copy (d : RHI_Device) (c : CopyCommand) : RHI_Device :=
  match d.buffers.find? (fun b => decide (b.handle = c.srcBuffer)) with
  | none => d
  | some src =>
    { d with
      buffers := d.buffers.map (fun b =>
        if b.handle = c.dstBuffer then
          { b with contents := copy_bytes src.contents b.contents c.region }
        else b) }

/-- Modelled from the spec: `RHI_Device::ImmediateSubmit` is not among the sources.  Section
4.2: it "submits and waits for completion", so on return the recorded copies have taken
effect. -/
def RHI_Device.ImmediateSubmit (d : RHI_Device) (cmd_list : RHI_CommandList) : RHI_Device :=
  let d' := cmd_list.commands.foldl RHI_Device.execute_copy d
  { d' with calls := d'.calls ++ [.ImmediateSubmit] }

/-- Modelled from the spec: `RHI_Device::DestroyBuffer` is not among the sources.  Section 4.2:
it "destroys the transient buffer" at once: the allocation is gone on return. -/
def RHI_Device.DestroyBuffer (d : RHI_Device) (resource : Nat) : RHI_Device :=
  { d with
    buffers := d.buffers.filter (fun b => decide (b.handle ≠ resource))
    calls := d.calls ++ [.DestroyBuffer resource] }

/-- Modelled from the spec: `RHI_Device::SetResourceName` is not among the sources.  Section 6:
"resource debug-naming"; only the call is kept. -/
def RHI_Device.SetResourceName (d : RHI_Device) (resource : Nat)
    (resource_type : RHI_Resource_Type) (name : String) : RHI_Device :=
  { d with calls := d.calls ++ [.SetResourceName resource resource_type name] }

/-! ## `RHI_IndexBuffer` -/

/-- The members of `RHI_IndexBuffer` that `Vulkan_IndexBuffer.cpp` reads or writes. -/
structure RHI_IndexBuffer where
  m_rhi_resource : Nat
  m_is_mappable : Bool
  m_mapped_data : Nat
  m_object_size_gpu : Nat
  m_object_name : String
  deriving DecidableEq, Repr

/-- The block `if (m_rhi_resource) { AddToDeletionQueue(...); m_rhi_resource = nullptr; }`,
which opens `_create` ("Destroy previous buffer") and is the whole body of the destructor. -/
def RHI_IndexBuffer.release_previous (ib : RHI_IndexBuffer) (d : RHI_Device) :
    RHI_IndexBuffer × RHI_Device :=
  if ib.m_rhi_resource ≠ 0 then
    ({ ib with m_rhi_resource := 0 },
      d.AddToDeletionQueue RHI_Resource_Type.Buffer ib.m_rhi_resource)
  else (ib, d)

/-- Embedding of `RHI_IndexBuffer::~RHI_IndexBuffer()`. -/
def RHI_IndexBuffer.destructor (ib : RHI_IndexBuffer) (d : RHI_Device) :
    RHI_IndexBuffer × RHI_Device :=
  ib.release_previous d

/-- Embedding of `RHI_IndexBuffer::_create(const void* indices)`; `indices` is `none` for
`nullptr` and otherwise the bytes found at the pointer. -/
def RHI_IndexBuffer._create (new_handle mapped_address : Nat → Nat)
    (indices : Option (List Nat)) (ib : RHI_IndexBuffer) (d : RHI_Device) :
    RHI_IndexBuffer × RHI_Device :=
  -- Destroy previous buffer
  let (ib, d) := ib.release_previous d
  let ib := { ib with m_is_mappable := indices.isNone }
  let (ib, d) :=
    if ib.m_is_mappable then
      let (resource, d) := d.CreateBuffer new_handle ib.m_object_size_gpu
        VK_BUFFER_USAGE_INDEX_BUFFER_BIT VK_MEMORY_PROPERTY_HOST_VISIBLE_BIT none
        ib.m_object_name
      let ib := { ib with m_rhi_resource := resource }
      let (mapped, d) := d.GetMappedDataFromBuffer mapped_address ib.m_rhi_resource
      ({ ib with m_mapped_data := mapped }, d)
    else
      let (staging_buffer, d) := d.CreateBuffer new_handle ib.m_object_size_gpu
        VK_BUFFER_USAGE_TRANSFER_SRC_BIT
        (VK_MEMORY_PROPERTY_HOST_VISIBLE_BIT ||| VK_MEMORY_PROPERTY_HOST_COHERENT_BIT)
        indices ib.m_object_name
      let (resource, d) := d.CreateBuffer new_handle ib.m_object_size_gpu
        (VK_BUFFER_USAGE_TRANSFER_DST_BIT ||| VK_BUFFER_USAGE_INDEX_BUFFER_BIT)
        VK_MEMORY_PROPERTY_DEVICE_LOCAL_BIT none ib.m_object_name
      let ib := { ib with m_rhi_resource := resource }
      let (cmd_list, d) := d.ImmediateBegin RHI_Queue_Type.Copy
      let copy_region : VkBufferCopy :=
        { srcOffset := 0, dstOffset := 0, size := ib.m_object_size_gpu }
      let (cmd_list, d) := vkCmdCopyBuffer d cmd_list staging_buffer ib.m_rhi_resource
        copy_region
      let d := d.ImmediateSubmit cmd_list
      let d := d.DestroyBuffer staging_buffer
      (ib, d)
  (ib, d.SetResourceName ib.m_rhi_resource RHI_Resource_Type.Buffer ib.m_object_name)

/-- Embedding of `RHI_IndexBuffer::Map()`: the returned pointer, and the untouched state. -/
def RHI_IndexBuffer.Map (ib : RHI_IndexBuffer) (d : RHI_Device) :
    Nat × RHI_IndexBuffer × RHI_Device :=
  (ib.m_mapped_data, ib, d)

/-- Embedding of `RHI_IndexBuffer::Unmap()`, whose body is empty. -/
def RHI_IndexBuffer.Unmap (ib : RHI_IndexBuffer) (d : RHI_Device) :
    RHI_IndexBuffer × RHI_Device :=
  (ib, d)

/-- The two operations a user of a mappable buffer alternates between. -/
inductive MapCall where
  | Map
  | Unmap
  deriving DecidableEq, Repr

/-- A sequence of `Map()` / `Unmap()` calls: the pointers returned by the `Map()` calls, in
order, and the state at the end. -/
def RHI_IndexBuffer.map_calls : List MapCall → RHI_IndexBuffer → RHI_Device →
    List Nat × RHI_IndexBuffer × RHI_Device
  | [], ib, d => ([], ib, d)
  | .Map :: rest, ib, d =>
    let (p, ib, d) := ib.Map d
    let (ps, ib, d) := RHI_IndexBuffer.map_calls rest ib d
    (p :: ps, ib, d)
  | .Unmap :: rest, ib, d =>
    let (ib, d) := ib.Unmap d
    RHI_IndexBuffer.map_calls rest ib d

/-- A sequence of `_create` calls on one buffer object: the value of the resource slot after
each call, in order, and the state at the end. -/
def RHI_IndexBuffer.create_calls (new_handle mapped_address : Nat → Nat) :
    List (Option (List Nat)) → RHI_IndexBuffer → RHI_Device →
    List Nat × RHI_IndexBuffer × RHI_Device
  | [], ib, d => ([], ib, d)
  | indices :: rest, ib, d =>
    let (ib, d) := ib._create new_handle mapped_address indices d
    let (slots, ib', d') := RHI_IndexBuffer.create_calls new_handle mapped_address rest ib d
    (ib.m_rhi_resource :: slots, ib', d')

/-- A whole life of a buffer object: a sequence of `_create` calls, then the destructor. -/
def RHI_IndexBuffer.lifetime (new_handle mapped_address : Nat → Nat)
    (creates : List (Option (List Nat))) (ib : RHI_IndexBuffer) (d : RHI_Device) :
    List Nat × RHI_IndexBuffer × RHI_Device :=
  let (slots, ib, d) := RHI_IndexBuffer.create_calls new_handle mapped_address creates ib d
  let (ib, d) := ib.destructor d
  (slots, ib, d)

/-- The handles among `slots` that are not null, as deletion-queue entries for buffers. -/
def buffer_entries (slots : List Nat) : List (RHI_Resource_Type × Nat) :=
  (slots.filter (fun h => decide (h ≠ 0))).map (fun h => (RHI_Resource_Type.Buffer, h))

/-- A device on which nothing has happened yet. -/
def example_device : RHI_Device :=
  { buffers := [], deletion_queue := [], buffers_created := 0, calls := [] }

/-- A device with one buffer (handle 7) already allocated. -/
def example_device_in_use : RHI_Device :=
  { buffers := [{ handle := 7, size := 2, usage := VK_BUFFER_USAGE_INDEX_BUFFER_BIT,
                  memory_property_flags := VK_MEMORY_PROPERTY_HOST_VISIBLE_BIT,
                  contents := [9, 9] }],
    deletion_queue := [], buffers_created := 0, calls := [] }

/-- A freshly constructed index buffer object holding no resource, sized for 4 bytes. -/
def example_index_buffer : RHI_IndexBuffer :=
  { m_rhi_resource := 0, m_is_mappable := false, m_mapped_data := 0, m_object_size_gpu := 4,
    m_object_name := "index_buffer" }

/-- The access flags of `VkAccessFlagBits` (Vulkan 1.0) that stand for a read. -/
def read_access_flags : List Nat :=
  [ VK_ACCESS_INDIRECT_COMMAND_READ_BIT, VK_ACCESS_INDEX_READ_BIT,
    VK_ACCESS_VERTEX_ATTRIBUTE_READ_BIT, VK_ACCESS_UNIFORM_READ_BIT,
    VK_ACCESS_INPUT_ATTACHMENT_READ_BIT, VK_ACCESS_SHADER_READ_BIT,
    VK_ACCESS_COLOR_ATTACHMENT_READ_BIT, VK_ACCESS_DEPTH_STENCIL_ATTACHMENT_READ_BIT,
    VK_ACCESS_TRANSFER_READ_BIT, VK_ACCESS_HOST_READ_BIT, VK_ACCESS_MEMORY_READ_BIT ]

/-! ## Timeline semaphore (`vulkan_utility::timeline_semaphore`) -/

abbrev VK_SUCCESS : Nat := 0
abbrev VK_NOT_READY : Nat := 1
abbrev VK_TIMEOUT : Nat := 2

/-- Modelled from the spec: the `SP_ASSERT_MSG` macro, whose definition is not among the
sources.  As `SP_ASSERT` (section 7: "fatal assertions; not recoverable"), with the message
handed back as the fault. -/
def SP_ASSERT_MSG (condition : Bool) (message : String) : Except Fault Unit :=
  if condition then .ok () else .error (.assertion message)

/-- Embedding of `timeline_semaphore::wait(semaphore, wait_value, timeout)`, whose return type is
`void`.  `vkWaitSemaphores semaphore wait_value timeout` is the `VkResult` of the Vulkan call on
this one semaphore. -/
def timeline_semaphore.wait (vkWaitSemaphores : Nat → Nat → Nat → Nat)
    (semaphore wait_value timeout : Nat) : Except Fault Unit :=
  match SP_ASSERT_MSG (decide (semaphore ≠ 0)) "Invalid semaphore" with
  | .error f => .error f
  | .ok _ =>
    SP_ASSERT_MSG (decide (vkWaitSemaphores semaphore wait_value timeout = VK_SUCCESS))
      "Failed to wait for semaphore"

/-- `vkWaitSemaphores` on a device where the semaphore's counter stays at `counter semaphore`
for the whole wait: success if the awaited value has been reached, otherwise the timeout
elapses. -/
def vkWaitSemaphores_quiet (counter : Nat → Nat) (semaphore wait_value _timeout : Nat) : Nat :=
  if wait_value ≤ counter semaphore then VK_SUCCESS else VK_TIMEOUT

/-! ## Text, lines and the file system, as far as `RHI_Shader` uses them -/

/-- The pieces of a text between its newline characters (always at least one piece). -/
def split_newlines : List Char → List (List Char)
  | [] => [[]]
  | c :: cs =>
    if c = '\n' then [] :: split_newlines cs
    else
      match split_newlines cs with
      | [] => [[c]]
      | l :: ls => (c :: l) :: ls

/-- The lines that `while (getline(stream, source_line))` goes through: the pieces between the
newlines, without a last piece that is empty (no line is read at the end of the stream). -/
def getlines (source : String) : List String :=
  let pieces := split_newlines source.data
  (if pieces.getLast? = some [] then pieces.dropLast else pieces).map String.mk

/-- Test that `text` begins with `pattern`. -/
def starts_with : List Char → List Char → Bool
  | _, [] => true
  | [], _ :: _ => false
  | c :: cs, p :: ps => decide (c = p) && starts_with cs ps

/-- The test `text.find(pattern) != string::npos`. -/
def contains_text : List Char → List Char → Bool
  | [], pattern => starts_with [] pattern
  | c :: cs, pattern => starts_with (c :: cs) pattern || contains_text cs pattern

/-- The static `include_directive_prefix` of `PreprocessIncludeDirectives`. -/
def include_directive_prefix : String := "#include \""

/-- The test `source_line.find(include_directive_prefix) != string::npos`. -/
def is_include_directive (source_line : String) : Bool :=
  contains_text source_line.data include_directive_prefix.data

/-- The `FileSystem` helpers and the files they see.  The helper functions are declared outside
the sources shown and are left arbitrary; `files` lists the existing files as (path, text), a
file being identified by the spelling of its path, as in `m_file_paths_multiple`. -/
structure FileSystem where
  files : List (String × String)
  GetStringBetweenExpressions : String → String → String → String
  GetDirectoryFromFilePath : String → String
  GetFileNameFromFilePath : String → String
  GetFileNameWithoutExtensionFromFilePath : String → String

/-- Modelled from the spec: `FileSystem::IsFile` is not among the sources.  Section 6:
"existence checks". -/
def FileSystem.IsFile (fs : FileSystem) (path : String) : Bool :=
  decide (path ∈ fs.files.map Prod.fst)

/-- The text that `ifstream in(file_path); buffer << in.rdbuf();` yields: the file's text, the
empty text when the file cannot be opened. -/
def FileSystem.read (fs : FileSystem) (file_path : String) : String :=
  (fs.files.lookup file_path).getD ""

/-! ## `RHI_Shader` -/

/-- `RHI_Shader_Type`. -/
inductive RHI_Shader_Type where
  | RHI_Shader_Unknown
  | RHI_Shader_Vertex
  | RHI_Shader_Pixel
  | RHI_Shader_Compute
  deriving DecidableEq, Repr

/-- `RHI_ShaderCompilationState`. -/
inductive RHI_ShaderCompilationState where
  | Idle
  | Compiling
  | Succeeded
  | Failed
  deriving DecidableEq, Repr

/-- The members of `RHI_Shader` that `RHI_Shader.cpp` reads or writes.  `m_defines` lists the
definitions in the iteration order of the `unordered_map`; `m_input_layout` is the identity of
the shared `RHI_InputLayout` object (`none` for a null pointer).  `emitted_lines` is not a member:
it records, next to `m_preprocessed_source`, every line appended to it together with the path of
the file the line was read from. -/
structure RHI_Shader where
  m_shader_type : RHI_Shader_Type
  m_vertex_type : Nat
  m_input_layout : Option Nat
  m_compilation_state : RHI_ShaderCompilationState
  m_rhi_resource : Nat
  m_defines : List (String × String)
  m_object_name : String
  m_file_path : String
  m_preprocessed_source : String
  m_names : List String
  m_file_paths : List String
  m_sources : List String
  m_file_paths_multiple : List String
  m_hash : Nat
  emitted_lines : List (String × String)
  deriving DecidableEq, Repr

/-- The path an include directive line of `file_path` refers to:
`GetDirectoryFromFilePath(file_path) + GetStringBetweenExpressions(line, prefix, "\"")`. -/
def include_file_path (fs : FileSystem) (file_path source_line : String) : String :=
  fs.GetDirectoryFromFilePath file_path ++
    fs.GetStringBetweenExpressions source_line include_directive_prefix "\""

/-- The body of the `while (getline(...))` loop over the remaining lines of `file_path`;
`recurse` is the recursive call of `PreprocessIncludeDirectives`. -/
def process_lines (fs : FileSystem) (recurse : String → RHI_Shader → Option RHI_Shader)
    (file_path : String) : List String → RHI_Shader → Option RHI_Shader
  | [], shader => some shader
  | source_line :: rest, shader =>
    if is_include_directive source_line then
      match recurse (include_file_path fs file_path source_line) shader with
      | none => none
      | some shader => process_lines fs recurse file_path rest shader
    else
      process_lines fs recurse file_path rest
        { shader with
          m_preprocessed_source := shader.m_preprocessed_source ++ (source_line ++ "\n")
          emitted_lines := shader.emitted_lines ++ [(file_path, source_line)] }

/-- Embedding of `RHI_Shader::PreprocessIncludeDirectives(file_path)`.  `fuel` bounds the depth
of the recursion: `none` is returned when it is used up. -/
def RHI_Shader.PreprocessIncludeDirectives (fs : FileSystem) :
    (fuel : Nat) → (file_path : String) → RHI_Shader → Option RHI_Shader
  | 0, _, _ => none
  | fuel + 1, file_path, shader =>
    -- Skip already parsed include directives (avoid recursive include directives)
    if file_path ∈ shader.m_file_paths_multiple then some shader
    else
      let shader :=
        { shader with m_file_paths_multiple := shader.m_file_paths_multiple ++ [file_path] }
      let source := fs.read file_path
      match process_lines fs (RHI_Shader.PreprocessIncludeDirectives fs fuel) file_path
          (getlines source) shader with
      | none => none
      | some shader =>
        some { shader with
          m_names := shader.m_names ++ [fs.GetFileNameFromFilePath file_path]
          m_file_paths := shader.m_file_paths ++ [file_path]
          m_sources := shader.m_sources ++ [source] }

/-- The `Update hash` block of `LoadSource`; `hasher` is `std::hash<string>` and
`rhi_hash_combine` the engine's combiner (declared outside the sources shown); values are
64-bit. -/
def update_hash (hasher : String → Nat) (rhi_hash_combine : Nat → Nat → Nat)
    (preprocessed_source : String) (defines : List (String × String)) : Nat :=
  defines.foldl
    (fun m_hash it =>
      rhi_hash_combine (rhi_hash_combine m_hash (hasher it.1 % 2 ^ 64) % 2 ^ 64)
        (hasher it.2 % 2 ^ 64) % 2 ^ 64)
    (rhi_hash_combine 0 (hasher preprocessed_source % 2 ^ 64) % 2 ^ 64)

/-- Embedding of `RHI_Shader::LoadSource(file_path)`.  The recursion of
`PreprocessIncludeDirectives` never goes deeper than the number of existing files plus one,
which is the bound passed to it. -/
def RHI_Shader.LoadSource (fs : FileSystem) (hasher : String → Nat)
    (rhi_hash_combine : Nat → Nat → Nat) (file_path : String) (shader : RHI_Shader) :
    Option RHI_Shader :=
  -- Initialise a couple of things
  let shader :=
    { shader with
      m_object_name := fs.GetFileNameWithoutExtensionFromFilePath file_path
      m_file_path := file_path
      m_preprocessed_source := ""
      emitted_lines := []
      m_names := []
      m_file_paths := []
      m_sources := []
      m_file_paths_multiple := [] }
  match shader.PreprocessIncludeDirectives fs (fs.files.length + 1) file_path with
  | none => none
  | some shader =>
    let shader :=
      { shader with
        m_hash := update_hash hasher rhi_hash_combine shader.m_preprocessed_source
          shader.m_defines }
    some { shader with
      m_names := shader.m_names.reverse
      m_file_paths := shader.m_file_paths.reverse
      m_sources := shader.m_sources.reverse }

/-- Arguments of a log call. -/
inductive LogArgument where
  | text (value : String)
  | number (value : Nat)
  /-- The value of `timer.GetElapsedTimeMs()`. -/
  | elapsed_time_ms
  deriving DecidableEq, Repr

/-- Severity of a log call. -/
inductive LogLevel where
  | Info
  | Error
  deriving DecidableEq, Repr

/-- One `SP_LOG_INFO` / `SP_LOG_ERROR` call: the format text and its arguments. -/
structure LogMessage where
  level : LogLevel
  format : String
  arguments : List LogArgument
  deriving DecidableEq, Repr

/-- A unit of work handed to `ThreadPool::AddTask`.  The only one in `RHI_Shader.cpp` is the
lambda that calls `CompileShader` on the members of the shader. -/
inductive Task where
  | compile_shader
  deriving DecidableEq, Repr

/-- The shader object together with what its member functions affect outside it: the log, the
tasks handed to the thread pool, and two records used to state properties: every value written
to `m_compilation_state` and the number of calls of the backend compile function. -/
structure ShaderWorld where
  shader : RHI_Shader
  log : List LogMessage
  tasks : List Task
  state_writes : List RHI_ShaderCompilationState
  backend_compile_calls : Nat
  deriving DecidableEq, Repr

/-- The loop building `defines_str` in `CompileShader`. -/
def defines_string (defines : List (String × String)) : String :=
  defines.foldl
    (fun defines_str define =>
      (if defines_str ≠ "" then defines_str ++ ", " else defines_str) ++
        (define.1 ++ " = " ++ define.2))
    ""

/-- The three conditional assignments to `type_str` in `CompileShader`. -/
def type_string (shader_type : RHI_Shader_Type) : String :=
  let type_str := "unknown"
  let type_str := if shader_type = .RHI_Shader_Vertex then "vertex" else type_str
  let type_str := if shader_type = .RHI_Shader_Pixel then "pixel" else type_str
  if shader_type = .RHI_Shader_Compute then "compute" else type_str

/-- What `CompileShader` leaves behind: the two reference parameters it writes, the values it
wrote to `compilation_state` in order, and the message it logged. -/
structure CompileShaderOutcome where
  compilation_state : RHI_ShaderCompilationState
  resource : Nat
  state_writes : List RHI_ShaderCompilationState
  log : List LogMessage
  deriving DecidableEq, Repr

/-- Embedding of the static function `CompileShader(compilation_state, shader_type, defines,
object_name, resource, compile2)`.  `compile2 ()` is the handle the backend compile function
returns (null, `0`, on failure).  The incoming values of the two reference parameters are passed
although the body overwrites them without reading them. -/
def CompileShader (_compilation_state : RHI_ShaderCompilationState)
    (shader_type : RHI_Shader_Type) (defines : List (String × String)) (object_name : String)
    (_resource : Nat) (compile2 : Unit → Nat) : CompileShaderOutcome :=
  -- Compile
  let resource := compile2 ()
  let compilation_state :=
    if resource ≠ 0 then RHI_ShaderCompilationState.Succeeded
    else RHI_ShaderCompilationState.Failed
  -- Log compilation result
  let type_str := type_string shader_type
  let defines_str := defines_string defines
  let message : LogMessage :=
    if compilation_state = .Succeeded then
      if defines_str = "" then
        { level := .Info
          format := "Successfully compiled %s shader \"%s\" in %.2f ms."
          arguments := [.text type_str, .text object_name, .elapsed_time_ms] }
      else
        { level := .Info
          format := "Successfully compiled %s shader \"%s\" with definitions \"%s\" in %.2f ms."
          arguments := [.text type_str, .text object_name, .text defines_str,
            .elapsed_time_ms] }
    else
      if defines_str = "" then
        { level := .Error
          format := "Failed to compile shader \"%s\"."
          arguments := [.text object_name] }
      else
        { level := .Error
          format := "Failed to compile shader \"%s\" with definitions \"%s\"."
          arguments := [.text object_name, .text defines_str] }
  { compilation_state := compilation_state
    resource := resource
    state_writes := [.Compiling, compilation_state]
    log := [message] }

/-- What the shader code needs from outside: the file system, the two hash functions,
`RHI_Shader::RHI_Compile` (the backend compile function, declared outside the sources shown:
the handle it returns for a shader, null on failure), and the identity given to a newly made
`RHI_InputLayout`. -/
structure ShaderEnvironment where
  fs : FileSystem
  hasher : String → Nat
  rhi_hash_combine : Nat → Nat → Nat
  RHI_Compile : RHI_Shader → Nat
  new_input_layout : Nat

/-- The call `CompileShader(m_compilation_state, m_shader_type, m_defines, m_object_name,
m_rhi_resource, bind(&RHI_Shader::RHI_Compile, this))`, as made inline by `Compile` and by the
task it submits.  When `compile2` runs, the state member already holds Compiling. -/
def ShaderWorld.compile_shader_on_members (env : ShaderEnvironment) (w : ShaderWorld) :
    ShaderWorld :=
  let outcome := CompileShader w.shader.m_compilation_state w.shader.m_shader_type
    w.shader.m_defines w.shader.m_object_name w.shader.m_rhi_resource
    (fun _ => env.RHI_Compile
      { w.shader with m_compilation_state := RHI_ShaderCompilationState.Compiling })
  { w with
    shader :=
      { w.shader with
        m_compilation_state := outcome.compilation_state
        m_rhi_resource := outcome.resource }
    log := w.log ++ outcome.log
    state_writes := w.state_writes ++ outcome.state_writes
    backend_compile_calls := w.backend_compile_calls + 1 }

/-- Embedding of `RHI_Shader::Compile(type, file_path, async, vertex_type)`.  `none` only if
`LoadSource` uses up its recursion bound. -/
def RHI_Shader.Compile (env : ShaderEnvironment) (type : RHI_Shader_Type) (file_path : String)
    (async : Bool) (vertex_type : Nat) (w : ShaderWorld) : Option ShaderWorld :=
  let shader := { w.shader with m_shader_type := type, m_vertex_type := vertex_type }
  let shader :=
    if shader.m_shader_type = .RHI_Shader_Vertex then
      { shader with m_input_layout := some env.new_input_layout }
    else shader
  let w := { w with shader := shader }
  if ¬ env.fs.IsFile file_path then
    some { w with
      log := w.log ++
        [{ level := .Error, format := "\"%s\" doesn't exist.",
           arguments := [.text file_path] }] }
  else
    -- Load
    match w.shader.LoadSource env.fs env.hasher env.rhi_hash_combine file_path with
    | none => none
    | some shader =>
      -- Compile
      let w :=
        { w with
          shader := { shader with m_compilation_state := RHI_ShaderCompilationState.Idle }
          state_writes := w.state_writes ++ [RHI_ShaderCompilationState.Idle] }
      if ¬ async then some (w.compile_shader_on_members env)
      else some { w with tasks := w.tasks ++ [Task.compile_shader] }

/-- The thread pool running the task it was given first. -/
def ShaderWorld.run_task (env : ShaderEnvironment) (w : ShaderWorld) : ShaderWorld :=
  match w.tasks with
  | [] => w
  | Task.compile_shader :: rest => { w with tasks := rest }.compile_shader_on_members env

/-- Embedding of `RHI_Shader::SetSource(index, source)`; `index` is a `uint32_t`. -/
def RHI_Shader.SetSource (index : Nat) (source : String) (w : ShaderWorld) : ShaderWorld :=
  if index ≥ w.shader.m_sources.length then
    { w with
      log := w.log ++
        [{ level := .Error, format := "No source with index %d exists.",
           arguments := [.number index] }] }
  else
    { w with shader := { w.shader with m_sources := w.shader.m_sources.set index source } }

/-- The text of a list of lines, each followed by a newline. -/
def join_lines (lines : List String) : String :=
  lines.foldl (fun text line => text ++ (line ++ "\n")) ""

/-- The relation "a line of `a` is an include directive that refers to `b`". -/
def includes (fs : FileSystem) (a b : String) : Prop :=
  ∃ line, line ∈ getlines (fs.read a) ∧ is_include_directive line = true ∧
    b = include_file_path fs a line

/-- A file system for the examples: paths without directories, the include target being the
text after the prefix up to the next double quote. -/
def example_fs (files : List (String × String)) : FileSystem :=
  { files := files
    GetStringBetweenExpressions := fun line _ _ =>
      String.mk (((line.data.dropWhile (fun c => c ≠ '"')).drop 1).takeWhile (fun c => c ≠ '"'))
    GetDirectoryFromFilePath := fun _ => ""
    GetFileNameFromFilePath := fun path => path
    GetFileNameWithoutExtensionFromFilePath := fun path =>
      String.mk (path.data.takeWhile (fun c => c ≠ '.')) }

/-- A file system for the examples with directories: the directory of a path is its text up to
and including the last `/`; the rest as in `example_fs`. -/
def example_fs_with_directories (files : List (String × String)) : FileSystem :=
  { example_fs files with
    GetDirectoryFromFilePath := fun path =>
      String.mk ((path.data.reverse.dropWhile (fun c => c ≠ '/')).reverse) }

/-- A shader object as constructed, before any call. -/
def example_shader : RHI_Shader :=
  { m_shader_type := .RHI_Shader_Unknown, m_vertex_type := 0, m_input_layout := none,
    m_compilation_state := .Idle, m_rhi_resource := 0, m_defines := [], m_object_name := "",
    m_file_path := "", m_preprocessed_source := "", m_names := [], m_file_paths := [],
    m_sources := [], m_file_paths_multiple := [], m_hash := 0, emitted_lines := [] }

/-- An environment for the examples: the backend compiles every non-empty source (to handle
42) and fails on the empty one. -/
def example_environment (files : List (String × String)) : ShaderEnvironment :=
  { fs := example_fs files
    hasher := fun text => text.length
    rhi_hash_combine := fun seed value => 31 * seed + value
    RHI_Compile := fun shader => if shader.m_preprocessed_source = "" then 0 else 42
    new_input_layout := 1 }

/-- A combiner for the examples, of the usual shift-and-xor form
`seed ^ (value + 0x9e3779b9 + (seed << 6) + (seed >> 2))` on 64-bit values. -/
def example_hash_combine (seed value : Nat) : Nat :=
  seed ^^^ ((value + 0x9e3779b9 + seed * 64 % 2 ^ 64 + seed / 4) % 2 ^ 64)

/-- The world around a shader object as constructed: nothing logged, submitted or written. -/
def example_world : ShaderWorld :=
  { shader := example_shader, log := [], tasks := [], state_writes := [],
    backend_compile_calls := 0 }

/-! ## Descriptions used to state what include resolution does -/

/-- The shader object after the paths `visited` have been marked as visited, the lines `emitted`
(each with the path of its file) appended to the preprocessed source, and the files `recorded`
added to the three lists. -/
def RHI_Shader.extended (fs : FileSystem) (shader : RHI_Shader) (visited : List String)
    (emitted : List (String × String)) (recorded : List String) : RHI_Shader :=
  { shader with
    m_file_paths_multiple := shader.m_file_paths_multiple ++ visited
    emitted_lines := shader.emitted_lines ++ emitted
    m_preprocessed_source :=
      shader.m_preprocessed_source ++ join_lines (emitted.map Prod.snd)
    m_names := shader.m_names ++ recorded.map fs.GetFileNameFromFilePath
    m_file_paths := shader.m_file_paths ++ recorded
    m_sources := shader.m_sources ++ recorded.map fs.read }

/-- The existing files whose path is not among `visited`. -/
def unvisited_files (fs : FileSystem) (visited : List String) : List (String × String) :=
  fs.files.filter (fun file => decide (file.1 ∉ visited))

/-- What going through the lines `lines` of the file `file_path` adds, `seen` being the paths
visited before: the newly visited paths are new and distinct, the recorded files are the newly
visited ones in another order, each newly visited path is reached from an include directive
among the lines, each emitted line is a non-directive line of this file or of a newly visited
one, and the lines emitted for this file are its non-directive lines, in order. -/
def LinesAdded (fs : FileSystem) (file_path : String) (seen : List String)
    (lines : List String) (visited : List String) (emitted : List (String × String))
    (recorded : List String) : Prop :=
  (∀ p, p ∈ visited → p ∉ seen) ∧
  visited.Nodup ∧
  recorded.Perm visited ∧
  (∀ p, p ∈ visited → ∃ line, line ∈ lines ∧ is_include_directive line = true ∧
    Relation.ReflTransGen (includes fs) (include_file_path fs file_path line) p) ∧
  (∀ e, e ∈ emitted → is_include_directive e.2 = false ∧
    ((e.1 = file_path ∧ e.2 ∈ lines) ∨ (e.1 ∈ visited ∧ e.2 ∈ getlines (fs.read e.1)))) ∧
  (emitted.filter (fun e => decide (e.1 = file_path))).map Prod.snd =
    lines.filter (fun line => !is_include_directive line)

/-- What a call of `PreprocessIncludeDirectives` on `file_path` adds: nothing when the path was
visited before; otherwise the path is the first newly visited and the last recorded, and the rest
is what its lines add. -/
def FileAdded (fs : FileSystem) (file_path : String) (seen : List String)
    (visited : List String) (emitted : List (String × String)) (recorded : List String) :
    Prop :=
  (file_path ∈ seen ∧ visited = [] ∧ emitted = [] ∧ recorded = []) ∨
  (file_path ∉ seen ∧ ∃ visited' recorded',
    visited = file_path :: visited' ∧ recorded = recorded' ++ [file_path] ∧
    LinesAdded fs file_path (seen ++ [file_path]) (getlines (fs.read file_path)) visited'
      emitted recorded')

/-- Specification side: the text that the lines `lines` of the file `file_path` contribute, line
by line in file order: a line that is not an include directive contributes itself followed by a
newline, an include directive contributes the text of its target file (`text_of_file`, given
the paths visited so far).  Returned with the paths visited afterwards. -/
def spec_emitted_text_of_lines (fs : FileSystem)
    (text_of_file : String → List String → Option (String × List String))
    (file_path : String) : List String → List String → Option (String × List String)
  | [], visited => some ("", visited)
  | source_line :: rest, visited =>
    if is_include_directive source_line then
      match text_of_file (include_file_path fs file_path source_line) visited with
      | none => none
      | some (included, visited) =>
        match spec_emitted_text_of_lines fs text_of_file file_path rest visited with
        | none => none
        | some (following, visited) => some (included ++ following, visited)
    else
      match spec_emitted_text_of_lines fs text_of_file file_path rest visited with
      | none => none
      | some (following, visited) => some (source_line ++ "\n" ++ following, visited)

/-- Specification side: the text emitted for the file `file_path` when the paths `visited` have
been visited before in this pass: nothing if the path is among them, otherwise what its lines
contribute.  `fuel` bounds the depth of inclusion (`none` when it is used up). -/
def spec_emitted_text (fs : FileSystem) :
    (fuel : Nat) → (file_path : String) → (visited : List String) →
      Option (String × List String)
  | 0, _, _ => none
  | fuel + 1, file_path, visited =>
    if file_path ∈ visited then some ("", visited)
    else
      spec_emitted_text_of_lines fs (spec_emitted_text fs fuel) file_path
        (getlines (fs.read file_path)) (visited ++ [file_path])

/-- Specification side: the lines that the lines `lines` of the file `file_path` contribute to
the preprocessed source, each with the path of the file it comes from, in the order of
inclusion: a line that is not an include directive stands for itself, and at the place of an
include directive stand the lines of its target file (`lines_of_file`). -/
def spec_inlined_lines_of_lines (fs : FileSystem)
    (lines_of_file : String → List String → Option (List (String × String) × List String))
    (file_path : String) :
    List String → List String → Option (List (String × String) × List String)
  | [], visited => some ([], visited)
  | source_line :: rest, visited =>
    if is_include_directive source_line then
      match lines_of_file (include_file_path fs file_path source_line) visited with
      | none => none
      | some (included, visited) =>
        match spec_inlined_lines_of_lines fs lines_of_file file_path rest visited with
        | none => none
        | some (following, visited) => some (included ++ following, visited)
    else
      match spec_inlined_lines_of_lines fs lines_of_file file_path rest visited with
      | none => none
      | some (following, visited) => some ((file_path, source_line) :: following, visited)

/-- Specification side: the lines contributed by the file `file_path`, in the order of
inclusion, when the paths `visited` have been visited before: none if the path is among them,
otherwise what its lines contribute. -/
def spec_inlined_lines (fs : FileSystem) :
    (fuel : Nat) → (file_path : String) → (visited : List String) →
      Option (List (String × String) × List String)
  | 0, _, _ => none
  | fuel + 1, file_path, visited =>
    if file_path ∈ visited then some ([], visited)
    else
      spec_inlined_lines_of_lines fs (spec_inlined_lines fs fuel) file_path
        (getlines (fs.read file_path)) (visited ++ [file_path])

/-- What a call leaves, compared with the specification side. -/
def EmitsAsSpecified (shader shader' : RHI_Shader)
    (text : Option (String × List String))
    (lines : Option (List (String × String) × List String)) : Prop :=
  ∃ t l, text = some (t, shader'.m_file_paths_multiple) ∧
    lines = some (l, shader'.m_file_paths_multiple) ∧
    shader'.m_preprocessed_source = shader.m_preprocessed_source ++ t ∧
    shader'.emitted_lines = shader.emitted_lines ++ l

/-- Every path of `visited` has contributed to `emitted` exactly its own non-directive lines, in
file order. -/
def EachFileComplete (fs : FileSystem) (visited : List String)
    (emitted : List (String × String)) : Prop :=
  ∀ p, p ∈ visited →
    (emitted.filter (fun e => decide (e.1 = p))).map Prod.snd =
      (getlines (fs.read p)).filter (fun line => !is_include_directive line)

/-- The shader object `shader` with the members that include resolution neither reads nor
writes (type, vertex type, input layout, state, resource, definitions, object name, file path,
hash) replaced by those of `donor`. -/
def RHI_Shader.with_other_members (shader donor : RHI_Shader) : RHI_Shader :=
  { shader with
    m_shader_type := donor.m_shader_type
    m_vertex_type := donor.m_vertex_type
    m_input_layout := donor.m_input_layout
    m_compilation_state := donor.m_compilation_state
    m_rhi_resource := donor.m_rhi_resource
    m_defines := donor.m_defines
    m_object_name := donor.m_object_name
    m_file_path := donor.m_file_path
    m_hash := donor.m_hash }

/-! ## D3D11 sampler filter (`d3d11_utility::sampler::get_filter`) -/

abbrev D3D11_FILTER_MIN_MAG_MIP_POINT : Nat := 0x00
abbrev D3D11_FILTER_MIN_MAG_POINT_MIP_LINEAR : Nat := 0x01
abbrev D3D11_FILTER_MIN_POINT_MAG_LINEAR_MIP_POINT : Nat := 0x04
abbrev D3D11_FILTER_MIN_POINT_MAG_MIP_LINEAR : Nat := 0x05
abbrev D3D11_FILTER_MIN_LINEAR_MAG_MIP_POINT : Nat := 0x10
abbrev D3D11_FILTER_MIN_LINEAR_MAG_POINT_MIP_LINEAR : Nat := 0x11
abbrev D3D11_FILTER_MIN_MAG_LINEAR_MIP_POINT : Nat := 0x14
abbrev D3D11_FILTER_MIN_MAG_MIP_LINEAR : Nat := 0x15
abbrev D3D11_FILTER_ANISOTROPIC : Nat := 0x55
abbrev D3D11_FILTER_COMPARISON_MIN_MAG_MIP_POINT : Nat := 0x80
abbrev D3D11_FILTER_COMPARISON_MIN_MAG_POINT_MIP_LINEAR : Nat := 0x81
abbrev D3D11_FILTER_COMPARISON_MIN_POINT_MAG_LINEAR_MIP_POINT : Nat := 0x84
abbrev D3D11_FILTER_COMPARISON_MIN_POINT_MAG_MIP_LINEAR : Nat := 0x85
abbrev D3D11_FILTER_COMPARISON_MIN_LINEAR_MAG_MIP_POINT : Nat := 0x90
abbrev D3D11_FILTER_COMPARISON_MIN_LINEAR_MAG_POINT_MIP_LINEAR : Nat := 0x91
abbrev D3D11_FILTER_COMPARISON_MIN_MAG_LINEAR_MIP_POINT : Nat := 0x94
abbrev D3D11_FILTER_COMPARISON_MIN_MAG_MIP_LINEAR : Nat := 0x95
abbrev D3D11_FILTER_COMPARISON_ANISOTROPIC : Nat := 0xd5

/-- The comparison variants among the `D3D11_FILTER` values that `get_filter` can return. -/
def comparison_filters : List Nat :=
  [ D3D11_FILTER_COMPARISON_MIN_MAG_MIP_POINT, D3D11_FILTER_COMPARISON_MIN_MAG_POINT_MIP_LINEAR,
    D3D11_FILTER_COMPARISON_MIN_POINT_MAG_LINEAR_MIP_POINT,
    D3D11_FILTER_COMPARISON_MIN_POINT_MAG_MIP_LINEAR,
    D3D11_FILTER_COMPARISON_MIN_LINEAR_MAG_MIP_POINT,
    D3D11_FILTER_COMPARISON_MIN_LINEAR_MAG_POINT_MIP_LINEAR,
    D3D11_FILTER_COMPARISON_MIN_MAG_LINEAR_MIP_POINT, D3D11_FILTER_COMPARISON_MIN_MAG_MIP_LINEAR,
    D3D11_FILTER_COMPARISON_ANISOTROPIC ]

/-- `RHI_Filter` (declared outside the sources shown): the two enumerators that `get_filter`
tests, and any other value of the type. -/
inductive RHI_Filter where
  | Nearest
  | Linear
  | other (value : Nat)
  deriving DecidableEq, Repr

/-- `RHI_Sampler_Mipmap_Mode` (declared outside the sources shown): the two enumerators that
`get_filter` tests, and any other value of the type. -/
inductive RHI_Sampler_Mipmap_Mode where
  | Nearest
  | Linear
  | other (value : Nat)
  deriving DecidableEq, Repr

/-- Embedding of `sampler::get_filter(filter_min, filter_mag, filter_mipmap,
anisotropy_enabled, comparison_enabled)`. -/
def get_filter (filter_min filter_mag : RHI_Filter) (filter_mipmap : RHI_Sampler_Mipmap_Mode)
    (anisotropy_enabled comparison_enabled : Bool) : Except Fault Nat :=
  if anisotropy_enabled then
    .ok (if !comparison_enabled then D3D11_FILTER_ANISOTROPIC
      else D3D11_FILTER_COMPARISON_ANISOTROPIC)
  else if filter_min = .Nearest ∧ filter_mag = .Nearest ∧ filter_mipmap = .Nearest then
    .ok (if !comparison_enabled then D3D11_FILTER_MIN_MAG_MIP_POINT
      else D3D11_FILTER_COMPARISON_MIN_MAG_MIP_POINT)
  else if filter_min = .Nearest ∧ filter_mag = .Nearest ∧ filter_mipmap = .Linear then
    .ok (if !comparison_enabled then D3D11_FILTER_MIN_MAG_POINT_MIP_LINEAR
      else D3D11_FILTER_COMPARISON_MIN_MAG_POINT_MIP_LINEAR)
  else if filter_min = .Nearest ∧ filter_mag = .Linear ∧ filter_mipmap = .Nearest then
    .ok (if !comparison_enabled then D3D11_FILTER_MIN_POINT_MAG_LINEAR_MIP_POINT
      else D3D11_FILTER_COMPARISON_MIN_POINT_MAG_LINEAR_MIP_POINT)
  else if filter_min = .Nearest ∧ filter_mag = .Linear ∧ filter_mipmap = .Linear then
    .ok (if !comparison_enabled then D3D11_FILTER_MIN_POINT_MAG_MIP_LINEAR
      else D3D11_FILTER_COMPARISON_MIN_POINT_MAG_MIP_LINEAR)
  else if filter_min = .Linear ∧ filter_mag = .Nearest ∧ filter_mipmap = .Nearest then
    .ok (if !comparison_enabled then D3D11_FILTER_MIN_LINEAR_MAG_MIP_POINT
      else D3D11_FILTER_COMPARISON_MIN_LINEAR_MAG_MIP_POINT)
  else if filter_min = .Linear ∧ filter_mag = .Nearest ∧ filter_mipmap = .Linear then
    .ok (if !comparison_enabled then D3D11_FILTER_MIN_LINEAR_MAG_POINT_MIP_LINEAR
      else D3D11_FILTER_COMPARISON_MIN_LINEAR_MAG_POINT_MIP_LINEAR)
  else if filter_min = .Linear ∧ filter_mag = .Linear ∧ filter_mipmap = .Nearest then
    .ok (if !comparison_enabled then D3D11_FILTER_MIN_MAG_LINEAR_MIP_POINT
      else D3D11_FILTER_COMPARISON_MIN_MAG_LINEAR_MIP_POINT)
  else if filter_min = .Linear ∧ filter_mag = .Linear ∧ filter_mipmap = .Linear then
    .ok (if !comparison_enabled then D3D11_FILTER_MIN_MAG_MIP_LINEAR
      else D3D11_FILTER_COMPARISON_MIN_MAG_MIP_LINEAR)
  else
    match SP_ASSERT_MSG false "D3D11_Sampler filter not supported." with
    | .error f => .error f
    | .ok _ => .ok D3D11_FILTER_MIN_MAG_MIP_POINT

/-! ## `Cb_Frame` (`Renderer_ConstantBuffers.h`) -/

/-- The data members of `Cb_Frame`, in declaration order.  The math types and `float` belong to
collaborators outside the sources shown: they are type parameters, and their `operator==` is the
`BEq` instance passed to `Cb_Frame.operator_eq`. -/
structure Cb_Frame (Matrix Vector3 Vector2 float : Type) where
  view : Matrix
  projection : Matrix
  projection_inverted : Matrix
  projection_ortho : Matrix
  view_projection : Matrix
  view_projection_inv : Matrix
  view_projection_ortho : Matrix
  view_projection_unjittered : Matrix
  view_projection_previous : Matrix
  delta_time : float
  time : float
  frame : Nat
  camera_aperture : float
  camera_shutter_speed : float
  camera_iso : float
  camera_near : float
  camera_far : float
  camera_position : Vector3
  bloom_intensity : float
  sharpness : float
  camera_direction : Vector3
  gamma : float
  tonemapping : float
  fog : float
  shadow_resolution : float
  resolution_render : Vector2
  resolution_output : Vector2
  taa_jitter_current : Vector2
  taa_jitter_previous : Vector2
  options : Nat
  frame_mip_count : Nat
  ssr_mip_count : Nat
  exposure : float
  resolution_environment : Vector2
  luminance_max : float
  padding : float

/-- Embedding of `bool Cb_Frame::operator==(const Cb_Frame& rhs) const`: the conjunction of
the member comparisons, in the order of the source. -/
def Cb_Frame.operator_eq {Matrix Vector3 Vector2 float : Type} [BEq Matrix] [BEq Vector3]
    [BEq Vector2] [BEq float] (lhs rhs : Cb_Frame Matrix Vector3 Vector2 float) : Bool :=
  lhs.view == rhs.view &&
  lhs.projection == rhs.projection &&
  lhs.projection_inverted == rhs.projection_inverted &&
  lhs.projection_ortho == rhs.projection_ortho &&
  lhs.view_projection == rhs.view_projection &&
  lhs.view_projection_inv == rhs.view_projection_inv &&
  lhs.view_projection_ortho == rhs.view_projection_ortho &&
  lhs.view_projection_unjittered == rhs.view_projection_unjittered &&
  lhs.view_projection_previous == rhs.view_projection_previous &&
  lhs.delta_time == rhs.delta_time &&
  lhs.time == rhs.time &&
  lhs.frame == rhs.frame &&
  lhs.camera_aperture == rhs.camera_aperture &&
  lhs.camera_shutter_speed == rhs.camera_shutter_speed &&
  lhs.camera_iso == rhs.camera_iso &&
  lhs.camera_near == rhs.camera_near &&
  lhs.camera_far == rhs.camera_far &&
  lhs.camera_position == rhs.camera_position &&
  lhs.sharpness == rhs.sharpness &&
  lhs.camera_direction == rhs.camera_direction &&
  lhs.gamma == rhs.gamma &&
  lhs.tonemapping == rhs.tonemapping &&
  lhs.shadow_resolution == rhs.shadow_resolution &&
  lhs.fog == rhs.fog &&
  lhs.resolution_output == rhs.resolution_output &&
  lhs.resolution_render == rhs.resolution_render &&
  lhs.taa_jitter_current == rhs.taa_jitter_current &&
  lhs.taa_jitter_previous == rhs.taa_jitter_previous &&
  lhs.options == rhs.options &&
  lhs.frame_mip_count == rhs.frame_mip_count &&
  lhs.ssr_mip_count == rhs.ssr_mip_count &&
  lhs.resolution_environment == rhs.resolution_environment &&
  lhs.exposure == rhs.exposure &&
  lhs.luminance_max == rhs.luminance_max

/-- Embedding of `bool Cb_Frame::operator!=(const Cb_Frame& rhs) const`. -/
def Cb_Frame.operator_ne {Matrix Vector3 Vector2 float : Type} [BEq Matrix] [BEq Vector3]
    [BEq Vector2] [BEq float] (lhs rhs : Cb_Frame Matrix Vector3 Vector2 float) : Bool :=
  !(lhs.operator_eq rhs)

/-- A frame buffer with every member set to the same number, floats and vectors being stood for
by natural numbers. -/
def example_frame (value bloom_intensity : Nat) : Cb_Frame Nat Nat Nat Nat :=
  { view := value, projection := value, projection_inverted := value,
    projection_ortho := value, view_projection := value, view_projection_inv := value,
    view_projection_ortho := value, view_projection_unjittered := value,
    view_projection_previous := value, delta_time := value, time := value, frame := value,
    camera_aperture := value, camera_shutter_speed := value, camera_iso := value,
    camera_near := value, camera_far := value, camera_position := value,
    bloom_intensity := bloom_intensity, sharpness := value, camera_direction := value,
    gamma := value, tonemapping := value, fog := value, shadow_resolution := value,
    resolution_render := value, resolution_output := value, taa_jitter_current := value,
    taa_jitter_previous := value, options := value, frame_mip_count := value,
    ssr_mip_count := value, exposure := value, resolution_environment := value,
    luminance_max := value, padding := value }

/-! # Properties -/

/-! ## Bit-level facts about the lowest set bit -/

theorem uint32_max_eq : UINT32_MAX = 2 ^ 32 - 1 := by norm_num [UINT32_MAX]

theorem testBit_bit_not32 (x i : Nat) :
    (bit_not32 x).testBit i = (decide (i < 32) != x.testBit i) := by
  rw [bit_not32, uint32_max_eq, Nat.testBit_xor, Nat.testBit_two_pow_sub_one]

/-- Every non-zero number is an odd multiple of a power of two. -/
theorem exists_lowest_bit {a : Nat} (ha : a ≠ 0) : ∃ k m, a = 2 ^ (k + 1) * m + 2 ^ k := by
  obtain ⟨k, m, hm, rfl⟩ := Nat.exists_eq_two_pow_mul_odd ha
  obtain ⟨m', rfl⟩ := hm
  exact ⟨k, m', by ring⟩

theorem testBit_of_lowest_bit (k m i : Nat) :
    (2 ^ (k + 1) * m + 2 ^ k).testBit i =
      if i < k + 1 then decide (k = i) else m.testBit (i - (k + 1)) := by
  rw [Nat.testBit_mul_pow_two_add m (Nat.pow_lt_pow_succ (by decide : 1 < 2)) i,
    Nat.testBit_two_pow]

theorem testBit_pred_of_lowest_bit (k m i : Nat) :
    (2 ^ (k + 1) * m + 2 ^ k - 1).testBit i =
      if i < k + 1 then decide (i < k) else m.testBit (i - (k + 1)) := by
  have hpos : 0 < 2 ^ k := Nat.two_pow_pos k
  have hlt : 2 ^ k - 1 < 2 ^ (k + 1) := by
    have : 2 ^ (k + 1) = 2 * 2 ^ k := by ring
    omega
  have hrw : 2 ^ (k + 1) * m + 2 ^ k - 1 = 2 ^ (k + 1) * m + (2 ^ k - 1) := by omega
  rw [hrw, Nat.testBit_mul_pow_two_add m hlt i, Nat.testBit_two_pow_sub_one]

theorem lowest_bit_lt_32 {k m : Nat} (h : 2 ^ (k + 1) * m + 2 ^ k < 2 ^ 32) : k < 32 := by
  by_contra hk
  have : 2 ^ 32 ≤ 2 ^ k := Nat.pow_le_pow_right (by decide) (by omega)
  omega

theorem testBit_eq_false_of_lt_u32 {a i : Nat} (ha : a < 2 ^ 32) (hi : 32 ≤ i) :
    a.testBit i = false :=
  Nat.testBit_lt_two_pow (lt_of_lt_of_le ha (Nat.pow_le_pow_right (by decide) hi))

/-- `access_flags & ~(access_flags - 1)` isolates the lowest set bit. -/
theorem lowest_bit_isolated {k m : Nat} (h : 2 ^ (k + 1) * m + 2 ^ k < 2 ^ 32) :
    (2 ^ (k + 1) * m + 2 ^ k) &&& bit_not32 (2 ^ (k + 1) * m + 2 ^ k - 1) = 2 ^ k := by
  have hk := lowest_bit_lt_32 h
  apply Nat.eq_of_testBit_eq
  intro i
  rw [Nat.testBit_and, testBit_bit_not32, testBit_pred_of_lowest_bit, Nat.testBit_two_pow]
  by_cases h32 : 32 ≤ i
  · rw [testBit_eq_false_of_lt_u32 h h32]
    have : k ≠ i := by omega
    simp [this]
  · rw [testBit_of_lowest_bit]
    rcases Nat.lt_trichotomy i k with hlt | heq | hgt
    · have h1 : i < k + 1 := by omega
      have h2 : k ≠ i := by omega
      simp [h1, h2]
    · subst heq
      simp [hk]
    · have h1 : ¬ i < k + 1 := by omega
      have h2 : k ≠ i := by omega
      have h3 : i < 32 := by omega
      simp [h1, h2, h3]

/-- A single bit passes the assertion of the loop body. -/
theorem two_pow_and_pred (k : Nat) : 2 ^ k &&& (2 ^ k - 1) = 0 := by
  apply Nat.eq_of_testBit_eq
  intro i
  rw [Nat.testBit_and, Nat.testBit_two_pow, Nat.testBit_two_pow_sub_one, Nat.zero_testBit]
  by_cases h : k = i
  · subst h; simp
  · simp [h]

/-- `access_flags &= ~access_flag` clears exactly the bit `k` of a 32-bit mask. -/
theorem testBit_clear_bit {a k : Nat} (ha : a < 2 ^ 32) (i : Nat) :
    (a &&& bit_not32 (2 ^ k)).testBit i = (a.testBit i && decide (i ≠ k)) := by
  rw [Nat.testBit_and, testBit_bit_not32, Nat.testBit_two_pow]
  by_cases h32 : 32 ≤ i
  · rw [testBit_eq_false_of_lt_u32 ha h32]; simp
  · have h3 : i < 32 := by omega
    by_cases h : k = i
    · subst h; simp [h3]
    · have h' : i ≠ k := fun e => h e.symm
      simp [h, h', h3]

/-! ## The loop of `access_flags_to_pipeline_stage` -/

theorem stage_union_zero (e n : Nat) : stage_union e 0 n = 0 := by
  induction n with
  | zero => rfl
  | succ n ih => simp [stage_union, ih]

theorem stage_union_or (e a b n : Nat) :
    stage_union e (a ||| b) n = stage_union e a n ||| stage_union e b n := by
  induction n with
  | zero => simp [stage_union]
  | succ n ih =>
    simp only [stage_union, ih, Nat.testBit_or]
    apply Nat.eq_of_testBit_eq
    intro i
    cases a.testBit n <;> cases b.testBit n <;>
      simp [Bool.or_assoc, Bool.or_comm, Bool.or_left_comm]

/-- Clearing a set bit `k` removes exactly that bit's contribution. -/
theorem stage_union_clear_bit (e : Nat) {a a' k : Nat} (hk : a.testBit k = true)
    (hclear : ∀ i, a'.testBit i = (a.testBit i && decide (i ≠ k))) (n : Nat) :
    stage_union e a n =
      (if k < n then access_flag_stages e (2 ^ k) else 0) ||| stage_union e a' n := by
  induction n with
  | zero => simp [stage_union]
  | succ n ih =>
    simp only [stage_union, ih, hclear n]
    apply Nat.eq_of_testBit_eq
    intro i
    rcases Nat.lt_trichotomy k n with hlt | heq | hgt
    · have h1 : k < n + 1 := by omega
      have h2 : n ≠ k := by omega
      simp [hlt, h1, h2, Bool.or_assoc]
    · subst heq
      simp [hk, Bool.or_comm]
    · have h1 : ¬ k < n + 1 := by omega
      have h2 : ¬ k < n := by omega
      have h3 : n ≠ k := by omega
      simp [h1, h2, h3]

/-- The loop, started on a 32-bit mask whose bits below `j` are clear, with at least `32 - j`
iterations allowed, ends normally and has or-ed into `stages` the union of the stages of every
set bit. -/
theorem access_flags_to_pipeline_stage_loop_eq (e : Nat) :
    ∀ (fuel j a s : Nat), a < 2 ^ 32 → (∀ i, i < j → a.testBit i = false) → 32 ≤ fuel + j →
      access_flags_to_pipeline_stage_loop e fuel a s = .ok (s ||| stage_union e a 32) := by
  intro fuel
  induction fuel with
  | zero =>
    intro j a s ha hlow hfuel
    have h0 : a = 0 := by
      apply Nat.eq_of_testBit_eq
      intro i
      rw [Nat.zero_testBit]
      by_cases hi : i < 32
      · exact hlow i (by omega)
      · exact testBit_eq_false_of_lt_u32 ha (by omega)
    subst h0
    simp [access_flags_to_pipeline_stage_loop, stage_union_zero]
  | succ fuel ih =>
    intro j a s ha hlow hfuel
    by_cases h0 : a = 0
    · subst h0
      simp [access_flags_to_pipeline_stage_loop, stage_union_zero]
    · obtain ⟨k, m, rfl⟩ := exists_lowest_bit h0
      have hk32 := lowest_bit_lt_32 ha
      have hbit : (2 ^ (k + 1) * m + 2 ^ k).testBit k = true := by
        rw [testBit_of_lowest_bit]; simp
      have hjk : j ≤ k := by
        by_contra hlt
        have := hlow k (by omega)
        rw [hbit] at this
        exact Bool.noConfusion this
      have hassert : SP_ASSERT (decide (2 ^ k ≠ 0) && decide (2 ^ k &&& (2 ^ k - 1) = 0))
          "access_flag != 0 && (access_flag & (access_flag - 1)) == 0" = .ok () := by
        have hne : 2 ^ k ≠ 0 := (Nat.two_pow_pos k).ne'
        simp [SP_ASSERT, two_pow_and_pred, hne]
      have hclear := testBit_clear_bit (k := k) ha
      have hlt' : (2 ^ (k + 1) * m + 2 ^ k) &&& bit_not32 (2 ^ k) < 2 ^ 32 :=
        lt_of_le_of_lt Nat.and_le_left ha
      have hlow' : ∀ i, i < k + 1 →
          ((2 ^ (k + 1) * m + 2 ^ k) &&& bit_not32 (2 ^ k)).testBit i = false := by
        intro i hi
        rw [hclear i, testBit_of_lowest_bit, if_pos hi]
        by_cases hik : k = i
        · subst hik; simp
        · simp [hik]
      rw [access_flags_to_pipeline_stage_loop, if_neg h0]
      simp only [lowest_bit_isolated ha, hassert]
      rw [ih (k + 1) _ _ hlt' hlow' (by omega),
        stage_union_clear_bit e hbit hclear 32, if_pos hk32, Nat.lor_assoc]

/-- On every 32-bit mask the function returns, and its value is the union of the stages of the
set bits. -/
theorem access_flags_to_pipeline_stage_eq (e : Nat) {a : Nat} (ha : a < 2 ^ 32) :
    access_flags_to_pipeline_stage e a = .ok (stage_union e a 32) := by
  rw [access_flags_to_pipeline_stage,
    access_flags_to_pipeline_stage_loop_eq e 32 0 a 0 ha (fun i hi => absurd hi (by omega))
      (by omega), Nat.zero_or]

/-- More iterations than 32 never change the outcome. -/
theorem access_flags_to_pipeline_stage_loop_fuel (e : Nat) {a : Nat} (ha : a < 2 ^ 32)
    (fuel : Nat) (hfuel : 32 ≤ fuel) :
    access_flags_to_pipeline_stage_loop e fuel a 0 = access_flags_to_pipeline_stage e a := by
  rw [access_flags_to_pipeline_stage_eq e ha,
    access_flags_to_pipeline_stage_loop_eq e fuel 0 a 0 ha (fun i hi => absurd hi (by omega))
      (by omega), Nat.zero_or]

theorem or_ne_zero_of_right {x y : Nat} (hy : y ≠ 0) : x ||| y ≠ 0 := by
  obtain ⟨i, hi⟩ := Nat.ne_zero_implies_bit_true hy
  intro h
  have hbit : (x ||| y).testBit i = true := by rw [Nat.testBit_or, hi, Bool.or_true]
  rw [h, Nat.zero_testBit] at hbit
  exact Bool.noConfusion hbit

theorem or_ne_zero_of_left {x y : Nat} (hx : x ≠ 0) : x ||| y ≠ 0 := by
  rw [Nat.lor_comm]; exact or_ne_zero_of_right hx

/-- A set bit whose flag contributes stages makes the union non-empty. -/
theorem stage_union_ne_zero (e : Nat) {a k n : Nat} (hk : a.testBit k = true) (hkn : k < n)
    (hg : access_flag_stages e (2 ^ k) ≠ 0) : stage_union e a n ≠ 0 := by
  induction n with
  | zero => omega
  | succ n ih =>
    rw [stage_union]
    by_cases h : k = n
    · subst h
      rw [hk, if_pos rfl]
      exact or_ne_zero_of_right hg
    · exact or_ne_zero_of_left (ih (by omega))

/-! ## Facts about `layout_to_access_mask` -/

theorem mem_handled_layouts {layout : Nat} (h : layout ∈ handled_layouts) :
    layout = 0 ∨ layout = 8 ∨ layout = 1000001002 ∨ layout = 6 ∨ layout = 7 ∨ layout = 2 ∨
    layout = 1000241000 ∨ layout = 3 ∨ layout = 1000117000 ∨ layout = 1000117001 ∨ layout = 1 ∨
    layout = 5 ∨ layout = 1000241001 ∨ layout = 4 := by
  simpa [handled_layouts] using h

/-- A layout without a `case` label takes the `default` branch. -/
theorem layout_to_access_mask_unhandled {layout : Nat} (h : layout ∉ handled_layouts)
    (d : Bool) (log : List String) :
    layout_to_access_mask layout d log = (.ok 0, log ++ ["Unexpected image layout"]) := by
  simp only [handled_layouts, List.mem_cons, List.mem_singleton, List.not_mem_nil, or_false,
    not_or] at h
  obtain ⟨h1, h2, h3, h4, h5, h6, h7, h8, h9, h10, h11, h12, h13, h14⟩ := h
  unfold layout_to_access_mask
  rw [if_neg h1, if_neg h2, if_neg h3, if_neg h4, if_neg h5, if_neg h6, if_neg h7, if_neg h8,
    if_neg h9, if_neg h10, if_neg h11, if_neg h12, if_neg h13, if_neg h14]

/-- Every access mask the function returns lies below bit 15 (the highest is `HOST_WRITE`). -/
theorem layout_to_access_mask_ok_bound {layout : Nat} {d : Bool} {log log' : List String}
    {m : Nat} (h : layout_to_access_mask layout d log = (.ok m, log')) : m < 2 ^ 15 := by
  by_cases hl : layout ∈ handled_layouts
  · rcases mem_handled_layouts hl with
      rfl | rfl | rfl | rfl | rfl | rfl | rfl | rfl | rfl | rfl | rfl | rfl | rfl | rfl <;>
    cases d <;> simp [layout_to_access_mask, SP_ASSERT] at h <;>
      (obtain ⟨rfl, -⟩ := h; decide)
  · rw [layout_to_access_mask_unhandled hl] at h
    simp only [Prod.mk.injEq, Except.ok.injEq] at h
    obtain ⟨rfl, -⟩ := h
    decide

/-- A handled layout leaves the log as it is. -/
theorem layout_to_access_mask_handled_log {layout : Nat} (hl : layout ∈ handled_layouts)
    (d : Bool) (log : List String) : (layout_to_access_mask layout d log).2 = log := by
  rcases mem_handled_layouts hl with
    rfl | rfl | rfl | rfl | rfl | rfl | rfl | rfl | rfl | rfl | rfl | rfl | rfl | rfl <;>
  cases d <;> simp [layout_to_access_mask, SP_ASSERT]

/-- As the destination, Undefined fails the assertion. -/
theorem layout_to_access_mask_undefined_destination (log : List String) :
    layout_to_access_mask VK_IMAGE_LAYOUT_UNDEFINED true log =
      (.error (.assertion
        "The new layout used in a transition must not be VK_IMAGE_LAYOUT_UNDEFINED."), log) := by
  simp [layout_to_access_mask, SP_ASSERT]

/-- As the destination, Preinitialized fails the assertion. -/
theorem layout_to_access_mask_preinitialized_destination (log : List String) :
    layout_to_access_mask VK_IMAGE_LAYOUT_PREINITIALIZED true log =
      (.error (.assertion
        "The new layout used in a transition must not be VK_IMAGE_LAYOUT_PREINITIALIZED."),
        log) := by
  simp [layout_to_access_mask, SP_ASSERT]

/-- Unless the layout is Undefined or Preinitialized used as destination, an access mask is
returned: no assertion fails. -/
theorem layout_to_access_mask_returns (layout : Nat) (d : Bool) (log : List String)
    (h : d = false ∨ (layout ≠ VK_IMAGE_LAYOUT_UNDEFINED ∧
      layout ≠ VK_IMAGE_LAYOUT_PREINITIALIZED)) :
    ∃ m log', layout_to_access_mask layout d log = (.ok m, log') := by
  by_cases hl : layout ∈ handled_layouts
  · rcases mem_handled_layouts hl with
      rfl | rfl | rfl | rfl | rfl | rfl | rfl | rfl | rfl | rfl | rfl | rfl | rfl | rfl <;>
    cases d <;> simp [layout_to_access_mask, SP_ASSERT] at h ⊢
  · exact ⟨_, _, layout_to_access_mask_unhandled hl d log⟩

/-! ## Facts about the stage masks -/

/-- Each of the fifteen access flags below `MEMORY_READ` has a `case` that adds a stage. -/
theorem access_flag_stages_ne_zero (e : Nat) {k : Nat} (hk : k < 15) :
    access_flag_stages e (2 ^ k) ≠ 0 := by
  interval_cases k <;> simp [access_flag_stages] <;> exact or_ne_zero_of_right (by decide)

/-- A non-empty access mask below bit 15 is mapped to a non-empty stage mask. -/
theorem access_flags_to_pipeline_stage_ne_zero (e : Nat) {m : Nat} (hm : m < 2 ^ 15)
    (h0 : m ≠ 0) : ∃ s, access_flags_to_pipeline_stage e m = .ok s ∧ s ≠ 0 := by
  have h32 : m < 2 ^ 32 := lt_of_lt_of_le hm (by decide)
  refine ⟨_, access_flags_to_pipeline_stage_eq e h32, ?_⟩
  obtain ⟨k, hk⟩ := Nat.ne_zero_implies_bit_true h0
  have hk15 : k < 15 := by
    by_contra hge
    have : m.testBit k = false :=
      Nat.testBit_lt_two_pow (lt_of_lt_of_le hm (Nat.pow_le_pow_right (by decide) (by omega)))
    rw [hk] at this
    exact Bool.noConfusion this
  exact stage_union_ne_zero e hk (by omega) (access_flag_stages_ne_zero e hk15)

theorem source_stage_mask_returns (e : Nat) {layout : Nat} {log log' : List String} {m : Nat}
    (h : layout_to_access_mask layout false log = (.ok m, log')) :
    ∃ s, source_stage_mask e layout m = .ok s := by
  have h32 : m < 2 ^ 32 := lt_of_lt_of_le (layout_to_access_mask_ok_bound h) (by decide)
  unfold source_stage_mask
  by_cases h1 : layout = VK_IMAGE_LAYOUT_PRESENT_SRC_KHR
  · exact ⟨_, if_pos h1⟩
  · by_cases h2 : layout = VK_IMAGE_LAYOUT_UNDEFINED
    · rw [if_neg h1, if_pos h2]; exact ⟨_, rfl⟩
    · rw [if_neg h1, if_neg h2]; exact ⟨_, access_flags_to_pipeline_stage_eq e h32⟩

theorem destination_stage_mask_returns (e : Nat) {layout : Nat} {log log' : List String}
    {m : Nat} (h : layout_to_access_mask layout true log = (.ok m, log')) :
    ∃ s, destination_stage_mask e layout m = .ok s := by
  have h32 : m < 2 ^ 32 := lt_of_lt_of_le (layout_to_access_mask_ok_bound h) (by decide)
  unfold destination_stage_mask
  by_cases h1 : layout = VK_IMAGE_LAYOUT_PRESENT_SRC_KHR
  · exact ⟨_, if_pos h1⟩
  · rw [if_neg h1]; exact ⟨_, access_flags_to_pipeline_stage_eq e h32⟩

/-! ## Facts about `set_layout` -/

/-- With valid pointers and a new layout other than Undefined and Preinitialized, `set_layout`
returns normally and records exactly one pipeline barrier, built from the two access masks and
the two stage masks. -/
theorem set_layout_records (table : Nat → Nat) (e : Nat)
    (cmd_buffer image aspect_mask mip_index mip_range array_length layout_old layout_new : Nat)
    (r : Recording) (hcmd : cmd_buffer ≠ 0) (himg : image ≠ 0)
    (hu : table layout_new ≠ VK_IMAGE_LAYOUT_UNDEFINED)
    (hp : table layout_new ≠ VK_IMAGE_LAYOUT_PREINITIALIZED) :
    ∃ srcA log1 dstA log2 ss ds,
      layout_to_access_mask (table layout_old) false r.log = (.ok srcA, log1) ∧
      layout_to_access_mask (table layout_new) true log1 = (.ok dstA, log2) ∧
      source_stage_mask e (table layout_old) srcA = .ok ss ∧
      destination_stage_mask e (table layout_new) dstA = .ok ds ∧
      set_layout table e cmd_buffer image aspect_mask mip_index mip_range array_length
          layout_old layout_new r =
        (.ok (),
          { log := log2
            commands := r.commands ++
              [{ commandBuffer := cmd_buffer
                 srcStageMask := ss
                 dstStageMask := ds
                 dependencyFlags := 0
                 imageMemoryBarriers :=
                  [{ oldLayout := table layout_old
                     newLayout := table layout_new
                     srcQueueFamilyIndex := VK_QUEUE_FAMILY_IGNORED
                     dstQueueFamilyIndex := VK_QUEUE_FAMILY_IGNORED
                     image := image
                     aspectMask := aspect_mask
                     baseMipLevel := mip_index
                     levelCount := mip_range
                     baseArrayLayer := 0
                     layerCount := array_length
                     srcAccessMask := srcA
                     dstAccessMask := dstA }] }] }) := by
  obtain ⟨srcA, log1, h1⟩ := layout_to_access_mask_returns (table layout_old) false r.log
    (Or.inl rfl)
  obtain ⟨dstA, log2, h2⟩ := layout_to_access_mask_returns (table layout_new) true log1
    (Or.inr ⟨hu, hp⟩)
  obtain ⟨ss, h3⟩ := source_stage_mask_returns e h1
  obtain ⟨ds, h4⟩ := destination_stage_mask_returns e h2
  refine ⟨srcA, log1, dstA, log2, ss, ds, h1, h2, h3, h4, ?_⟩
  simp [set_layout, SP_ASSERT, hcmd, himg, h1, h2, h3, h4]

/-- Whatever the pointers and the old layout, a new layout of Undefined or Preinitialized makes
`set_layout` stop at an assertion before `vkCmdPipelineBarrier`. -/
theorem set_layout_faults (table : Nat → Nat) (e : Nat)
    (cmd_buffer image aspect_mask mip_index mip_range array_length layout_old layout_new : Nat)
    (r : Recording)
    (hnew : table layout_new = VK_IMAGE_LAYOUT_UNDEFINED ∨
      table layout_new = VK_IMAGE_LAYOUT_PREINITIALIZED) :
    ∃ msg log', set_layout table e cmd_buffer image aspect_mask mip_index mip_range array_length
        layout_old layout_new r =
      (.error (.assertion msg), { log := log', commands := r.commands }) := by
  by_cases hcmd : cmd_buffer = 0
  · refine ⟨"cmd_buffer != nullptr", r.log, ?_⟩
    simp [set_layout, SP_ASSERT, hcmd]
  by_cases himg : image = 0
  · refine ⟨"image != nullptr", r.log, ?_⟩
    simp [set_layout, SP_ASSERT, hcmd, himg]
  obtain ⟨srcA, log1, h1⟩ := layout_to_access_mask_returns (table layout_old) false r.log
    (Or.inl rfl)
  rcases hnew with h | h
  · refine ⟨"The new layout used in a transition must not be VK_IMAGE_LAYOUT_UNDEFINED.",
      log1, ?_⟩
    simp [set_layout, SP_ASSERT, hcmd, himg, h1, h, layout_to_access_mask_undefined_destination]
  · refine ⟨"The new layout used in a transition must not be VK_IMAGE_LAYOUT_PREINITIALIZED.",
      log1, ?_⟩
    simp [set_layout, SP_ASSERT, hcmd, himg, h1, h,
      layout_to_access_mask_preinitialized_destination]

/-- The log handed back by `layout_to_access_mask` extends the log handed in. -/
theorem layout_to_access_mask_log_mono {layout : Nat} {d : Bool} {log log' : List String}
    {res : Except Fault Nat} (h : layout_to_access_mask layout d log = (res, log')) :
    ∀ x, x ∈ log → x ∈ log' := by
  intro x hx
  by_cases hl : layout ∈ handled_layouts
  · have := layout_to_access_mask_handled_log hl d log
    rw [h] at this
    simp only at this
    rw [this]; exact hx
  · rw [layout_to_access_mask_unhandled hl] at h
    simp only [Prod.mk.injEq] at h
    rw [← h.2]
    exact List.mem_append_left _ hx

/-! ## Barrier/layout engine: the properties -/

/-- C1: for every old layout, `set_layout` called with a new layout that is Undefined or
Preinitialized is rejected: `layout_to_access_mask (layout, is_destination_mask = true)` fails
its assertion for both layouts, `set_layout` stops at a failed assertion, and no barrier is
recorded (the recorded commands are the ones from before the call). -/
theorem set_layout_rejects_undefined_or_preinitialized_destination (table : Nat → Nat)
    (e cmd_buffer image aspect_mask mip_index mip_range array_length layout_old layout_new : Nat)
    (r : Recording)
    (hnew : table layout_new = VK_IMAGE_LAYOUT_UNDEFINED ∨
      table layout_new = VK_IMAGE_LAYOUT_PREINITIALIZED) :
    (∀ log, ∃ msg, layout_to_access_mask (table layout_new) true log =
      (.error (.assertion msg), log)) ∧
    (∃ msg, (set_layout table e cmd_buffer image aspect_mask mip_index mip_range array_length
      layout_old layout_new r).1 = .error (.assertion msg)) ∧
    (set_layout table e cmd_buffer image aspect_mask mip_index mip_range array_length
      layout_old layout_new r).2.commands = r.commands := by
  obtain ⟨msg, log', h⟩ := set_layout_faults table e cmd_buffer image aspect_mask mip_index
    mip_range array_length layout_old layout_new r hnew
  refine ⟨?_, ⟨msg, by rw [h]⟩, by rw [h]⟩
  intro log
  rcases hnew with h' | h'
  · exact ⟨_, by rw [h']; exact layout_to_access_mask_undefined_destination log⟩
  · exact ⟨_, by rw [h']; exact layout_to_access_mask_preinitialized_destination log⟩

/-- Witness for C1: transfer-destination to Undefined, with an identity layout table. -/
theorem set_layout_rejects_undefined_or_preinitialized_destination_witness :
    ((fun l : Nat => l) 0 = VK_IMAGE_LAYOUT_UNDEFINED ∨
      (fun l : Nat => l) 0 = VK_IMAGE_LAYOUT_PREINITIALIZED) ∧
    (set_layout (fun l => l) 0 1 1 1 0 1 1 7 0 { log := [], commands := [] }).2.commands = [] :=
  ⟨Or.inl rfl,
    (set_layout_rejects_undefined_or_preinitialized_destination (fun l => l) 0 1 1 1 0 1 1 7 0
      { log := [], commands := [] } (Or.inl rfl)).2.2⟩

/-- C2: for every layout (so for every layout handled by `layout_to_access_mask`) and every
value of the device's enabled graphics stages (0 included), if the access mask returned for the
layout is non-empty then `access_flags_to_pipeline_stage` applied to it returns, and returns a
non-empty stage mask. -/
theorem stage_mask_nonempty_of_access_mask_nonempty (e layout : Nat) (d : Bool)
    (log log' : List String) (m : Nat)
    (h : layout_to_access_mask layout d log = (.ok m, log')) (hm : m ≠ 0) :
    ∃ s, access_flags_to_pipeline_stage e m = .ok s ∧ s ≠ 0 :=
  access_flags_to_pipeline_stage_ne_zero e (layout_to_access_mask_ok_bound h) hm

/-- Witness for C2: the General layout as a source, with no graphics stage enabled. -/
theorem stage_mask_nonempty_of_access_mask_nonempty_witness :
    VK_IMAGE_LAYOUT_GENERAL ∈ handled_layouts ∧
    layout_to_access_mask VK_IMAGE_LAYOUT_GENERAL false [] = (.ok 96, []) ∧ (96 : Nat) ≠ 0 ∧
    ∃ s, access_flags_to_pipeline_stage 0 96 = .ok s ∧ s ≠ 0 :=
  ⟨by decide, by decide, by decide,
    stage_mask_nonempty_of_access_mask_nonempty 0 VK_IMAGE_LAYOUT_GENERAL false [] [] 96
      (by decide) (by decide)⟩

/-- C3, as stated, fails: the presentation layout is handled, is neither Undefined nor
Preinitialized, and gets the empty access mask (`VK_ACCESS_2_NONE`) as source and as
destination. -/
theorem present_layout_access_mask_counterexample :
    ¬ (∀ layout, layout ∈ handled_layouts → layout ≠ VK_IMAGE_LAYOUT_UNDEFINED →
        layout ≠ VK_IMAGE_LAYOUT_PREINITIALIZED → ∀ (d : Bool) (log : List String),
        ∃ m log', layout_to_access_mask layout d log = (.ok m, log') ∧ m ≠ 0) := by
  intro h
  obtain ⟨m, log', h1, h2⟩ := h VK_IMAGE_LAYOUT_PRESENT_SRC_KHR (by decide) (by decide)
    (by decide) false []
  have h3 : layout_to_access_mask VK_IMAGE_LAYOUT_PRESENT_SRC_KHR false [] = (.ok 0, []) := by
    decide
  rw [h3] at h1
  simp only [Prod.mk.injEq, Except.ok.injEq] at h1
  exact h2 h1.1.symm

/-- C3, amended: for every handled layout other than Undefined, Preinitialized and the
presentation layout, `layout_to_access_mask` returns a non-empty access mask, as source and as
destination alike (and leaves the log alone); and for a handled layout the returned access mask
is empty only when the layout is the presentation layout, or it is the old layout and is
Undefined or Preinitialized. -/
theorem layout_to_access_mask_nonempty (layout : Nat) (d : Bool) (log : List String)
    (hl : layout ∈ handled_layouts) :
    (layout ≠ VK_IMAGE_LAYOUT_UNDEFINED → layout ≠ VK_IMAGE_LAYOUT_PREINITIALIZED →
      layout ≠ VK_IMAGE_LAYOUT_PRESENT_SRC_KHR →
      ∃ m, layout_to_access_mask layout d log = (.ok m, log) ∧ m ≠ 0) ∧
    (∀ log', layout_to_access_mask layout d log = (.ok 0, log') →
      layout = VK_IMAGE_LAYOUT_PRESENT_SRC_KHR ∨
      (d = false ∧ (layout = VK_IMAGE_LAYOUT_UNDEFINED ∨
        layout = VK_IMAGE_LAYOUT_PREINITIALIZED))) := by
  rcases mem_handled_layouts hl with
    rfl | rfl | rfl | rfl | rfl | rfl | rfl | rfl | rfl | rfl | rfl | rfl | rfl | rfl <;>
  cases d <;> simp [layout_to_access_mask, SP_ASSERT]

/-- Witness for C3 (amended): the General layout as a destination. -/
theorem layout_to_access_mask_nonempty_witness :
    VK_IMAGE_LAYOUT_GENERAL ∈ handled_layouts ∧
    ∃ m, layout_to_access_mask VK_IMAGE_LAYOUT_GENERAL true [] = (.ok m, []) ∧ m ≠ 0 :=
  ⟨by decide,
    (layout_to_access_mask_nonempty VK_IMAGE_LAYOUT_GENERAL true [] (by decide)).1
      (by decide) (by decide) (by decide)⟩

/-- C4: in `set_layout`, whenever the old layout is the presentation layout the source stage
mask is exactly `BOTTOM_OF_PIPE`, and whenever the new layout is the presentation layout the
destination stage mask is exactly `TOP_OF_PIPE`, whatever the access masks, the other layout
and the enabled graphics stages: the two stage-mask blocks return these values, and they are the
stage masks of the barrier that `set_layout` records (a barrier is recorded unless the new
layout is Undefined or Preinitialized). -/
theorem set_layout_present_stage_masks (table : Nat → Nat)
    (e cmd_buffer image aspect_mask mip_index mip_range array_length layout_old layout_new : Nat)
    (r : Recording) (hcmd : cmd_buffer ≠ 0) (himg : image ≠ 0) :
    (∀ m, source_stage_mask e VK_IMAGE_LAYOUT_PRESENT_SRC_KHR m =
      .ok VK_PIPELINE_STAGE_BOTTOM_OF_PIPE_BIT) ∧
    (∀ m, destination_stage_mask e VK_IMAGE_LAYOUT_PRESENT_SRC_KHR m =
      .ok VK_PIPELINE_STAGE_TOP_OF_PIPE_BIT) ∧
    (table layout_old = VK_IMAGE_LAYOUT_PRESENT_SRC_KHR →
      table layout_new ≠ VK_IMAGE_LAYOUT_UNDEFINED →
      table layout_new ≠ VK_IMAGE_LAYOUT_PREINITIALIZED →
      ∃ b log', set_layout table e cmd_buffer image aspect_mask mip_index mip_range array_length
          layout_old layout_new r = (.ok (), { log := log', commands := r.commands ++ [b] }) ∧
        b.srcStageMask = VK_PIPELINE_STAGE_BOTTOM_OF_PIPE_BIT) ∧
    (table layout_new = VK_IMAGE_LAYOUT_PRESENT_SRC_KHR →
      ∃ b log', set_layout table e cmd_buffer image aspect_mask mip_index mip_range array_length
          layout_old layout_new r = (.ok (), { log := log', commands := r.commands ++ [b] }) ∧
        b.dstStageMask = VK_PIPELINE_STAGE_TOP_OF_PIPE_BIT) := by
  refine ⟨fun m => by simp [source_stage_mask], fun m => by simp [destination_stage_mask],
    ?_, ?_⟩
  · intro hold hu hp
    obtain ⟨srcA, log1, dstA, log2, ss, ds, -, -, h3, -, h5⟩ := set_layout_records table e
      cmd_buffer image aspect_mask mip_index mip_range array_length layout_old layout_new r
      hcmd himg hu hp
    refine ⟨_, _, h5, ?_⟩
    rw [hold] at h3
    simp [source_stage_mask] at h3
    exact h3.symm
  · intro hnew
    obtain ⟨srcA, log1, dstA, log2, ss, ds, -, -, -, h4, h5⟩ := set_layout_records table e
      cmd_buffer image aspect_mask mip_index mip_range array_length layout_old layout_new r
      hcmd himg (by rw [hnew]; decide) (by rw [hnew]; decide)
    refine ⟨_, _, h5, ?_⟩
    rw [hnew] at h4
    simp [destination_stage_mask] at h4
    exact h4.symm

/-- Witness for C4: presenting a colour attachment (new layout is the presentation layout). -/
theorem set_layout_present_stage_masks_witness :
    (1 : Nat) ≠ 0 ∧
    ∃ b log', set_layout (fun l => l) 0 1 1 1 0 1 1 VK_IMAGE_LAYOUT_COLOR_ATTACHMENT_OPTIMAL
        VK_IMAGE_LAYOUT_PRESENT_SRC_KHR { log := [], commands := [] } =
        (.ok (), { log := log', commands := [] ++ [b] }) ∧
      b.dstStageMask = VK_PIPELINE_STAGE_TOP_OF_PIPE_BIT :=
  ⟨by decide,
    (set_layout_present_stage_masks (fun l => l) 0 1 1 1 0 1 1
      VK_IMAGE_LAYOUT_COLOR_ATTACHMENT_OPTIMAL VK_IMAGE_LAYOUT_PRESENT_SRC_KHR
      { log := [], commands := [] } (by decide) (by decide)).2.2.2 rfl⟩

/-- C5: `access_flags_to_pipeline_stage` treats every set bit on its own and combines the
results additively: for all 32-bit access masks `a` and `b` and every value of the enabled
graphics stages the loop terminates (a value is returned, within 32 iterations), the value for
`a` is the union over the set bits of `a` of the stages of that single flag, the value for
`a | b` is the bitwise or of the values for `a` and for `b`, and the value for `0` is `0`. -/
theorem access_flags_to_pipeline_stage_or (e a b : Nat) (ha : a < 2 ^ 32) (hb : b < 2 ^ 32) :
    ∃ sa sb,
      access_flags_to_pipeline_stage e a = .ok sa ∧
      access_flags_to_pipeline_stage e b = .ok sb ∧
      access_flags_to_pipeline_stage e (a ||| b) = .ok (sa ||| sb) ∧
      sa = stage_union e a 32 ∧
      access_flags_to_pipeline_stage e 0 = .ok 0 := by
  refine ⟨_, _, access_flags_to_pipeline_stage_eq e ha, access_flags_to_pipeline_stage_eq e hb,
    ?_, rfl, rfl⟩
  rw [access_flags_to_pipeline_stage_eq e (Nat.or_lt_two_pow ha hb), stage_union_or]

/-- Witness for C5: shader read and write together with host write, vertex stage enabled. -/
theorem access_flags_to_pipeline_stage_or_witness :
    (0x60 : Nat) < 2 ^ 32 ∧ (0x4000 : Nat) < 2 ^ 32 ∧
    ∃ sa sb,
      access_flags_to_pipeline_stage 8 0x60 = .ok sa ∧
      access_flags_to_pipeline_stage 8 0x4000 = .ok sb ∧
      access_flags_to_pipeline_stage 8 (0x60 ||| 0x4000) = .ok (sa ||| sb) ∧
      sa = stage_union 8 0x60 32 ∧
      access_flags_to_pipeline_stage 8 0 = .ok 0 :=
  ⟨by decide, by decide, access_flags_to_pipeline_stage_or 8 0x60 0x4000 (by decide) (by decide)⟩

/-- C6: for every layout value that has no `case` in `layout_to_access_mask`, the function
reports the error (the message "Unexpected image layout" is appended to the log, nothing is
dropped silently) and yields the empty access mask; consequently the barrier that `set_layout`
records for such an old (new) layout carries the empty source (destination) access mask, not a
made-up one, and the report is in the log. -/
theorem unrecognized_layout_reported (table : Nat → Nat)
    (e cmd_buffer image aspect_mask mip_index mip_range array_length layout_old layout_new : Nat)
    (r : Recording) (layout : Nat) (d : Bool) (log : List String)
    (hl : layout ∉ handled_layouts) :
    layout_to_access_mask layout d log = (.ok 0, log ++ ["Unexpected image layout"]) ∧
    (cmd_buffer ≠ 0 → image ≠ 0 → table layout_old = layout →
      table layout_new ≠ VK_IMAGE_LAYOUT_UNDEFINED →
      table layout_new ≠ VK_IMAGE_LAYOUT_PREINITIALIZED →
      ∃ b log', set_layout table e cmd_buffer image aspect_mask mip_index mip_range array_length
          layout_old layout_new r = (.ok (), { log := log', commands := r.commands ++ [b] }) ∧
        "Unexpected image layout" ∈ log' ∧
        ∀ ib, ib ∈ b.imageMemoryBarriers → ib.srcAccessMask = 0) ∧
    (cmd_buffer ≠ 0 → image ≠ 0 → table layout_new = layout →
      ∃ b log', set_layout table e cmd_buffer image aspect_mask mip_index mip_range array_length
          layout_old layout_new r = (.ok (), { log := log', commands := r.commands ++ [b] }) ∧
        "Unexpected image layout" ∈ log' ∧
        ∀ ib, ib ∈ b.imageMemoryBarriers → ib.dstAccessMask = 0) := by
  have hu : layout ≠ VK_IMAGE_LAYOUT_UNDEFINED := fun h => hl (by rw [h]; decide)
  have hp : layout ≠ VK_IMAGE_LAYOUT_PREINITIALIZED := fun h => hl (by rw [h]; decide)
  refine ⟨layout_to_access_mask_unhandled hl d log, ?_, ?_⟩
  · intro hcmd himg hold hu' hp'
    obtain ⟨srcA, log1, dstA, log2, ss, ds, h1, h2, -, -, h5⟩ := set_layout_records table e
      cmd_buffer image aspect_mask mip_index mip_range array_length layout_old layout_new r
      hcmd himg hu' hp'
    rw [hold, layout_to_access_mask_unhandled hl] at h1
    simp only [Prod.mk.injEq, Except.ok.injEq] at h1
    refine ⟨_, _, h5, layout_to_access_mask_log_mono h2 _ ?_, ?_⟩
    · rw [← h1.2]; simp
    · intro ib hib
      simp only [List.mem_singleton] at hib
      rw [hib]
      exact h1.1.symm
  · intro hcmd himg hnew
    obtain ⟨srcA, log1, dstA, log2, ss, ds, -, h2, -, -, h5⟩ := set_layout_records table e
      cmd_buffer image aspect_mask mip_index mip_range array_length layout_old layout_new r
      hcmd himg (by rw [hnew]; exact hu) (by rw [hnew]; exact hp)
    rw [hnew, layout_to_access_mask_unhandled hl] at h2
    simp only [Prod.mk.injEq, Except.ok.injEq] at h2
    refine ⟨_, _, h5, ?_, ?_⟩
    · rw [← h2.2]; simp
    · intro ib hib
      simp only [List.mem_singleton] at hib
      rw [hib]
      exact h2.1.symm

/-- Witness for C6: `VK_IMAGE_LAYOUT_STENCIL_ATTACHMENT_OPTIMAL` (1000241002) has no `case`. -/
theorem unrecognized_layout_reported_witness :
    1000241002 ∉ handled_layouts ∧
    layout_to_access_mask 1000241002 false [] = (.ok 0, [] ++ ["Unexpected image layout"]) :=
  ⟨by decide,
    (unrecognized_layout_reported (fun l => l) 0 1 1 1 0 1 1 1000241002 7
      { log := [], commands := [] } 1000241002 false [] (by decide)).1⟩

/-! ## Facts about the device operations and `_create` -/

theorem execute_copy_calls (d : RHI_Device) (c : CopyCommand) :
    (d.execute_copy c).calls = d.calls := by
  unfold RHI_Device.execute_copy; split <;> rfl

theorem execute_copy_deletion_queue (d : RHI_Device) (c : CopyCommand) :
    (d.execute_copy c).deletion_queue = d.deletion_queue := by
  unfold RHI_Device.execute_copy; split <;> rfl

theorem execute_copy_buffers_created (d : RHI_Device) (c : CopyCommand) :
    (d.execute_copy c).buffers_created = d.buffers_created := by
  unfold RHI_Device.execute_copy; split <;> rfl

theorem release_previous_of_null {ib : RHI_IndexBuffer} (h : ib.m_rhi_resource = 0)
    (d : RHI_Device) : ib.release_previous d = (ib, d) := by
  simp [RHI_IndexBuffer.release_previous, h]

theorem release_previous_of_ne_null {ib : RHI_IndexBuffer} (h : ib.m_rhi_resource ≠ 0)
    (d : RHI_Device) :
    ib.release_previous d =
      ({ ib with m_rhi_resource := 0 },
        { d with
          deletion_queue := d.deletion_queue ++ [(RHI_Resource_Type.Buffer, ib.m_rhi_resource)]
          calls := d.calls ++
            [.AddToDeletionQueue RHI_Resource_Type.Buffer ib.m_rhi_resource] }) := by
  simp [RHI_IndexBuffer.release_previous, h, RHI_Device.AddToDeletionQueue]

/-- After the opening block the slot is null, whatever it held. -/
theorem release_previous_slot (ib : RHI_IndexBuffer) (d : RHI_Device) :
    (ib.release_previous d).1.m_rhi_resource = 0 := by
  by_cases h : ib.m_rhi_resource = 0
  · rw [release_previous_of_null h]; exact h
  · rw [release_previous_of_ne_null h]

theorem release_previous_buffers (ib : RHI_IndexBuffer) (d : RHI_Device) :
    (ib.release_previous d).2.buffers = d.buffers ∧
    (ib.release_previous d).2.buffers_created = d.buffers_created ∧
    (ib.release_previous d).1.m_object_size_gpu = ib.m_object_size_gpu ∧
    (ib.release_previous d).1.m_object_name = ib.m_object_name ∧
    (ib.release_previous d).1.m_mapped_data = ib.m_mapped_data := by
  by_cases h : ib.m_rhi_resource = 0
  · rw [release_previous_of_null h]; simp
  · rw [release_previous_of_ne_null h]; simp

theorem release_previous_deletion_queue (ib : RHI_IndexBuffer) (d : RHI_Device) :
    (ib.release_previous d).2.deletion_queue =
      d.deletion_queue ++ buffer_entries [ib.m_rhi_resource] := by
  by_cases h : ib.m_rhi_resource = 0
  · rw [release_previous_of_null h]; simp [buffer_entries, h]
  · rw [release_previous_of_ne_null h]; simp [buffer_entries, h]

/-- The host-visible path of `_create`, spelled out. -/
theorem create_of_null (new_handle mapped_address : Nat → Nat) (ib : RHI_IndexBuffer)
    (d : RHI_Device) :
    ib._create new_handle mapped_address none d =
      ({ (ib.release_previous d).1 with
          m_is_mappable := true
          m_rhi_resource := new_handle (ib.release_previous d).2.buffers_created
          m_mapped_data :=
            mapped_address (new_handle (ib.release_previous d).2.buffers_created) },
        { buffers := (ib.release_previous d).2.buffers ++
            [{ handle := new_handle (ib.release_previous d).2.buffers_created
               size := ib.m_object_size_gpu
               usage := VK_BUFFER_USAGE_INDEX_BUFFER_BIT
               memory_property_flags := VK_MEMORY_PROPERTY_HOST_VISIBLE_BIT
               contents := List.replicate ib.m_object_size_gpu 0 }]
          deletion_queue := (ib.release_previous d).2.deletion_queue
          buffers_created := (ib.release_previous d).2.buffers_created + 1
          calls := (ib.release_previous d).2.calls ++
            [.CreateBuffer (new_handle (ib.release_previous d).2.buffers_created)
                ib.m_object_size_gpu VK_BUFFER_USAGE_INDEX_BUFFER_BIT
                VK_MEMORY_PROPERTY_HOST_VISIBLE_BIT false ib.m_object_name,
              .GetMappedDataFromBuffer (new_handle (ib.release_previous d).2.buffers_created),
              .SetResourceName (new_handle (ib.release_previous d).2.buffers_created)
                RHI_Resource_Type.Buffer ib.m_object_name] }) := by
  obtain ⟨-, -, hsize, hname, -⟩ := release_previous_buffers ib d
  simp [RHI_IndexBuffer._create, RHI_Device.CreateBuffer, RHI_Device.GetMappedDataFromBuffer,
    RHI_Device.SetResourceName, hsize, hname]

/-- The staged path of `_create`: the object, the calls made, the deletion queue and the number
of buffers created. -/
theorem create_of_data (new_handle mapped_address : Nat → Nat) (data : List Nat)
    (ib : RHI_IndexBuffer) (d : RHI_Device) :
    (ib._create new_handle mapped_address (some data) d).1 =
      { (ib.release_previous d).1 with
        m_is_mappable := false
        m_rhi_resource := new_handle ((ib.release_previous d).2.buffers_created + 1) } ∧
    (ib._create new_handle mapped_address (some data) d).2.calls =
      (ib.release_previous d).2.calls ++
        [.CreateBuffer (new_handle (ib.release_previous d).2.buffers_created)
            ib.m_object_size_gpu VK_BUFFER_USAGE_TRANSFER_SRC_BIT
            (VK_MEMORY_PROPERTY_HOST_VISIBLE_BIT ||| VK_MEMORY_PROPERTY_HOST_COHERENT_BIT)
            true ib.m_object_name,
          .CreateBuffer (new_handle ((ib.release_previous d).2.buffers_created + 1))
            ib.m_object_size_gpu
            (VK_BUFFER_USAGE_TRANSFER_DST_BIT ||| VK_BUFFER_USAGE_INDEX_BUFFER_BIT)
            VK_MEMORY_PROPERTY_DEVICE_LOCAL_BIT false ib.m_object_name,
          .ImmediateBegin RHI_Queue_Type.Copy,
          .CmdCopyBuffer (new_handle (ib.release_previous d).2.buffers_created)
            (new_handle ((ib.release_previous d).2.buffers_created + 1))
            { srcOffset := 0, dstOffset := 0, size := ib.m_object_size_gpu },
          .ImmediateSubmit,
          .DestroyBuffer (new_handle (ib.release_previous d).2.buffers_created),
          .SetResourceName (new_handle ((ib.release_previous d).2.buffers_created + 1))
            RHI_Resource_Type.Buffer ib.m_object_name] ∧
    (ib._create new_handle mapped_address (some data) d).2.deletion_queue =
      (ib.release_previous d).2.deletion_queue ∧
    (ib._create new_handle mapped_address (some data) d).2.buffers_created =
      (ib.release_previous d).2.buffers_created + 2 := by
  obtain ⟨-, -, hsize, hname, -⟩ := release_previous_buffers ib d
  simp [RHI_IndexBuffer._create, RHI_Device.CreateBuffer, RHI_Device.ImmediateBegin,
    vkCmdCopyBuffer, RHI_Device.ImmediateSubmit, RHI_Device.DestroyBuffer,
    RHI_Device.SetResourceName, execute_copy_calls, execute_copy_deletion_queue,
    execute_copy_buffers_created, hsize, hname]

theorem find_buffer_fresh {l : List BufferAllocation} {h : Nat}
    (hfresh : ∀ b, b ∈ l → b.handle ≠ h) :
    l.find? (fun b => decide (b.handle = h)) = none := by
  rw [List.find?_eq_none]
  intro b hb
  simpa using hfresh b hb

theorem map_buffer_fresh {l : List BufferAllocation} {h : Nat}
    (f : BufferAllocation → BufferAllocation) (hfresh : ∀ b, b ∈ l → b.handle ≠ h) :
    l.map (fun b => if b.handle = h then f b else b) = l := by
  induction l with
  | nil => rfl
  | cons a l ih =>
    rw [List.map_cons, if_neg (hfresh a (List.mem_cons_self a l)),
      ih (fun b hb => hfresh b (List.mem_cons_of_mem a hb))]

/-- A full-size copy from offset 0 to offset 0 replaces the destination bytes by the source
bytes. -/
theorem copy_bytes_full (src dst : List Nat) (n : Nat) (hs : src.length = n)
    (hd : dst.length = n) :
    copy_bytes src dst { srcOffset := 0, dstOffset := 0, size := n } = src := by
  simp [copy_bytes, ← hs, ← hd, hs.trans hd.symm]

/-- The buffers allocated after the staged path of `_create`, when the two new handles are
distinct and not in use: the destination has been added, holding the input bytes, and nothing
else has changed. -/
theorem create_of_data_buffers (new_handle mapped_address : Nat → Nat) (data : List Nat)
    (ib : RHI_IndexBuffer) (d : RHI_Device) (hlen : data.length = ib.m_object_size_gpu)
    (hne : new_handle d.buffers_created ≠ new_handle (d.buffers_created + 1))
    (hfresh : ∀ b, b ∈ d.buffers → b.handle ≠ new_handle d.buffers_created ∧
      b.handle ≠ new_handle (d.buffers_created + 1)) :
    (ib._create new_handle mapped_address (some data) d).2.buffers =
      d.buffers ++
        [{ handle := new_handle (d.buffers_created + 1)
           size := ib.m_object_size_gpu
           usage := VK_BUFFER_USAGE_TRANSFER_DST_BIT ||| VK_BUFFER_USAGE_INDEX_BUFFER_BIT
           memory_property_flags := VK_MEMORY_PROPERTY_DEVICE_LOCAL_BIT
           contents := data }] := by
  obtain ⟨hbuf, hcnt, hsize, hname, -⟩ := release_previous_buffers ib d
  have hs : ∀ b, b ∈ d.buffers → b.handle ≠ new_handle d.buffers_created :=
    fun b hb => (hfresh b hb).1
  have hd : ∀ b, b ∈ d.buffers → b.handle ≠ new_handle (d.buffers_created + 1) :=
    fun b hb => (hfresh b hb).2
  have hcopy := copy_bytes_full (List.take ib.m_object_size_gpu data)
    (List.replicate ib.m_object_size_gpu 0) ib.m_object_size_gpu (by simp [hlen]) (by simp)
  have htake : List.take ib.m_object_size_gpu data = data := by
    rw [← hlen]; exact List.take_length data
  rw [htake] at hcopy
  have hfilter : List.filter (fun b => !decide (b.handle = new_handle d.buffers_created))
      d.buffers = d.buffers := by
    rw [List.filter_eq_self]
    intro b hb
    simpa using hs b hb
  simp [RHI_IndexBuffer._create, RHI_Device.CreateBuffer, RHI_Device.ImmediateBegin,
    vkCmdCopyBuffer, RHI_Device.ImmediateSubmit, RHI_Device.DestroyBuffer,
    RHI_Device.SetResourceName, RHI_Device.execute_copy, hbuf, hcnt, hsize, hname,
    List.find?_append, find_buffer_fresh hs, map_buffer_fresh _ hd, hfilter,
    List.filter_cons, hne, hne.symm, hcopy, htake]

/-- What a sequence of `Map()` / `Unmap()` calls does: every `Map()` returns `m_mapped_data`,
and the buffer object and the device are as before. -/
theorem map_calls_eq (calls : List MapCall) (ib : RHI_IndexBuffer) (d : RHI_Device) :
    ib.map_calls calls d =
      (List.replicate (calls.count MapCall.Map) ib.m_mapped_data, ib, d) := by
  induction calls with
  | nil => rfl
  | cons c rest ih =>
    cases c
    · simp [RHI_IndexBuffer.map_calls, RHI_IndexBuffer.Map, ih, List.replicate_succ]
    · simp [RHI_IndexBuffer.map_calls, RHI_IndexBuffer.Unmap, ih]

/-! ## Staged transfer engine: the properties -/

/-- C7: for every non-null input of `m_object_size_gpu` bytes, after `_create` returns the
destination (device-local) buffer, whose handle is in the resource slot, holds exactly the input
bytes: the staging buffer was created with the input, one copy of the full size from offset 0 to
offset 0 was recorded and submitted, and the staging buffer was destroyed, so that the buffers
allocated are those from before the call plus the destination.  The device operations are
modelled; the two handles the device hands out are assumed distinct and not in use. -/
theorem create_uploads_input (new_handle mapped_address : Nat → Nat) (data : List Nat)
    (ib : RHI_IndexBuffer) (d : RHI_Device) (hlen : data.length = ib.m_object_size_gpu)
    (hne : new_handle d.buffers_created ≠ new_handle (d.buffers_created + 1))
    (hfresh : ∀ b, b ∈ d.buffers → b.handle ≠ new_handle d.buffers_created ∧
      b.handle ≠ new_handle (d.buffers_created + 1)) :
    (ib._create new_handle mapped_address (some data) d).1.m_rhi_resource =
      new_handle (d.buffers_created + 1) ∧
    ((ib._create new_handle mapped_address (some data) d).2.buffers.find?
      (fun b => decide (b.handle =
        (ib._create new_handle mapped_address (some data) d).1.m_rhi_resource))).map
      (fun b => b.contents) = some data ∧
    (ib._create new_handle mapped_address (some data) d).2.buffers =
      d.buffers ++
        [{ handle := new_handle (d.buffers_created + 1)
           size := ib.m_object_size_gpu
           usage := VK_BUFFER_USAGE_TRANSFER_DST_BIT ||| VK_BUFFER_USAGE_INDEX_BUFFER_BIT
           memory_property_flags := VK_MEMORY_PROPERTY_DEVICE_LOCAL_BIT
           contents := data }] ∧
    (∀ b, b ∈ (ib._create new_handle mapped_address (some data) d).2.buffers →
      b.handle ≠ new_handle d.buffers_created) ∧
    (∃ before, (ib._create new_handle mapped_address (some data) d).2.calls =
      before ++
        [.CreateBuffer (new_handle d.buffers_created) ib.m_object_size_gpu
            VK_BUFFER_USAGE_TRANSFER_SRC_BIT
            (VK_MEMORY_PROPERTY_HOST_VISIBLE_BIT ||| VK_MEMORY_PROPERTY_HOST_COHERENT_BIT)
            true ib.m_object_name,
          .CreateBuffer (new_handle (d.buffers_created + 1)) ib.m_object_size_gpu
            (VK_BUFFER_USAGE_TRANSFER_DST_BIT ||| VK_BUFFER_USAGE_INDEX_BUFFER_BIT)
            VK_MEMORY_PROPERTY_DEVICE_LOCAL_BIT false ib.m_object_name,
          .ImmediateBegin RHI_Queue_Type.Copy,
          .CmdCopyBuffer (new_handle d.buffers_created) (new_handle (d.buffers_created + 1))
            { srcOffset := 0, dstOffset := 0, size := ib.m_object_size_gpu },
          .ImmediateSubmit,
          .DestroyBuffer (new_handle d.buffers_created),
          .SetResourceName (new_handle (d.buffers_created + 1)) RHI_Resource_Type.Buffer
            ib.m_object_name]) := by
  obtain ⟨-, hcnt, -, -, -⟩ := release_previous_buffers ib d
  obtain ⟨hobj, hcalls, -, -⟩ := create_of_data new_handle mapped_address data ib d
  have hbuf := create_of_data_buffers new_handle mapped_address data ib d hlen hne hfresh
  have hslot : (ib._create new_handle mapped_address (some data) d).1.m_rhi_resource =
      new_handle (d.buffers_created + 1) := by rw [hobj, hcnt]
  refine ⟨hslot, ?_, hbuf, ?_, ⟨_, by rw [hcalls, hcnt]⟩⟩
  · rw [hslot, hbuf, List.find?_append, find_buffer_fresh (fun b hb => (hfresh b hb).2)]
    simp
  · intro b hb
    rw [hbuf, List.mem_append, List.mem_singleton] at hb
    rcases hb with hb | hb
    · exact (hfresh b hb).1
    · rw [hb]; exact hne.symm

/-- Witness for C7: four bytes uploaded on a device that already holds another buffer. -/
theorem create_uploads_input_witness :
    ([1, 2, 3, 4] : List Nat).length = example_index_buffer.m_object_size_gpu ∧
    (∀ b, b ∈ example_device_in_use.buffers → b.handle ≠ 1 ∧ b.handle ≠ 2) ∧
    ((example_index_buffer._create (fun n => n + 1) (fun h => 1000 + h) (some [1, 2, 3, 4])
      example_device_in_use).2.buffers.find?
      (fun b => decide (b.handle =
        (example_index_buffer._create (fun n => n + 1) (fun h => 1000 + h) (some [1, 2, 3, 4])
          example_device_in_use).1.m_rhi_resource))).map
      (fun b => b.contents) = some [1, 2, 3, 4] :=
  ⟨by decide, by decide,
    (create_uploads_input (fun n => n + 1) (fun h => 1000 + h) [1, 2, 3, 4]
      example_index_buffer example_device_in_use (by decide) (by decide) (by decide)).2.1⟩

/-- C8: when `_create` is called on a buffer object whose slot holds a non-null handle, the
first call it makes hands that handle to the deferred deletion queue, hence before any new
buffer is created; the handle is not passed to `DestroyBuffer` (given that the device does not
hand out the handle of this still allocated buffer again during the call); the slot is null
after the opening block and is next written with the handle of the buffer created by this call.
When the slot is null nothing is enqueued. -/
theorem create_defers_previous_buffer (new_handle mapped_address : Nat → Nat)
    (indices : Option (List Nat)) (ib : RHI_IndexBuffer) (d : RHI_Device) :
    (ib.release_previous d).1.m_rhi_resource = 0 ∧
    (ib.m_rhi_resource ≠ 0 →
      (∀ n, d.buffers_created ≤ n → new_handle n ≠ ib.m_rhi_resource) →
      (ib._create new_handle mapped_address indices d).2.deletion_queue =
        d.deletion_queue ++ [(RHI_Resource_Type.Buffer, ib.m_rhi_resource)] ∧
      ∃ rest, (ib._create new_handle mapped_address indices d).2.calls =
          d.calls ++
            DeviceCall.AddToDeletionQueue RHI_Resource_Type.Buffer ib.m_rhi_resource :: rest ∧
        (∀ c, c ∈ rest → c ≠ DeviceCall.DestroyBuffer ib.m_rhi_resource) ∧
        (∀ c, c ∈ rest → ∀ t h, c ≠ DeviceCall.AddToDeletionQueue t h) ∧
        (∃ size usage flags has_data name,
          DeviceCall.CreateBuffer
            (ib._create new_handle mapped_address indices d).1.m_rhi_resource
            size usage flags has_data name ∈ rest)) ∧
    (ib.m_rhi_resource = 0 →
      (ib._create new_handle mapped_address indices d).2.deletion_queue = d.deletion_queue ∧
      ∃ rest, (ib._create new_handle mapped_address indices d).2.calls = d.calls ++ rest ∧
        ∀ c, c ∈ rest → ∀ t h, c ≠ DeviceCall.AddToDeletionQueue t h) := by
  refine ⟨release_previous_slot ib d, ?_, ?_⟩
  · intro hold hfresh
    have h0 := hfresh d.buffers_created (le_refl _)
    have h1 := hfresh (d.buffers_created + 1) (Nat.le_succ _)
    cases indices with
    | none =>
      rw [create_of_null, release_previous_of_ne_null hold]
      refine ⟨rfl, _, by rw [List.append_assoc]; rfl, ?_, ?_, ?_⟩
      · intro c hc; simp at hc; rcases hc with rfl | rfl | rfl <;> simp
      · intro c hc; simp at hc; rcases hc with rfl | rfl | rfl <;> simp
      · exact ⟨_, _, _, _, _, List.mem_cons_self _ _⟩
    | some data =>
      obtain ⟨hobj, hcalls, hdq, -⟩ := create_of_data new_handle mapped_address data ib d
      rw [hobj, hcalls, hdq, release_previous_of_ne_null hold]
      refine ⟨rfl, _, by rw [List.append_assoc]; rfl, ?_, ?_, ?_⟩
      · intro c hc
        simp at hc
        rcases hc with rfl | rfl | rfl | rfl | rfl | rfl | rfl <;> simp [h0]
      · intro c hc
        simp at hc
        rcases hc with rfl | rfl | rfl | rfl | rfl | rfl | rfl <;> simp
      · exact ⟨_, _, _, _, _, List.mem_cons_of_mem _ (List.mem_cons_self _ _)⟩
  · intro hnull
    cases indices with
    | none =>
      rw [create_of_null, release_previous_of_null hnull]
      refine ⟨rfl, _, rfl, ?_⟩
      intro c hc; simp at hc; rcases hc with rfl | rfl | rfl <;> simp
    | some data =>
      obtain ⟨-, hcalls, hdq, -⟩ := create_of_data new_handle mapped_address data ib d
      rw [hcalls, hdq, release_previous_of_null hnull]
      refine ⟨rfl, _, rfl, ?_⟩
      intro c hc
      simp at hc
      rcases hc with rfl | rfl | rfl | rfl | rfl | rfl | rfl <;> simp

/-- Witness for C8: a buffer object holding handle 5 is re-created from data. -/
theorem create_defers_previous_buffer_witness :
    (5 : Nat) ≠ 0 ∧ (∀ n : Nat, 0 ≤ n → n + 10 ≠ 5) ∧
    (({ example_index_buffer with m_rhi_resource := 5 } : RHI_IndexBuffer)._create
      (fun n => n + 10) (fun h => 1000 + h) (some [1, 2, 3, 4]) example_device).2.deletion_queue
      = [(RHI_Resource_Type.Buffer, 5)] :=
  ⟨by decide, fun n _ => by omega,
    ((create_defers_previous_buffer (fun n => n + 10) (fun h => 1000 + h) (some [1, 2, 3, 4])
      { example_index_buffer with m_rhi_resource := 5 } example_device).2.1
      (by decide) (fun n _ => by show n + 10 ≠ 5; omega)).1⟩

/-- C9: `_create` takes the host-visible path if and only if the data pointer is null
(`m_is_mappable`, which selects the path, is set to `indices == nullptr`).  On that path the
calls made after the opening block are exactly: one `CreateBuffer` (index usage, host-visible
memory, no data), `GetMappedDataFromBuffer` on the new buffer, `SetResourceName`; so no staging
buffer is created and no copy is recorded or submitted; the mapped address of the new buffer is
kept in `m_mapped_data`; and in every later sequence of `Map()` / `Unmap()` calls each `Map()`
returns that address and the buffer object and the device are left as they were.  With data the
other path is taken: a copy is recorded. -/
theorem create_host_visible_path (new_handle mapped_address : Nat → Nat)
    (indices : Option (List Nat)) (ib : RHI_IndexBuffer) (d : RHI_Device) :
    ((ib._create new_handle mapped_address indices d).1.m_is_mappable = true ↔
      indices = none) ∧
    (indices = none →
      (ib._create new_handle mapped_address indices d).2.calls =
        (ib.release_previous d).2.calls ++
          [.CreateBuffer (new_handle d.buffers_created) ib.m_object_size_gpu
              VK_BUFFER_USAGE_INDEX_BUFFER_BIT VK_MEMORY_PROPERTY_HOST_VISIBLE_BIT false
              ib.m_object_name,
            .GetMappedDataFromBuffer (new_handle d.buffers_created),
            .SetResourceName (new_handle d.buffers_created) RHI_Resource_Type.Buffer
              ib.m_object_name] ∧
      (ib._create new_handle mapped_address indices d).2.buffers =
        d.buffers ++
          [{ handle := new_handle d.buffers_created
             size := ib.m_object_size_gpu
             usage := VK_BUFFER_USAGE_INDEX_BUFFER_BIT
             memory_property_flags := VK_MEMORY_PROPERTY_HOST_VISIBLE_BIT
             contents := List.replicate ib.m_object_size_gpu 0 }] ∧
      (ib._create new_handle mapped_address indices d).2.buffers_created =
        d.buffers_created + 1 ∧
      (ib._create new_handle mapped_address indices d).1.m_rhi_resource =
        new_handle d.buffers_created ∧
      (ib._create new_handle mapped_address indices d).1.m_mapped_data =
        mapped_address (new_handle d.buffers_created) ∧
      ∀ calls : List MapCall,
        (∀ p, p ∈ ((ib._create new_handle mapped_address indices d).1.map_calls calls
            (ib._create new_handle mapped_address indices d).2).1 →
          p = mapped_address (new_handle d.buffers_created)) ∧
        ((ib._create new_handle mapped_address indices d).1.map_calls calls
            (ib._create new_handle mapped_address indices d).2).2 =
          ib._create new_handle mapped_address indices d) ∧
    (indices ≠ none →
      ∃ src dst region, DeviceCall.CmdCopyBuffer src dst region ∈
        (ib._create new_handle mapped_address indices d).2.calls) := by
  obtain ⟨hbuf, hcnt, -, -, -⟩ := release_previous_buffers ib d
  refine ⟨?_, ?_, ?_⟩
  · cases indices with
    | none => rw [create_of_null]; simp
    | some data =>
      rw [(create_of_data new_handle mapped_address data ib d).1]; simp
  · intro hnone
    subst hnone
    rw [create_of_null, hbuf, hcnt]
    refine ⟨rfl, rfl, rfl, rfl, rfl, ?_⟩
    intro calls
    rw [map_calls_eq]
    exact ⟨fun p hp => List.eq_of_mem_replicate hp, rfl⟩
  · intro hsome
    cases indices with
    | none => exact absurd rfl hsome
    | some data =>
      rw [(create_of_data new_handle mapped_address data ib d).2.1]
      refine ⟨new_handle (ib.release_previous d).2.buffers_created,
        new_handle ((ib.release_previous d).2.buffers_created + 1),
        { srcOffset := 0, dstOffset := 0, size := ib.m_object_size_gpu }, ?_⟩
      simp

/-- Witness for C9: a fresh buffer object created without data, then mapped twice. -/
theorem create_host_visible_path_witness :
    (none : Option (List Nat)) = none ∧
    (example_index_buffer._create (fun n => n + 1) (fun h => 1000 + h) none
      example_device).1.m_mapped_data = 1001 ∧
    ((example_index_buffer._create (fun n => n + 1) (fun h => 1000 + h) none
      example_device).1.map_calls [MapCall.Map, MapCall.Unmap, MapCall.Map]
      (example_index_buffer._create (fun n => n + 1) (fun h => 1000 + h) none
        example_device).2).2 =
      example_index_buffer._create (fun n => n + 1) (fun h => 1000 + h) none example_device :=
  ⟨rfl,
    ((create_host_visible_path (fun n => n + 1) (fun h => 1000 + h) none example_index_buffer
      example_device).2.1 rfl).2.2.2.2.1,
    (((create_host_visible_path (fun n => n + 1) (fun h => 1000 + h) none example_index_buffer
      example_device).2.1 rfl).2.2.2.2.2 [MapCall.Map, MapCall.Unmap, MapCall.Map]).2⟩

/-! ## Deferred deletion over the life of a buffer object -/

theorem buffer_entries_cons (h : Nat) (slots : List Nat) :
    buffer_entries (h :: slots) = buffer_entries [h] ++ buffer_entries slots := by
  by_cases h0 : h = 0 <;> simp [buffer_entries, List.filter_cons, h0]

/-- One `_create`: the old slot value is enqueued if it is not null, and the slot then holds the
handle of a buffer created during the call. -/
theorem create_step (new_handle mapped_address : Nat → Nat) (indices : Option (List Nat))
    (ib : RHI_IndexBuffer) (d : RHI_Device) :
    (ib._create new_handle mapped_address indices d).2.deletion_queue =
      d.deletion_queue ++ buffer_entries [ib.m_rhi_resource] ∧
    ∃ k, d.buffers_created ≤ k ∧
      k < (ib._create new_handle mapped_address indices d).2.buffers_created ∧
      (ib._create new_handle mapped_address indices d).1.m_rhi_resource = new_handle k := by
  obtain ⟨-, hcnt, -, -, -⟩ := release_previous_buffers ib d
  cases indices with
  | none =>
    rw [create_of_null, hcnt]
    exact ⟨release_previous_deletion_queue ib d, d.buffers_created, le_refl _,
      Nat.lt_succ_self _, rfl⟩
  | some data =>
    obtain ⟨hobj, -, hdq, hn⟩ := create_of_data new_handle mapped_address data ib d
    rw [hobj, hdq, hn, hcnt]
    exact ⟨release_previous_deletion_queue ib d, d.buffers_created + 1, Nat.le_succ _,
      Nat.lt_succ_self _, rfl⟩

/-- Over a sequence of `_create` calls, the deletion queue followed by the slot's last value
lists the slot's initial value and every value it took, in order (null values left out). -/
theorem create_calls_deletion_queue (new_handle mapped_address : Nat → Nat)
    (creates : List (Option (List Nat))) :
    ∀ (ib : RHI_IndexBuffer) (d : RHI_Device),
      (ib.create_calls new_handle mapped_address creates d).2.2.deletion_queue ++
          buffer_entries
            [(ib.create_calls new_handle mapped_address creates d).2.1.m_rhi_resource] =
        d.deletion_queue ++ buffer_entries
          (ib.m_rhi_resource :: (ib.create_calls new_handle mapped_address creates d).1) := by
  induction creates with
  | nil => intro ib d; rfl
  | cons indices rest ih =>
    intro ib d
    have hstep := (create_step new_handle mapped_address indices ib d).1
    have := ih (ib._create new_handle mapped_address indices d).1
      (ib._create new_handle mapped_address indices d).2
    simp only [RHI_IndexBuffer.create_calls]
    rw [this, hstep, List.append_assoc]
    congr 1
    exact (buffer_entries_cons _ _).symm

/-- Over a sequence of `_create` calls, every value the slot takes is the handle of a buffer
created during the sequence, and with an injective `new_handle` no value is taken twice. -/
theorem create_calls_slots (new_handle mapped_address : Nat → Nat)
    (hinj : Function.Injective new_handle) (creates : List (Option (List Nat))) :
    ∀ (ib : RHI_IndexBuffer) (d : RHI_Device),
      (∀ h, h ∈ (ib.create_calls new_handle mapped_address creates d).1 →
        ∃ k, d.buffers_created ≤ k ∧ h = new_handle k) ∧
      (ib.create_calls new_handle mapped_address creates d).1.Nodup := by
  induction creates with
  | nil => intro ib d; simp [RHI_IndexBuffer.create_calls]
  | cons indices rest ih =>
    intro ib d
    obtain ⟨-, k0, hk0, hk0', hslot⟩ := create_step new_handle mapped_address indices ib d
    obtain ⟨hmem, hnodup⟩ := ih (ib._create new_handle mapped_address indices d).1
      (ib._create new_handle mapped_address indices d).2
    simp only [RHI_IndexBuffer.create_calls]
    refine ⟨?_, ?_⟩
    · intro h hh
      rw [List.mem_cons] at hh
      rcases hh with rfl | hh
      · exact ⟨k0, hk0, hslot⟩
      · obtain ⟨k, hk, rfl⟩ := hmem h hh
        exact ⟨k, by omega, rfl⟩
    · rw [List.nodup_cons]
      refine ⟨?_, hnodup⟩
      intro hin
      obtain ⟨k, hk, hkeq⟩ := hmem _ hin
      rw [hslot] at hkeq
      have := hinj hkeq
      omega

/-- After the destructor the slot is null and the slot's last value has been enqueued. -/
theorem lifetime_eq (new_handle mapped_address : Nat → Nat)
    (creates : List (Option (List Nat))) (ib : RHI_IndexBuffer) (d : RHI_Device) :
    (ib.lifetime new_handle mapped_address creates d).1 =
      (ib.create_calls new_handle mapped_address creates d).1 ∧
    (ib.lifetime new_handle mapped_address creates d).2.1.m_rhi_resource = 0 ∧
    (ib.lifetime new_handle mapped_address creates d).2.2.deletion_queue =
      d.deletion_queue ++ buffer_entries
        (ib.m_rhi_resource :: (ib.create_calls new_handle mapped_address creates d).1) := by
  refine ⟨rfl, ?_, ?_⟩
  · exact release_previous_slot _ _
  · rw [← create_calls_deletion_queue]
    exact release_previous_deletion_queue _ _

/-- C10: for every sequence of `_create` calls followed by destruction of the buffer object,
assuming buffer creation returns fresh non-null handles (`new_handle` is injective, never null,
and never returns the handle the slot holds at the start), the slot is null after destruction,
every `_create` leaves a non-null handle in the slot, and the entries added to the deferred
deletion queue over the whole life are exactly the handles that occupied the slot (its initial
value if not null, then the value after each `_create`): each such handle is among them, no
entry occurs twice, and nothing else is enqueued. -/
theorem lifetime_enqueues_each_handle_once (new_handle mapped_address : Nat → Nat)
    (creates : List (Option (List Nat))) (ib : RHI_IndexBuffer) (d : RHI_Device)
    (hinj : Function.Injective new_handle) (hnn : ∀ n, new_handle n ≠ 0)
    (hfresh : ∀ n, new_handle n ≠ ib.m_rhi_resource) :
    (ib.lifetime new_handle mapped_address creates d).2.1.m_rhi_resource = 0 ∧
    (∀ h, h ∈ (ib.lifetime new_handle mapped_address creates d).1 → h ≠ 0) ∧
    ∃ enqueued,
      (ib.lifetime new_handle mapped_address creates d).2.2.deletion_queue =
        d.deletion_queue ++ enqueued ∧
      enqueued.Nodup ∧
      (∀ h, h ∈ ib.m_rhi_resource :: (ib.lifetime new_handle mapped_address creates d).1 →
        h ≠ 0 → (RHI_Resource_Type.Buffer, h) ∈ enqueued) ∧
      (∀ entry, entry ∈ enqueued →
        ∃ h, h ∈ ib.m_rhi_resource :: (ib.lifetime new_handle mapped_address creates d).1 ∧
          h ≠ 0 ∧ entry = (RHI_Resource_Type.Buffer, h)) := by
  obtain ⟨hslots, hnull, hdq⟩ := lifetime_eq new_handle mapped_address creates ib d
  obtain ⟨hmem, hnodup⟩ := create_calls_slots new_handle mapped_address hinj creates ib d
  rw [hslots]
  have hall : (ib.m_rhi_resource ::
      (ib.create_calls new_handle mapped_address creates d).1).Nodup := by
    rw [List.nodup_cons]
    refine ⟨?_, hnodup⟩
    intro hin
    obtain ⟨k, -, hk⟩ := hmem _ hin
    exact hfresh k hk.symm
  have hpair : Function.Injective (fun h : Nat => (RHI_Resource_Type.Buffer, h)) := by
    intro a b hab
    simpa using hab
  refine ⟨hnull, ?_, _, hdq, (hall.filter _).map hpair, ?_, ?_⟩
  · intro h hh
    obtain ⟨k, -, rfl⟩ := hmem h hh
    exact hnn k
  · intro h hh h0
    unfold buffer_entries
    exact List.mem_map.mpr ⟨h, List.mem_filter.mpr ⟨hh, by simpa using h0⟩, rfl⟩
  · intro entry hentry
    unfold buffer_entries at hentry
    obtain ⟨h, hh, rfl⟩ := List.mem_map.mp hentry
    rw [List.mem_filter] at hh
    exact ⟨h, hh.1, by simpa using hh.2, rfl⟩

/-- Witness for C10: three `_create` calls (host-visible, staged, host-visible) on a fresh
buffer object, then destruction. -/
theorem lifetime_enqueues_each_handle_once_witness :
    Function.Injective (fun n : Nat => n + 1) ∧
    (example_index_buffer.lifetime (fun n => n + 1) (fun h => 1000 + h)
      [none, some [1, 2, 3, 4], none] example_device).2.1.m_rhi_resource = 0 ∧
    (example_index_buffer.lifetime (fun n => n + 1) (fun h => 1000 + h)
      [none, some [1, 2, 3, 4], none] example_device).2.2.deletion_queue =
      [(RHI_Resource_Type.Buffer, 1), (RHI_Resource_Type.Buffer, 3),
        (RHI_Resource_Type.Buffer, 4)] :=
  ⟨fun a b h => Nat.succ_injective h,
    (lifetime_enqueues_each_handle_once (fun n => n + 1) (fun h => 1000 + h)
      [none, some [1, 2, 3, 4], none] example_index_buffer example_device
      (fun a b h => Nat.succ_injective h) (fun n => Nat.succ_ne_zero n)
      (fun n => Nat.succ_ne_zero n)).1,
    by decide⟩

/-! ## Barrier/layout engine: further properties -/

/-- A handled layout other than Undefined and the presentation layout (and, as destination,
other than Preinitialized) has a non-empty access mask. -/
theorem layout_to_access_mask_ne_zero {layout : Nat} {d : Bool} {log log' : List String}
    {m : Nat} (hl : layout ∈ handled_layouts) (hu : layout ≠ VK_IMAGE_LAYOUT_UNDEFINED)
    (hpr : layout ≠ VK_IMAGE_LAYOUT_PRESENT_SRC_KHR)
    (h : layout_to_access_mask layout d log = (.ok m, log')) : m ≠ 0 := by
  rcases mem_handled_layouts hl with
    rfl | rfl | rfl | rfl | rfl | rfl | rfl | rfl | rfl | rfl | rfl | rfl | rfl | rfl <;>
  cases d <;> simp [layout_to_access_mask, SP_ASSERT] at h hu hpr <;>
    (obtain ⟨rfl, -⟩ := h; decide)

/-- C27: used as the source of a transition, Undefined and Preinitialized carry no readable
access: for Undefined the access mask is empty, and for Preinitialized it is the single bit
`HOST_WRITE`, which contains none of the read access flags. -/
theorem undefined_preinitialized_source_no_read (log : List String) :
    layout_to_access_mask VK_IMAGE_LAYOUT_UNDEFINED false log = (.ok 0, log) ∧
    layout_to_access_mask VK_IMAGE_LAYOUT_PREINITIALIZED false log =
      (.ok VK_ACCESS_HOST_WRITE_BIT, log) ∧
    ∀ flag, flag ∈ read_access_flags → VK_ACCESS_HOST_WRITE_BIT &&& flag = 0 := by
  refine ⟨by simp [layout_to_access_mask, SP_ASSERT],
    by simp [layout_to_access_mask, SP_ASSERT], by decide⟩

/-- C28: for every handled old layout, every handled new layout other than Undefined and
Preinitialized, and every value of the enabled graphics stages (0 included), `set_layout`
records a barrier whose source stage mask and destination stage mask are both non-zero, also
when the corresponding access mask is empty (Undefined as old layout, the presentation layout
on either side). -/
theorem set_layout_stage_masks_nonzero (table : Nat → Nat)
    (e cmd_buffer image aspect_mask mip_index mip_range array_length layout_old layout_new : Nat)
    (r : Recording) (hcmd : cmd_buffer ≠ 0) (himg : image ≠ 0)
    (hold : table layout_old ∈ handled_layouts) (hnew : table layout_new ∈ handled_layouts)
    (hu : table layout_new ≠ VK_IMAGE_LAYOUT_UNDEFINED)
    (hp : table layout_new ≠ VK_IMAGE_LAYOUT_PREINITIALIZED) :
    ∃ b log', set_layout table e cmd_buffer image aspect_mask mip_index mip_range array_length
        layout_old layout_new r = (.ok (), { log := log', commands := r.commands ++ [b] }) ∧
      b.srcStageMask ≠ 0 ∧ b.dstStageMask ≠ 0 := by
  obtain ⟨srcA, log1, dstA, log2, ss, ds, h1, h2, h3, h4, h5⟩ := set_layout_records table e
    cmd_buffer image aspect_mask mip_index mip_range array_length layout_old layout_new r
    hcmd himg hu hp
  refine ⟨_, _, h5, ?_, ?_⟩
  · show ss ≠ 0
    unfold source_stage_mask at h3
    by_cases hpr : table layout_old = VK_IMAGE_LAYOUT_PRESENT_SRC_KHR
    · rw [if_pos hpr] at h3
      simp only [Except.ok.injEq] at h3
      rw [← h3]; decide
    · by_cases hun : table layout_old = VK_IMAGE_LAYOUT_UNDEFINED
      · rw [if_neg hpr, if_pos hun] at h3
        simp only [Except.ok.injEq] at h3
        rw [← h3]; decide
      · rw [if_neg hpr, if_neg hun] at h3
        obtain ⟨s, hs, hs0⟩ := access_flags_to_pipeline_stage_ne_zero e
          (layout_to_access_mask_ok_bound h1) (layout_to_access_mask_ne_zero hold hun hpr h1)
        rw [hs] at h3
        simp only [Except.ok.injEq] at h3
        rw [← h3]; exact hs0
  · show ds ≠ 0
    unfold destination_stage_mask at h4
    by_cases hpr : table layout_new = VK_IMAGE_LAYOUT_PRESENT_SRC_KHR
    · rw [if_pos hpr] at h4
      simp only [Except.ok.injEq] at h4
      rw [← h4]; decide
    · rw [if_neg hpr] at h4
      obtain ⟨s, hs, hs0⟩ := access_flags_to_pipeline_stage_ne_zero e
        (layout_to_access_mask_ok_bound h2) (layout_to_access_mask_ne_zero hnew hu hpr h2)
      rw [hs] at h4
      simp only [Except.ok.injEq] at h4
      rw [← h4]; exact hs0

/-- Witness for C28: a first transition from Undefined to the presentation layout, with no
graphics stage enabled: both access masks are empty. -/
theorem set_layout_stage_masks_nonzero_witness :
    (1 : Nat) ≠ 0 ∧
    (fun l : Nat => l) VK_IMAGE_LAYOUT_UNDEFINED ∈ handled_layouts ∧
    (fun l : Nat => l) VK_IMAGE_LAYOUT_PRESENT_SRC_KHR ∈ handled_layouts ∧
    ∃ b log', set_layout (fun l => l) 0 1 1 1 0 1 1 VK_IMAGE_LAYOUT_UNDEFINED
        VK_IMAGE_LAYOUT_PRESENT_SRC_KHR { log := [], commands := [] } =
        (.ok (), { log := log', commands := [] ++ [b] }) ∧
      b.srcStageMask ≠ 0 ∧ b.dstStageMask ≠ 0 :=
  ⟨by decide, by decide, by decide,
    set_layout_stage_masks_nonzero (fun l => l) 0 1 1 1 0 1 1 VK_IMAGE_LAYOUT_UNDEFINED
      VK_IMAGE_LAYOUT_PRESENT_SRC_KHR { log := [], commands := [] } (by decide) (by decide)
      (by decide) (by decide) (by decide) (by decide)⟩

/-! ## Timeline semaphore: the properties -/

/-- C11, as stated, fails: with the counter at 5, a wait for 6 with a timeout does not hand any
value back to the caller (in particular no timeout failure): it stops at the fatal assertion
"Failed to wait for semaphore". -/
theorem timeline_wait_timeout_counterexample :
    timeline_semaphore.wait (vkWaitSemaphores_quiet (fun _ => 5)) 1 6 1000 =
      .error (.assertion "Failed to wait for semaphore") ∧
    ¬ ∃ r : Unit, timeline_semaphore.wait (vkWaitSemaphores_quiet (fun _ => 5)) 1 6 1000 =
      .ok r := by
  refine ⟨by decide, ?_⟩
  rintro ⟨r, hr⟩
  have h : timeline_semaphore.wait (vkWaitSemaphores_quiet (fun _ => 5)) 1 6 1000 =
      .error (.assertion "Failed to wait for semaphore") := by decide
  rw [h] at hr
  exact Except.noConfusion hr

/-- C11, amended: on a valid semaphore, whenever the underlying wait does not complete
successfully within the timeout (a timeout or any other result than `VK_SUCCESS`), `wait` does
not return success: it fails the fatal assertion "Failed to wait for semaphore"; and it returns
(without a value, the function being `void`) exactly when the underlying wait succeeded. -/
theorem timeline_wait_asserts_unless_success (vkWaitSemaphores : Nat → Nat → Nat → Nat)
    (semaphore wait_value timeout : Nat) (hsem : semaphore ≠ 0) :
    (vkWaitSemaphores semaphore wait_value timeout ≠ VK_SUCCESS →
      timeline_semaphore.wait vkWaitSemaphores semaphore wait_value timeout =
        .error (.assertion "Failed to wait for semaphore")) ∧
    (timeline_semaphore.wait vkWaitSemaphores semaphore wait_value timeout = .ok () ↔
      vkWaitSemaphores semaphore wait_value timeout = VK_SUCCESS) := by
  by_cases h : vkWaitSemaphores semaphore wait_value timeout = VK_SUCCESS
  · simp [timeline_semaphore.wait, SP_ASSERT_MSG, hsem, h]
  · simp [timeline_semaphore.wait, SP_ASSERT_MSG, hsem, h]

/-- Witness for C11 (amended): counter at 5, wait for 6. -/
theorem timeline_wait_asserts_unless_success_witness :
    (1 : Nat) ≠ 0 ∧ vkWaitSemaphores_quiet (fun _ => 5) 1 6 1000 ≠ VK_SUCCESS ∧
    timeline_semaphore.wait (vkWaitSemaphores_quiet (fun _ => 5)) 1 6 1000 =
      .error (.assertion "Failed to wait for semaphore") :=
  ⟨by decide, by decide,
    (timeline_wait_asserts_unless_success (vkWaitSemaphores_quiet (fun _ => 5)) 1 6 1000
      (by decide)).1 (by decide)⟩

/-! ## Shader compilation: `CompileShader`, `Compile`, `SetSource` -/

/-- C12: after `CompileShader` returns, the resource handle is the value returned by the backend
compile function, whatever handle was there before, and the compilation state is Succeeded if
and only if that handle is non-null and Failed otherwise (the last value written to the state is
the final one); the same holds of the members of the shader object after the call that
`Compile` makes. -/
theorem compile_shader_state_and_resource (env : ShaderEnvironment) (w : ShaderWorld)
    (compilation_state : RHI_ShaderCompilationState) (shader_type : RHI_Shader_Type)
    (defines : List (String × String)) (object_name : String) (resource : Nat)
    (compile2 : Unit → Nat) :
    (CompileShader compilation_state shader_type defines object_name resource
      compile2).resource = compile2 () ∧
    ((CompileShader compilation_state shader_type defines object_name resource
      compile2).compilation_state = .Succeeded ↔ compile2 () ≠ 0) ∧
    ((CompileShader compilation_state shader_type defines object_name resource
      compile2).compilation_state = .Failed ↔ compile2 () = 0) ∧
    (CompileShader compilation_state shader_type defines object_name resource
      compile2).state_writes.getLast? =
      some (CompileShader compilation_state shader_type defines object_name resource
        compile2).compilation_state ∧
    (w.compile_shader_on_members env).shader.m_rhi_resource =
      env.RHI_Compile { w.shader with m_compilation_state := .Compiling } ∧
    ((w.compile_shader_on_members env).shader.m_compilation_state = .Succeeded ↔
      (w.compile_shader_on_members env).shader.m_rhi_resource ≠ 0) ∧
    ((w.compile_shader_on_members env).shader.m_compilation_state = .Failed ↔
      (w.compile_shader_on_members env).shader.m_rhi_resource = 0) := by
  refine ⟨rfl, ?_, ?_, rfl, rfl, ?_, ?_⟩
  · by_cases h : compile2 () = 0 <;> simp [CompileShader, h]
  · by_cases h : compile2 () = 0 <;> simp [CompileShader, h]
  · by_cases h : env.RHI_Compile { w.shader with m_compilation_state := .Compiling } = 0 <;>
      simp [ShaderWorld.compile_shader_on_members, CompileShader, h]
  · by_cases h : env.RHI_Compile { w.shader with m_compilation_state := .Compiling } = 0 <;>
      simp [ShaderWorld.compile_shader_on_members, CompileShader, h]

/-- What `Compile` does when the file does not exist: the type members are set, the error is
logged, and nothing else happens. -/
theorem compile_of_missing_file (env : ShaderEnvironment) (type : RHI_Shader_Type)
    (file_path : String) (async : Bool) (vertex_type : Nat) (w : ShaderWorld)
    (hfile : env.fs.IsFile file_path = false) :
    RHI_Shader.Compile env type file_path async vertex_type w =
      some { w with
        shader :=
          { w.shader with
            m_shader_type := type
            m_vertex_type := vertex_type
            m_input_layout :=
              if type = .RHI_Shader_Vertex then some env.new_input_layout
              else w.shader.m_input_layout }
        log := w.log ++
          [{ level := .Error, format := "\"%s\" doesn't exist.",
             arguments := [.text file_path] }] } := by
  by_cases ht : type = .RHI_Shader_Vertex <;> simp [RHI_Shader.Compile, hfile, ht]

/-- C13: for every shader object in state Idle and every file path that does not name an
existing file, `Compile`, synchronous or asynchronous, returns with the compilation state Idle,
writes no value to the state (so never Compiling), does not call the backend compile function
and submits no task. -/
theorem compile_missing_file_stays_idle (env : ShaderEnvironment) (type : RHI_Shader_Type)
    (file_path : String) (async : Bool) (vertex_type : Nat) (w : ShaderWorld)
    (hidle : w.shader.m_compilation_state = .Idle)
    (hfile : env.fs.IsFile file_path = false) :
    ∃ w', RHI_Shader.Compile env type file_path async vertex_type w = some w' ∧
      w'.shader.m_compilation_state = .Idle ∧
      w'.state_writes = w.state_writes ∧
      w'.backend_compile_calls = w.backend_compile_calls ∧
      w'.tasks = w.tasks := by
  refine ⟨_, compile_of_missing_file env type file_path async vertex_type w hfile, ?_, rfl, rfl,
    rfl⟩
  exact hidle

/-- Witness for C13: an asynchronous compile of a file that is not there. -/
theorem compile_missing_file_stays_idle_witness :
    example_world.shader.m_compilation_state = .Idle ∧
    (example_environment [("a.hlsl", "x\n")]).fs.IsFile "missing.hlsl" = false ∧
    ∃ w', RHI_Shader.Compile (example_environment [("a.hlsl", "x\n")]) .RHI_Shader_Pixel
        "missing.hlsl" true 0 example_world = some w' ∧
      w'.shader.m_compilation_state = .Idle ∧
      w'.state_writes = example_world.state_writes ∧
      w'.backend_compile_calls = example_world.backend_compile_calls ∧
      w'.tasks = example_world.tasks :=
  ⟨rfl, by decide,
    compile_missing_file_stays_idle (example_environment [("a.hlsl", "x\n")]) .RHI_Shader_Pixel
      "missing.hlsl" true 0 example_world rfl (by decide)⟩

/-- C14, as stated, fails: a shader object of unknown type and vertex type 0, asked to compile a
missing file as a pixel shader with vertex type 7, has its shader type and vertex type changed
by the call. -/
theorem compile_missing_file_changes_type_counterexample :
    (example_environment []).fs.IsFile "missing.hlsl" = false ∧
    example_world.shader.m_shader_type = .RHI_Shader_Unknown ∧
    example_world.shader.m_vertex_type = 0 ∧
    (RHI_Shader.Compile (example_environment []) .RHI_Shader_Pixel "missing.hlsl" false 7
      example_world).map (fun w => (w.shader.m_shader_type, w.shader.m_vertex_type)) =
      some (.RHI_Shader_Pixel, 7) := by
  decide

/-- C14, amended: `Compile` called with a path to a missing file logs the error and returns,
having set the shader type and the vertex type to its arguments and, for a vertex shader,
replaced the input layout by a new one; every other member of the shader object (names, file
paths, sources, preprocessed source, hash, resource handle, compilation state, definitions,
object name, file path) has the value it had before the call, and no task, state write or
backend call is made. -/
theorem compile_missing_file_keeps_other_members (env : ShaderEnvironment)
    (type : RHI_Shader_Type) (file_path : String) (async : Bool) (vertex_type : Nat)
    (w : ShaderWorld) (hfile : env.fs.IsFile file_path = false) :
    ∃ w', RHI_Shader.Compile env type file_path async vertex_type w = some w' ∧
      w'.shader =
        { w.shader with
          m_shader_type := type
          m_vertex_type := vertex_type
          m_input_layout :=
            if type = .RHI_Shader_Vertex then some env.new_input_layout
            else w.shader.m_input_layout } ∧
      w'.log = w.log ++
        [{ level := .Error, format := "\"%s\" doesn't exist.",
           arguments := [.text file_path] }] ∧
      w'.tasks = w.tasks ∧ w'.state_writes = w.state_writes ∧
      w'.backend_compile_calls = w.backend_compile_calls :=
  ⟨_, compile_of_missing_file env type file_path async vertex_type w hfile, rfl, rfl, rfl, rfl,
    rfl⟩

/-- Witness for C14 (amended): the compile of a missing file as a vertex shader. -/
theorem compile_missing_file_keeps_other_members_witness :
    (example_environment []).fs.IsFile "missing.hlsl" = false ∧
    ∃ w', RHI_Shader.Compile (example_environment []) .RHI_Shader_Vertex "missing.hlsl" false 7
        example_world = some w' ∧
      w'.shader =
        { example_world.shader with
          m_shader_type := .RHI_Shader_Vertex
          m_vertex_type := 7
          m_input_layout :=
            if RHI_Shader_Type.RHI_Shader_Vertex = .RHI_Shader_Vertex then
              some (example_environment []).new_input_layout
            else example_world.shader.m_input_layout } ∧
      w'.log = example_world.log ++
        [{ level := .Error, format := "\"%s\" doesn't exist.",
           arguments := [.text "missing.hlsl"] }] ∧
      w'.tasks = example_world.tasks ∧ w'.state_writes = example_world.state_writes ∧
      w'.backend_compile_calls = example_world.backend_compile_calls :=
  ⟨by decide,
    compile_missing_file_keeps_other_members (example_environment []) .RHI_Shader_Vertex
      "missing.hlsl" false 7 example_world (by decide)⟩

/-- C15: `SetSource (index, source)` with `index` at or beyond the number of stored sources logs
an error and leaves every stored source and the rest of the shader object unchanged; with
`index` below the number of stored sources it replaces exactly the entry at `index` by `source`:
the number of sources and every other entry are unchanged, as is everything else. -/
theorem set_source_replaces_or_rejects (index : Nat) (source : String) (w : ShaderWorld) :
    (w.shader.m_sources.length ≤ index →
      RHI_Shader.SetSource index source w =
        { w with
          log := w.log ++
            [{ level := .Error, format := "No source with index %d exists.",
               arguments := [.number index] }] }) ∧
    (index < w.shader.m_sources.length →
      (RHI_Shader.SetSource index source w).shader.m_sources.length =
        w.shader.m_sources.length ∧
      (RHI_Shader.SetSource index source w).shader.m_sources.get? index = some source ∧
      (∀ j, j ≠ index →
        (RHI_Shader.SetSource index source w).shader.m_sources.get? j =
          w.shader.m_sources.get? j) ∧
      RHI_Shader.SetSource index source w =
        { w with
          shader :=
            { w.shader with
              m_sources := (RHI_Shader.SetSource index source w).shader.m_sources } }) := by
  constructor
  · intro h
    simp [RHI_Shader.SetSource, h]
  · intro h
    have h' : ¬ index ≥ w.shader.m_sources.length := by omega
    simp only [RHI_Shader.SetSource, if_neg h']
    refine ⟨by simp, ?_, ?_, trivial⟩
    · simp [List.getElem?_set, h]
    · intro j hj
      simp [List.getElem?_set, hj.symm]

/-- Witness for C15: the second of three sources is replaced. -/
theorem set_source_replaces_or_rejects_witness :
    1 < ({ example_world with
      shader := { example_shader with m_sources := ["a", "b", "c"] } } :
        ShaderWorld).shader.m_sources.length ∧
    (RHI_Shader.SetSource 1 "new"
      { example_world with
        shader := { example_shader with m_sources := ["a", "b", "c"] } }).shader.m_sources.get?
      1 = some "new" :=
  ⟨by decide,
    ((set_source_replaces_or_rejects 1 "new"
      { example_world with shader := { example_shader with m_sources := ["a", "b", "c"] } }).2
      (by decide)).2.1⟩

/-! ## Include resolution: structure of the result -/

theorem join_lines_foldl (lines : List String) (text : String) :
    lines.foldl (fun text line => text ++ (line ++ "\n")) text = text ++ join_lines lines := by
  induction lines generalizing text with
  | nil => simp [join_lines]
  | cons l ls ih =>
    simp only [join_lines, List.foldl_cons, String.empty_append]
    rw [ih, ih (l ++ "\n"), String.append_assoc]

theorem join_lines_cons (line : String) (lines : List String) :
    join_lines (line :: lines) = (line ++ "\n") ++ join_lines lines := by
  simp only [join_lines, List.foldl_cons, String.empty_append]
  exact join_lines_foldl lines _

theorem join_lines_append (a b : List String) :
    join_lines (a ++ b) = join_lines a ++ join_lines b := by
  induction a with
  | nil => simp [join_lines]
  | cons l ls ih =>
    rw [List.cons_append, join_lines_cons, join_lines_cons, ih]
    simp only [String.append_assoc]

theorem extended_nil (fs : FileSystem) (shader : RHI_Shader) :
    shader.extended fs [] [] [] = shader := by
  simp [RHI_Shader.extended, join_lines]

theorem extended_extended (fs : FileSystem) (shader : RHI_Shader) (v v' : List String)
    (e e' : List (String × String)) (r r' : List String) :
    (shader.extended fs v e r).extended fs v' e' r' =
      shader.extended fs (v ++ v') (e ++ e') (r ++ r') := by
  simp [RHI_Shader.extended, join_lines_append, String.append_assoc]

theorem extended_visited (fs : FileSystem) (shader : RHI_Shader) (v : List String)
    (e : List (String × String)) (r : List String) :
    (shader.extended fs v e r).m_file_paths_multiple = shader.m_file_paths_multiple ++ v := rfl

theorem mark_visited_eq_extended (fs : FileSystem) (shader : RHI_Shader) (file_path : String) :
    { shader with m_file_paths_multiple := shader.m_file_paths_multiple ++ [file_path] } =
      shader.extended fs [file_path] [] [] := by
  simp [RHI_Shader.extended, join_lines]

theorem emit_line_eq_extended (fs : FileSystem) (shader : RHI_Shader)
    (file_path source_line : String) :
    { shader with
      m_preprocessed_source := shader.m_preprocessed_source ++ (source_line ++ "\n")
      emitted_lines := shader.emitted_lines ++ [(file_path, source_line)] } =
      shader.extended fs [] [(file_path, source_line)] [] := by
  simp [RHI_Shader.extended, join_lines]

theorem record_file_eq_extended (fs : FileSystem) (shader : RHI_Shader) (file_path : String) :
    { shader with
      m_names := shader.m_names ++ [fs.GetFileNameFromFilePath file_path]
      m_file_paths := shader.m_file_paths ++ [file_path]
      m_sources := shader.m_sources ++ [fs.read file_path] } =
      shader.extended fs [] [] [file_path] := by
  simp [RHI_Shader.extended, join_lines]

theorem file_added_not_seen {fs : FileSystem} {q : String} {seen visited : List String}
    {emitted : List (String × String)} {recorded : List String}
    (h : FileAdded fs q seen visited emitted recorded) : ∀ p, p ∈ visited → p ∉ seen := by
  rcases h with ⟨-, rfl, -, -⟩ | ⟨hq, v, r, rfl, rfl, hl⟩
  · intro p hp; exact absurd hp (List.not_mem_nil p)
  · intro p hp
    rcases List.mem_cons.mp hp with rfl | hp
    · exact hq
    · exact fun hs => hl.1 p hp (List.mem_append_left _ hs)

theorem file_added_nodup {fs : FileSystem} {q : String} {seen visited : List String}
    {emitted : List (String × String)} {recorded : List String}
    (h : FileAdded fs q seen visited emitted recorded) : visited.Nodup := by
  rcases h with ⟨-, rfl, -, -⟩ | ⟨-, v, r, rfl, rfl, hl⟩
  · exact List.nodup_nil
  · rw [List.nodup_cons]
    exact ⟨fun hq => hl.1 q hq (List.mem_append_right _ (List.mem_singleton_self q)), hl.2.1⟩

theorem file_added_perm {fs : FileSystem} {q : String} {seen visited : List String}
    {emitted : List (String × String)} {recorded : List String}
    (h : FileAdded fs q seen visited emitted recorded) : recorded.Perm visited := by
  rcases h with ⟨-, rfl, -, rfl⟩ | ⟨-, v, r, rfl, rfl, hl⟩
  · exact List.Perm.refl _
  · exact (List.perm_append_singleton q r).trans (List.Perm.cons q hl.2.2.1)

theorem file_added_reachable {fs : FileSystem} {q : String} {seen visited : List String}
    {emitted : List (String × String)} {recorded : List String}
    (h : FileAdded fs q seen visited emitted recorded) :
    ∀ p, p ∈ visited → Relation.ReflTransGen (includes fs) q p := by
  rcases h with ⟨-, rfl, -, -⟩ | ⟨-, v, r, rfl, rfl, hl⟩
  · intro p hp; exact absurd hp (List.not_mem_nil p)
  · intro p hp
    rcases List.mem_cons.mp hp with rfl | hp
    · exact Relation.ReflTransGen.refl
    · obtain ⟨line, hline, hdir, hreach⟩ := hl.2.2.2.1 p hp
      exact Relation.ReflTransGen.head ⟨line, hline, hdir, rfl⟩ hreach

theorem file_added_emitted {fs : FileSystem} {q : String} {seen visited : List String}
    {emitted : List (String × String)} {recorded : List String}
    (h : FileAdded fs q seen visited emitted recorded) :
    ∀ e, e ∈ emitted → e.1 ∈ visited ∧ e.2 ∈ getlines (fs.read e.1) ∧
      is_include_directive e.2 = false := by
  rcases h with ⟨-, -, rfl, -⟩ | ⟨-, v, r, rfl, rfl, hl⟩
  · intro e he; exact absurd he (List.not_mem_nil e)
  · intro e he
    obtain ⟨hnd, hsrc⟩ := hl.2.2.2.2.1 e he
    rcases hsrc with ⟨hq, hmem⟩ | ⟨hv, hmem⟩
    · exact ⟨by rw [hq]; exact List.mem_cons_self _ _, by rw [hq]; exact hmem, hnd⟩
    · exact ⟨List.mem_cons_of_mem _ hv, hmem, hnd⟩

/-- The loop over the lines of a visited file, given that every recursive call adds what
`FileAdded` says. -/
theorem process_lines_added (fs : FileSystem)
    (recurse : String → RHI_Shader → Option RHI_Shader)
    (hrec : ∀ q shader shader', recurse q shader = some shader' →
      ∃ v e r, shader' = shader.extended fs v e r ∧
        FileAdded fs q shader.m_file_paths_multiple v e r)
    (file_path : String) :
    ∀ (lines : List String) (shader shader' : RHI_Shader),
      file_path ∈ shader.m_file_paths_multiple →
      process_lines fs recurse file_path lines shader = some shader' →
      ∃ v e r, shader' = shader.extended fs v e r ∧
        LinesAdded fs file_path shader.m_file_paths_multiple lines v e r := by
  intro lines
  induction lines with
  | nil =>
    intro shader shader' _ h
    simp only [process_lines, Option.some.injEq] at h
    refine ⟨[], [], [], by rw [extended_nil]; exact h.symm, ?_⟩
    exact ⟨fun p hp => absurd hp (List.not_mem_nil p), List.nodup_nil, List.Perm.refl _,
      fun p hp => absurd hp (List.not_mem_nil p), fun e he => absurd he (List.not_mem_nil e),
      rfl⟩
  | cons l rest ih =>
    intro shader shader' hseen h
    by_cases hd : is_include_directive l = true
    · simp only [process_lines, hd, if_true] at h
      cases hr : recurse (include_file_path fs file_path l) shader with
      | none => rw [hr] at h; exact absurd h (by simp)
      | some shader1 =>
        rw [hr] at h
        simp only at h
        obtain ⟨v1, e1, r1, rfl, hfa⟩ := hrec _ _ _ hr
        obtain ⟨v2, e2, r2, rfl, hla⟩ := ih _ _
          (by rw [extended_visited]; exact List.mem_append_left _ hseen) h
        rw [extended_visited] at hla
        obtain ⟨h1, h2, h3, h4, h5, h6⟩ := hla
        refine ⟨v1 ++ v2, e1 ++ e2, r1 ++ r2, extended_extended _ _ _ _ _ _ _ _, ?_, ?_, ?_, ?_,
          ?_, ?_⟩
        · intro p hp
          rcases List.mem_append.mp hp with hp | hp
          · exact file_added_not_seen hfa p hp
          · exact fun hs => h1 p hp (List.mem_append_left _ hs)
        · exact (file_added_nodup hfa).append h2
            (fun a ha1 ha2 => h1 a ha2 (List.mem_append_right _ ha1))
        · exact (file_added_perm hfa).append h3
        · intro p hp
          rcases List.mem_append.mp hp with hp | hp
          · exact ⟨l, List.mem_cons_self _ _, hd, file_added_reachable hfa p hp⟩
          · obtain ⟨line, hline, hdir, hreach⟩ := h4 p hp
            exact ⟨line, List.mem_cons_of_mem _ hline, hdir, hreach⟩
        · intro e he
          rcases List.mem_append.mp he with he | he
          · obtain ⟨hv, hmem, hnd⟩ := file_added_emitted hfa e he
            exact ⟨hnd, Or.inr ⟨List.mem_append_left _ hv, hmem⟩⟩
          · obtain ⟨hnd, hsrc⟩ := h5 e he
            rcases hsrc with ⟨hq, hmem⟩ | ⟨hv, hmem⟩
            · exact ⟨hnd, Or.inl ⟨hq, List.mem_cons_of_mem _ hmem⟩⟩
            · exact ⟨hnd, Or.inr ⟨List.mem_append_right _ hv, hmem⟩⟩
        · have hnone : e1.filter (fun e => decide (e.1 = file_path)) = [] := by
            rw [List.filter_eq_nil_iff]
            intro e he
            have hv := (file_added_emitted hfa e he).1
            have := file_added_not_seen hfa e.1 hv
            simp only [decide_eq_true_eq]
            exact fun heq => this (heq ▸ hseen)
          rw [List.filter_append, hnone, List.nil_append, h6, List.filter_cons]
          simp [hd]
    · have hd' : is_include_directive l = false := by simpa using hd
      simp only [process_lines, hd', Bool.false_eq_true, if_false] at h
      rw [emit_line_eq_extended fs] at h
      obtain ⟨v, e, r, rfl, hla⟩ := ih _ _ (by rw [extended_visited]; simpa using hseen) h
      rw [extended_visited, List.append_nil] at hla
      obtain ⟨h1, h2, h3, h4, h5, h6⟩ := hla
      refine ⟨v, (file_path, l) :: e, r, ?_, h1, h2, h3, ?_, ?_, ?_⟩
      · rw [extended_extended]; rfl
      · intro p hp
        obtain ⟨line, hline, hdir, hreach⟩ := h4 p hp
        exact ⟨line, List.mem_cons_of_mem _ hline, hdir, hreach⟩
      · intro e' he'
        rcases List.mem_cons.mp he' with rfl | he'
        · exact ⟨hd', Or.inl ⟨rfl, List.mem_cons_self _ _⟩⟩
        · obtain ⟨hnd, hsrc⟩ := h5 e' he'
          rcases hsrc with ⟨hq, hmem⟩ | ⟨hv, hmem⟩
          · exact ⟨hnd, Or.inl ⟨hq, List.mem_cons_of_mem _ hmem⟩⟩
          · exact ⟨hnd, Or.inr ⟨hv, hmem⟩⟩
      · simp [List.filter_cons, hd', h6]

/-- Every successful call of `PreprocessIncludeDirectives` extends the shader object by what
`FileAdded` describes, and changes nothing else. -/
theorem preprocess_added (fs : FileSystem) :
    ∀ (fuel : Nat) (q : String) (shader shader' : RHI_Shader),
      shader.PreprocessIncludeDirectives fs fuel q = some shader' →
      ∃ v e r, shader' = shader.extended fs v e r ∧
        FileAdded fs q shader.m_file_paths_multiple v e r := by
  intro fuel
  induction fuel with
  | zero =>
    intro q shader shader' h
    simp [RHI_Shader.PreprocessIncludeDirectives] at h
  | succ fuel ih =>
    intro q shader shader' h
    by_cases hq : q ∈ shader.m_file_paths_multiple
    · simp only [RHI_Shader.PreprocessIncludeDirectives, hq, if_true, Option.some.injEq] at h
      exact ⟨[], [], [], by rw [extended_nil]; exact h.symm, Or.inl ⟨hq, rfl, rfl, rfl⟩⟩
    · simp only [RHI_Shader.PreprocessIncludeDirectives, hq, if_false] at h
      rw [mark_visited_eq_extended fs] at h
      cases hp : process_lines fs (RHI_Shader.PreprocessIncludeDirectives fs fuel) q
          (getlines (fs.read q)) (shader.extended fs [q] [] []) with
      | none => rw [hp] at h; exact absurd h (by simp)
      | some shader1 =>
        rw [hp] at h
        simp only [Option.some.injEq] at h
        obtain ⟨v, e, r, rfl, hla⟩ := process_lines_added fs _ ih q _ _ _
          (by rw [extended_visited]; exact List.mem_append_right _ (List.mem_singleton_self q))
          hp
        rw [extended_visited] at hla
        rw [record_file_eq_extended fs, extended_extended, extended_extended] at h
        simp only [List.append_nil, List.nil_append, List.singleton_append] at h
        exact ⟨q :: v, e, r ++ [q], h.symm, Or.inr ⟨hq, v, r, rfl, rfl, hla⟩⟩

/-! ## Include resolution: termination -/

theorem getlines_empty : getlines "" = [] := by decide

theorem read_of_not_file (fs : FileSystem) {q : String} (h : q ∉ fs.files.map Prod.fst) :
    fs.read q = "" := by
  have : fs.files.lookup q = none := by
    rw [List.lookup_eq_none_iff]
    intro p hp
    have hne : q ≠ p.1 := fun heq => h (heq ▸ List.mem_map_of_mem Prod.fst hp)
    simpa using hne
  simp [FileSystem.read, this]

theorem unvisited_files_append_le (fs : FileSystem) (seen visited : List String) :
    (unvisited_files fs (seen ++ visited)).length ≤ (unvisited_files fs seen).length := by
  apply List.Sublist.length_le
  apply List.monotone_filter_right
  intro file hfile
  simp only [decide_eq_true_eq, List.mem_append, not_or] at hfile ⊢
  exact hfile.1

theorem filter_unvisited_lt (files : List (String × String)) (seen : List String) (q : String)
    (hq : q ∈ files.map Prod.fst) (hseen : q ∉ seen) :
    (files.filter (fun file => decide (file.1 ∉ seen ++ [q]))).length <
      (files.filter (fun file => decide (file.1 ∉ seen))).length := by
  induction files with
  | nil => exact absurd hq (List.not_mem_nil q)
  | cons f rest ih =>
    by_cases hf : f.1 = q
    · have hle : (rest.filter (fun file => decide (file.1 ∉ seen ++ [q]))).length ≤
          (rest.filter (fun file => decide (file.1 ∉ seen))).length := by
        apply List.Sublist.length_le
        apply List.monotone_filter_right
        intro file hfile
        simp only [decide_eq_true_eq, List.mem_append, not_or] at hfile ⊢
        exact hfile.1
      have h1 : decide (f.1 ∉ seen ++ [q]) = false := by simp [hf]
      have h2 : decide (f.1 ∉ seen) = true := by simp [hf, hseen]
      rw [List.filter_cons, List.filter_cons, h1, h2]
      simp only [Bool.false_eq_true, if_false, if_true, List.length_cons]
      omega
    · have hq' : q ∈ rest.map Prod.fst := by
        rw [List.map_cons, List.mem_cons] at hq
        rcases hq with hq | hq
        · exact absurd hq.symm hf
        · exact hq
      have hiff : decide (f.1 ∉ seen ++ [q]) = decide (f.1 ∉ seen) := by simp [hf]
      rw [List.filter_cons, List.filter_cons, hiff]
      have := ih hq'
      by_cases hs : decide (f.1 ∉ seen) = true
      · simp only [hs, if_true, List.length_cons]; omega
      · simp only [hs, if_false]; exact this

/-- The loop over the lines returns when every recursive call that has enough fuel does. -/
theorem process_lines_terminates (fs : FileSystem) (fuel : Nat)
    (ih : ∀ (q : String) (shader : RHI_Shader),
      (unvisited_files fs shader.m_file_paths_multiple).length + 1 ≤ fuel →
      ∃ shader', shader.PreprocessIncludeDirectives fs fuel q = some shader')
    (file_path : String) :
    ∀ (lines : List String) (shader : RHI_Shader),
      (unvisited_files fs shader.m_file_paths_multiple).length + 1 ≤ fuel →
      ∃ shader', process_lines fs (RHI_Shader.PreprocessIncludeDirectives fs fuel) file_path
        lines shader = some shader' := by
  intro lines
  induction lines with
  | nil => intro shader _; exact ⟨shader, rfl⟩
  | cons l rest ihl =>
    intro shader hfuel
    by_cases hd : is_include_directive l = true
    · obtain ⟨shader1, h1⟩ := ih (include_file_path fs file_path l) shader hfuel
      obtain ⟨v, e, r, rfl, -⟩ := preprocess_added fs fuel _ _ _ h1
      obtain ⟨shader2, h2⟩ := ihl (shader.extended fs v e r) (by
        rw [extended_visited]
        have := unvisited_files_append_le fs shader.m_file_paths_multiple v
        omega)
      exact ⟨shader2, by simp only [process_lines, hd, if_true, h1]; exact h2⟩
    · have hd' : is_include_directive l = false := by simpa using hd
      obtain ⟨shader2, h2⟩ := ihl
        { shader with
          m_preprocessed_source := shader.m_preprocessed_source ++ (l ++ "\n")
          emitted_lines := shader.emitted_lines ++ [(file_path, l)] } hfuel
      exact ⟨shader2, by
        simp only [process_lines, hd', Bool.false_eq_true, if_false]; exact h2⟩

/-- `PreprocessIncludeDirectives` returns whenever the fuel exceeds the number of existing
files not yet visited. -/
theorem preprocess_terminates (fs : FileSystem) :
    ∀ (fuel : Nat) (q : String) (shader : RHI_Shader),
      (unvisited_files fs shader.m_file_paths_multiple).length + 1 ≤ fuel →
      ∃ shader', shader.PreprocessIncludeDirectives fs fuel q = some shader' := by
  intro fuel
  induction fuel with
  | zero => intro q shader h; omega
  | succ fuel ih =>
    intro q shader hfuel
    by_cases hq : q ∈ shader.m_file_paths_multiple
    · exact ⟨shader, by simp [RHI_Shader.PreprocessIncludeDirectives, hq]⟩
    · by_cases hfile : q ∈ fs.files.map Prod.fst
      · have hlt := filter_unvisited_lt fs.files shader.m_file_paths_multiple q hfile hq
        obtain ⟨shader1, h1⟩ := process_lines_terminates fs fuel ih q (getlines (fs.read q))
          { shader with m_file_paths_multiple := shader.m_file_paths_multiple ++ [q] }
          (by simp only [unvisited_files] at hfuel ⊢; omega)
        exact ⟨_, by
          simp only [RHI_Shader.PreprocessIncludeDirectives, hq, if_false, h1]; rfl⟩
      · exact ⟨_, by
          simp only [RHI_Shader.PreprocessIncludeDirectives, hq, if_false,
            read_of_not_file fs hfile, getlines_empty, process_lines]; rfl⟩

/-- `LoadSource` always returns, and what it returns: the lists hold the root first and then
the other recorded files in reverse order of recording. -/
theorem load_source_eq (fs : FileSystem) (hasher : String → Nat)
    (rhi_hash_combine : Nat → Nat → Nat) (root : String) (shader : RHI_Shader) :
    ∃ v e r, LinesAdded fs root [root] (getlines (fs.read root)) v e r ∧
      shader.LoadSource fs hasher rhi_hash_combine root =
        some { shader with
          m_object_name := fs.GetFileNameWithoutExtensionFromFilePath root
          m_file_path := root
          m_preprocessed_source := join_lines (e.map Prod.snd)
          emitted_lines := e
          m_names := fs.GetFileNameFromFilePath root ::
            (r.map fs.GetFileNameFromFilePath).reverse
          m_file_paths := root :: r.reverse
          m_sources := fs.read root :: (r.map fs.read).reverse
          m_file_paths_multiple := root :: v
          m_hash := update_hash hasher rhi_hash_combine (join_lines (e.map Prod.snd))
            shader.m_defines } := by
  obtain ⟨shader1, h1⟩ := preprocess_terminates fs (fs.files.length + 1) root
    { shader with
      m_object_name := fs.GetFileNameWithoutExtensionFromFilePath root
      m_file_path := root
      m_preprocessed_source := ""
      emitted_lines := []
      m_names := []
      m_file_paths := []
      m_sources := []
      m_file_paths_multiple := [] }
    (by
      have := List.length_filter_le (fun file : String × String => decide (file.1 ∉ []))
        fs.files
      simp only [unvisited_files]
      omega)
  obtain ⟨v0, e0, r0, rfl, hfa⟩ := preprocess_added fs _ _ _ _ h1
  rcases hfa with ⟨hmem, -, -, -⟩ | ⟨-, v, r, rfl, rfl, hla⟩
  · exact absurd hmem (List.not_mem_nil root)
  · refine ⟨v, e0, r, by simpa using hla, ?_⟩
    simp only [RHI_Shader.LoadSource, h1]
    simp [RHI_Shader.extended]

/-- `LoadSource` in terms of the result of its call of `PreprocessIncludeDirectives`. -/
theorem load_source_of_preprocess (fs : FileSystem) (hasher : String → Nat)
    (rhi_hash_combine : Nat → Nat → Nat) (root : String) (shader s1 : RHI_Shader)
    (h : RHI_Shader.PreprocessIncludeDirectives fs (fs.files.length + 1) root
      { shader with
        m_object_name := fs.GetFileNameWithoutExtensionFromFilePath root
        m_file_path := root
        m_preprocessed_source := ""
        emitted_lines := []
        m_names := []
        m_file_paths := []
        m_sources := []
        m_file_paths_multiple := [] } = some s1) :
    shader.LoadSource fs hasher rhi_hash_combine root =
      some { s1 with
        m_hash := update_hash hasher rhi_hash_combine s1.m_preprocessed_source s1.m_defines
        m_names := s1.m_names.reverse
        m_file_paths := s1.m_file_paths.reverse
        m_sources := s1.m_sources.reverse } := by
  simp only [RHI_Shader.LoadSource, h]

/-! ## Lines of a text -/

theorem split_newlines_no_newline (cs : List Char) :
    ∀ piece, piece ∈ split_newlines cs → '\n' ∉ piece := by
  induction cs with
  | nil =>
    intro piece hp
    simp only [split_newlines, List.mem_singleton] at hp
    rw [hp]; exact List.not_mem_nil _
  | cons c cs ih =>
    intro piece hp
    by_cases hc : c = '\n'
    · simp only [split_newlines, hc, if_true, List.mem_cons] at hp
      rcases hp with rfl | hp
      · exact List.not_mem_nil _
      · exact ih piece hp
    · simp only [split_newlines, hc, if_false] at hp
      cases hs : split_newlines cs with
      | nil =>
        rw [hs] at hp
        simp only [List.mem_singleton] at hp
        rw [hp]
        simp only [List.mem_singleton]
        exact fun h => hc h.symm
      | cons l ls =>
        rw [hs] at hp ih
        simp only [List.mem_cons] at hp
        rcases hp with rfl | hp
        · intro hmem
          rcases List.mem_cons.mp hmem with h | h
          · exact hc h.symm
          · exact ih l (List.mem_cons_self _ _) h
        · exact ih piece (List.mem_cons_of_mem _ hp)

theorem split_newlines_line (l rest : List Char) (hl : '\n' ∉ l) :
    split_newlines (l ++ '\n' :: rest) = l :: split_newlines rest := by
  induction l with
  | nil => simp [split_newlines]
  | cons c l ih =>
    have hc : c ≠ '\n' := fun h => hl (h ▸ List.mem_cons_self _ _)
    have hl' : '\n' ∉ l := fun h => hl (List.mem_cons_of_mem _ h)
    rw [List.cons_append, split_newlines, if_neg hc, ih hl']

/-- No line read by `getline` contains a newline. -/
theorem getlines_no_newline (source line : String) (h : line ∈ getlines source) :
    '\n' ∉ line.data := by
  simp only [getlines, List.mem_map] at h
  obtain ⟨piece, hpiece, rfl⟩ := h
  apply split_newlines_no_newline source.data
  split at hpiece
  · exact List.dropLast_subset _ hpiece
  · exact hpiece

theorem split_newlines_join_lines (lines : List String)
    (h : ∀ line, line ∈ lines → '\n' ∉ line.data) :
    split_newlines (join_lines lines).data = lines.map String.data ++ [[]] := by
  induction lines with
  | nil => rfl
  | cons l ls ih =>
    have hdata : (join_lines (l :: ls)).data = l.data ++ '\n' :: (join_lines ls).data := by
      rw [join_lines_cons]
      simp only [String.data_append, List.append_assoc]
      rfl
    rw [hdata, split_newlines_line _ _ (h l (List.mem_cons_self _ _)),
      ih (fun line hline => h line (List.mem_cons_of_mem _ hline))]
    rfl

/-- Reading back, line by line, a text made of newline-free lines each followed by a newline
gives these lines. -/
theorem getlines_join_lines (lines : List String)
    (h : ∀ line, line ∈ lines → '\n' ∉ line.data) : getlines (join_lines lines) = lines := by
  have hlast : (lines.map String.data ++ [[]]).getLast? = some [] := by simp
  simp only [getlines, split_newlines_join_lines lines h]
  rw [if_pos hlast, List.dropLast_concat, List.map_map]
  exact (List.map_congr_left (fun line _ => rfl)).trans (List.map_id lines)

/-! ## Include resolution: computing the result on files of a given shape -/

/-- Lines without include directive are emitted one after the other. -/
theorem process_lines_plain (fs : FileSystem)
    (recurse : String → RHI_Shader → Option RHI_Shader) (file_path : String) :
    ∀ (lines : List String) (shader : RHI_Shader),
      (∀ line, line ∈ lines → is_include_directive line = false) →
      process_lines fs recurse file_path lines shader =
        some (shader.extended fs [] (lines.map (fun line => (file_path, line))) []) := by
  intro lines
  induction lines with
  | nil => intro shader _; rw [List.map_nil, extended_nil]; rfl
  | cons l rest ih =>
    intro shader h
    have hl := h l (List.mem_cons_self _ _)
    simp only [process_lines, hl, Bool.false_eq_true, if_false]
    rw [emit_line_eq_extended fs, ih _ (fun line hline => h line (List.mem_cons_of_mem _ hline)),
      extended_extended]
    rfl

/-- The loop over `a ++ b` is the loop over `a` followed by the loop over `b`. -/
theorem process_lines_append (fs : FileSystem)
    (recurse : String → RHI_Shader → Option RHI_Shader) (file_path : String)
    (a b : List String) :
    ∀ shader : RHI_Shader,
      process_lines fs recurse file_path (a ++ b) shader =
        (process_lines fs recurse file_path a shader).bind
          (process_lines fs recurse file_path b) := by
  induction a with
  | nil => intro shader; rfl
  | cons l rest ih =>
    intro shader
    by_cases hd : is_include_directive l = true
    · simp only [List.cons_append, process_lines, hd, if_true]
      cases recurse (include_file_path fs file_path l) shader with
      | none => rfl
      | some shader1 => exact ih shader1
    · have hd' : is_include_directive l = false := by simpa using hd
      simp only [List.cons_append, process_lines, hd', Bool.false_eq_true, if_false]
      exact ih _

/-- A call on a path already visited returns at once, changing nothing. -/
theorem preprocess_visited (fs : FileSystem) (fuel : Nat) {q : String} {shader : RHI_Shader}
    (hq : q ∈ shader.m_file_paths_multiple) :
    shader.PreprocessIncludeDirectives fs (fuel + 1) q = some shader := by
  simp [RHI_Shader.PreprocessIncludeDirectives, hq]

/-- A call on a path not yet visited: mark it, go through its lines, record it. -/
theorem preprocess_unvisited (fs : FileSystem) (fuel : Nat) {q : String} {shader : RHI_Shader}
    (hq : q ∉ shader.m_file_paths_multiple) :
    shader.PreprocessIncludeDirectives fs (fuel + 1) q =
      (process_lines fs (RHI_Shader.PreprocessIncludeDirectives fs fuel) q
        (getlines (fs.read q)) (shader.extended fs [q] [] [])).map
        (fun s => s.extended fs [] [] [q]) := by
  simp only [RHI_Shader.PreprocessIncludeDirectives, hq, if_false]
  rw [mark_visited_eq_extended fs]
  cases process_lines fs (RHI_Shader.PreprocessIncludeDirectives fs fuel) q
      (getlines (fs.read q)) (shader.extended fs [q] [] []) with
  | none => rfl
  | some shader1 =>
    simp only [Option.map_some', Option.some.injEq]
    exact record_file_eq_extended fs shader1 q

/-- A file without include directive: its lines are emitted and it is recorded. -/
theorem preprocess_plain_file (fs : FileSystem) (fuel : Nat) {q : String} {shader : RHI_Shader}
    (hq : q ∉ shader.m_file_paths_multiple)
    (hplain : ∀ line, line ∈ getlines (fs.read q) → is_include_directive line = false) :
    shader.PreprocessIncludeDirectives fs (fuel + 1) q =
      some (shader.extended fs [q] ((getlines (fs.read q)).map (fun line => (q, line))) [q]) := by
  rw [preprocess_unvisited fs fuel hq, process_lines_plain fs _ q _ _ hplain]
  simp only [Option.map_some', extended_extended, List.append_nil, List.nil_append]

theorem process_lines_mono (fs : FileSystem)
    (recurse recurse' : String → RHI_Shader → Option RHI_Shader)
    (h : ∀ q shader shader', recurse q shader = some shader' →
      recurse' q shader = some shader')
    (file_path : String) :
    ∀ (lines : List String) (shader shader' : RHI_Shader),
      process_lines fs recurse file_path lines shader = some shader' →
      process_lines fs recurse' file_path lines shader = some shader' := by
  intro lines
  induction lines with
  | nil => intro shader shader' hp; exact hp
  | cons l rest ih =>
    intro shader shader' hp
    by_cases hd : is_include_directive l = true
    · simp only [process_lines, hd, if_true] at hp ⊢
      cases hr : recurse (include_file_path fs file_path l) shader with
      | none => rw [hr] at hp; exact absurd hp (by simp)
      | some shader1 =>
        rw [hr] at hp
        rw [h _ _ _ hr]
        exact ih _ _ hp
    · have hd' : is_include_directive l = false := by simpa using hd
      simp only [process_lines, hd', Bool.false_eq_true, if_false] at hp ⊢
      exact ih _ _ hp

/-- A result obtained within some recursion bound is obtained within every larger one: the
bound only decides whether a result is reached, not which. -/
theorem preprocess_fuel_mono (fs : FileSystem) :
    ∀ (fuel : Nat) (q : String) (shader shader' : RHI_Shader),
      shader.PreprocessIncludeDirectives fs fuel q = some shader' →
      shader.PreprocessIncludeDirectives fs (fuel + 1) q = some shader' := by
  intro fuel
  induction fuel with
  | zero => intro q shader shader' h; simp [RHI_Shader.PreprocessIncludeDirectives] at h
  | succ fuel ih =>
    intro q shader shader' h
    by_cases hq : q ∈ shader.m_file_paths_multiple
    · rw [preprocess_visited fs fuel hq] at h
      rw [preprocess_visited fs (fuel + 1) hq]
      exact h
    · rw [preprocess_unvisited fs fuel hq] at h
      rw [preprocess_unvisited fs (fuel + 1) hq]
      cases hp : process_lines fs (RHI_Shader.PreprocessIncludeDirectives fs fuel) q
          (getlines (fs.read q)) (shader.extended fs [q] [] []) with
      | none => rw [hp] at h; exact absurd h (by simp)
      | some shader1 =>
        rw [hp] at h
        rw [process_lines_mono fs _ _ ih q _ _ _ hp]
        exact h

/-- A file whose lines are: lines `A` without directive, one include directive referring to a
file without directive that is not yet visited, lines `C` without directive. -/
theorem preprocess_one_include (fs : FileSystem) (fuel : Nat) {root inc : String}
    {A C : List String} {shader : RHI_Shader}
    (hroot : root ∉ shader.m_file_paths_multiple)
    (htarget : include_file_path fs root inc ∉ shader.m_file_paths_multiple)
    (hne : include_file_path fs root inc ≠ root)
    (hlines : getlines (fs.read root) = A ++ inc :: C)
    (hA : ∀ line, line ∈ A → is_include_directive line = false)
    (hinc : is_include_directive inc = true)
    (hC : ∀ line, line ∈ C → is_include_directive line = false)
    (hB : ∀ line, line ∈ getlines (fs.read (include_file_path fs root inc)) →
      is_include_directive line = false) :
    shader.PreprocessIncludeDirectives fs (fuel + 2) root =
      some (shader.extended fs [root, include_file_path fs root inc]
        (A.map (fun line => (root, line)) ++
          ((getlines (fs.read (include_file_path fs root inc))).map
              (fun line => (include_file_path fs root inc, line)) ++
            C.map (fun line => (root, line))))
        [include_file_path fs root inc, root]) := by
  have hvis : include_file_path fs root inc ∉
      ((shader.extended fs [root] [] []).extended fs []
        (A.map (fun line => (root, line))) []).m_file_paths_multiple := by
    simp only [extended_visited, List.append_nil, List.mem_append, List.mem_singleton, not_or]
    exact ⟨htarget, hne⟩
  rw [preprocess_unvisited fs (fuel + 1) hroot, hlines, process_lines_append,
    process_lines_plain fs _ root A _ hA]
  simp only [Option.some_bind, process_lines, hinc, if_true]
  rw [preprocess_plain_file fs fuel hvis hB]
  simp only
  rw [process_lines_plain fs _ root C _ hC]
  simp only [Option.map_some', extended_extended, List.append_nil, List.nil_append,
    List.singleton_append, List.append_assoc]

/-! ## Include resolution: the code against the specification side -/

/-- The loop over the lines emits what the specification side says, given that every recursive
call does. -/
theorem process_lines_as_specified (fs : FileSystem)
    (recurse : String → RHI_Shader → Option RHI_Shader)
    (text_of_file : String → List String → Option (String × List String))
    (lines_of_file : String → List String → Option (List (String × String) × List String))
    (hrec : ∀ q shader shader', recurse q shader = some shader' →
      EmitsAsSpecified shader shader' (text_of_file q shader.m_file_paths_multiple)
        (lines_of_file q shader.m_file_paths_multiple))
    (file_path : String) :
    ∀ (lines : List String) (shader shader' : RHI_Shader),
      process_lines fs recurse file_path lines shader = some shader' →
      EmitsAsSpecified shader shader'
        (spec_emitted_text_of_lines fs text_of_file file_path lines
          shader.m_file_paths_multiple)
        (spec_inlined_lines_of_lines fs lines_of_file file_path lines
          shader.m_file_paths_multiple) := by
  intro lines
  induction lines with
  | nil =>
    intro shader shader' hp
    simp only [process_lines, Option.some.injEq] at hp
    subst hp
    exact ⟨"", [], rfl, rfl, by simp, by simp⟩
  | cons line rest ih =>
    intro shader shader' hp
    by_cases hd : is_include_directive line = true
    · simp only [process_lines, hd, if_true] at hp
      cases hr : recurse (include_file_path fs file_path line) shader with
      | none => rw [hr] at hp; exact absurd hp (by simp)
      | some shader1 =>
        rw [hr] at hp
        obtain ⟨t1, l1, ht1, hl1, hs1, he1⟩ := hrec _ _ _ hr
        obtain ⟨t2, l2, ht2, hl2, hs2, he2⟩ := ih _ _ hp
        refine ⟨t1 ++ t2, l1 ++ l2, ?_, ?_, ?_, ?_⟩
        · simp only [spec_emitted_text_of_lines, hd, if_true, ht1, ht2]
        · simp only [spec_inlined_lines_of_lines, hd, if_true, hl1, hl2]
        · rw [hs2, hs1, String.append_assoc]
        · rw [he2, he1, List.append_assoc]
    · have hd' : is_include_directive line = false := by simpa using hd
      simp only [process_lines, hd', Bool.false_eq_true, if_false] at hp
      obtain ⟨t2, l2, ht2, hl2, hs2, he2⟩ := ih _ _ hp
      refine ⟨line ++ "\n" ++ t2, (file_path, line) :: l2, ?_, ?_, ?_, ?_⟩
      · simp only [spec_emitted_text_of_lines, hd', Bool.false_eq_true, if_false]
        simp only at ht2
        rw [ht2]
      · simp only [spec_inlined_lines_of_lines, hd', Bool.false_eq_true, if_false]
        simp only at hl2
        rw [hl2]
      · rw [hs2]; simp only [String.append_assoc]
      · rw [he2]; simp

/-- Every call of `PreprocessIncludeDirectives` that returns has emitted what the specification
side says and visited the same paths. -/
theorem preprocess_as_specified (fs : FileSystem) :
    ∀ (fuel : Nat) (q : String) (shader shader' : RHI_Shader),
      shader.PreprocessIncludeDirectives fs fuel q = some shader' →
      EmitsAsSpecified shader shader'
        (spec_emitted_text fs fuel q shader.m_file_paths_multiple)
        (spec_inlined_lines fs fuel q shader.m_file_paths_multiple) := by
  intro fuel
  induction fuel with
  | zero => intro q shader shader' h; simp [RHI_Shader.PreprocessIncludeDirectives] at h
  | succ fuel ih =>
    intro q shader shader' h
    by_cases hq : q ∈ shader.m_file_paths_multiple
    · rw [preprocess_visited fs fuel hq] at h
      simp only [Option.some.injEq] at h
      subst h
      exact ⟨"", [], by simp [spec_emitted_text, hq], by simp [spec_inlined_lines, hq],
        by simp, by simp⟩
    · rw [preprocess_unvisited fs fuel hq] at h
      cases hp : process_lines fs (RHI_Shader.PreprocessIncludeDirectives fs fuel) q
          (getlines (fs.read q)) (shader.extended fs [q] [] []) with
      | none => rw [hp] at h; exact absurd h (by simp)
      | some shader1 =>
        rw [hp] at h
        simp only [Option.map_some', Option.some.injEq] at h
        subst h
        obtain ⟨t, l, ht, hl, hs, he⟩ := process_lines_as_specified fs _ _ _ ih q _ _ _ hp
        refine ⟨t, l, ?_, ?_, ?_, ?_⟩
        · simp only [spec_emitted_text, hq, if_false, extended_visited, List.append_nil]
          simpa only [extended_visited] using ht
        · simp only [spec_inlined_lines, hq, if_false, extended_visited, List.append_nil]
          simpa only [extended_visited] using hl
        · rw [show (shader1.extended fs [] [] [q]).m_preprocessed_source =
            shader1.m_preprocessed_source by simp [RHI_Shader.extended, join_lines], hs]
          simp [RHI_Shader.extended, join_lines]
        · rw [show (shader1.extended fs [] [] [q]).emitted_lines =
            shader1.emitted_lines by simp [RHI_Shader.extended], he]
          simp [RHI_Shader.extended]


/-- No line of another origin passes the filter for `p`. -/
theorem filter_origin_eq_nil (emitted : List (String × String)) (p : String)
    (h : ∀ x, x ∈ emitted → x.1 ≠ p) :
    emitted.filter (fun e => decide (e.1 = p)) = [] := by
  rw [List.filter_eq_nil_iff]
  intro x hx
  simpa using h x hx

/-- The loop over the lines of a visited file: every file visited on the way is complete, and
the lines emitted for the file itself are its non-directive lines. -/
theorem process_lines_complete (fs : FileSystem)
    (recurse : String → RHI_Shader → Option RHI_Shader)
    (hrec : ∀ q shader shader', recurse q shader = some shader' →
      ∃ v e, shader'.m_file_paths_multiple = shader.m_file_paths_multiple ++ v ∧
        shader'.emitted_lines = shader.emitted_lines ++ e ∧
        (∀ p, p ∈ v → p ∉ shader.m_file_paths_multiple) ∧
        (∀ x, x ∈ e → x.1 ∈ v) ∧ EachFileComplete fs v e)
    (file_path : String) :
    ∀ (lines : List String) (shader shader' : RHI_Shader),
      file_path ∈ shader.m_file_paths_multiple →
      process_lines fs recurse file_path lines shader = some shader' →
      ∃ v e, shader'.m_file_paths_multiple = shader.m_file_paths_multiple ++ v ∧
        shader'.emitted_lines = shader.emitted_lines ++ e ∧
        (∀ p, p ∈ v → p ∉ shader.m_file_paths_multiple) ∧
        (∀ x, x ∈ e → x.1 = file_path ∨ x.1 ∈ v) ∧ EachFileComplete fs v e ∧
        (e.filter (fun x => decide (x.1 = file_path))).map Prod.snd =
          lines.filter (fun line => !is_include_directive line) := by
  intro lines
  induction lines with
  | nil =>
    intro shader shader' _ hp
    simp only [process_lines, Option.some.injEq] at hp
    subst hp
    exact ⟨[], [], by simp, by simp, by simp, by simp, fun p hp => absurd hp (by simp),
      by simp⟩
  | cons line rest ih =>
    intro shader shader' hfp hp
    by_cases hd : is_include_directive line = true
    · simp only [process_lines, hd, if_true] at hp
      cases hr : recurse (include_file_path fs file_path line) shader with
      | none => rw [hr] at hp; exact absurd hp (by simp)
      | some shader1 =>
        rw [hr] at hp
        obtain ⟨v1, e1, hv1, he1, hnew1, horg1, hc1⟩ := hrec _ _ _ hr
        obtain ⟨v2, e2, hv2, he2, hnew2, horg2, hc2, hf2⟩ :=
          ih shader1 shader' (by rw [hv1]; exact List.mem_append_left _ hfp) hp
        have hfp1 : ∀ x, x ∈ e1 → x.1 ≠ file_path := by
          intro x hx heq
          exact hnew1 x.1 (horg1 x hx) (heq ▸ hfp)
        refine ⟨v1 ++ v2, e1 ++ e2, by rw [hv2, hv1, List.append_assoc],
          by rw [he2, he1, List.append_assoc], ?_, ?_, ?_, ?_⟩
        · intro p hp'
          rcases List.mem_append.mp hp' with h | h
          · exact hnew1 p h
          · exact fun hs => hnew2 p h (by rw [hv1]; exact List.mem_append_left _ hs)
        · intro x hx
          rcases List.mem_append.mp hx with h | h
          · exact Or.inr (List.mem_append_left _ (horg1 x h))
          · rcases horg2 x h with h' | h'
            · exact Or.inl h'
            · exact Or.inr (List.mem_append_right _ h')
        · intro p hp'
          rw [List.filter_append, List.map_append]
          rcases List.mem_append.mp hp' with h | h
          · have hnil : e2.filter (fun e => decide (e.1 = p)) = [] := by
              apply filter_origin_eq_nil
              intro x hx heq
              rcases horg2 x hx with h' | h'
              · exact hnew1 p h (by rw [← heq, h']; exact hfp)
              · exact hnew2 x.1 h' (by rw [hv1, heq]; exact List.mem_append_right _ h)
            rw [hnil, List.map_nil, List.append_nil]
            exact hc1 p h
          · have hnil : e1.filter (fun e => decide (e.1 = p)) = [] := by
              apply filter_origin_eq_nil
              intro x hx heq
              exact hnew2 p h (by rw [hv1, ← heq]; exact List.mem_append_right _ (horg1 x hx))
            rw [hnil, List.map_nil, List.nil_append]
            exact hc2 p h
        · rw [List.filter_append, List.map_append, filter_origin_eq_nil e1 file_path hfp1,
            List.map_nil, List.nil_append, hf2]
          simp [hd]
    · have hd' : is_include_directive line = false := by simpa using hd
      simp only [process_lines, hd', Bool.false_eq_true, if_false] at hp
      obtain ⟨v2, e2, hv2, he2, hnew2, horg2, hc2, hf2⟩ :=
        ih
          { shader with
            m_preprocessed_source := shader.m_preprocessed_source ++ (line ++ "\n")
            emitted_lines := shader.emitted_lines ++ [(file_path, line)] }
          shader' hfp hp
      refine ⟨v2, (file_path, line) :: e2, hv2, by rw [he2]; simp, hnew2, ?_, ?_, ?_⟩
      · intro x hx
        rcases List.mem_cons.mp hx with h | h
        · exact Or.inl (by rw [h])
        · exact horg2 x h
      · intro p hp'
        have hne : file_path ≠ p := fun heq => hnew2 p hp' (heq ▸ hfp)
        rw [List.filter_cons_of_neg (by simpa using hne)]
        exact hc2 p hp'
      · rw [List.filter_cons_of_pos (by simp), List.map_cons, hf2]
        simp [hd']

/-- A call of `PreprocessIncludeDirectives`: every file it visits is complete. -/
theorem preprocess_complete (fs : FileSystem) :
    ∀ (fuel : Nat) (q : String) (shader shader' : RHI_Shader),
      shader.PreprocessIncludeDirectives fs fuel q = some shader' →
      ∃ v e, shader'.m_file_paths_multiple = shader.m_file_paths_multiple ++ v ∧
        shader'.emitted_lines = shader.emitted_lines ++ e ∧
        (∀ p, p ∈ v → p ∉ shader.m_file_paths_multiple) ∧
        (∀ x, x ∈ e → x.1 ∈ v) ∧ EachFileComplete fs v e := by
  intro fuel
  induction fuel with
  | zero => intro q shader shader' h; simp [RHI_Shader.PreprocessIncludeDirectives] at h
  | succ fuel ih =>
    intro q shader shader' h
    by_cases hq : q ∈ shader.m_file_paths_multiple
    · rw [preprocess_visited fs fuel hq] at h
      simp only [Option.some.injEq] at h
      subst h
      exact ⟨[], [], by simp, by simp, by simp, by simp, fun p hp => absurd hp (by simp)⟩
    · rw [preprocess_unvisited fs fuel hq] at h
      cases hp : process_lines fs (RHI_Shader.PreprocessIncludeDirectives fs fuel) q
          (getlines (fs.read q)) (shader.extended fs [q] [] []) with
      | none => rw [hp] at h; exact absurd h (by simp)
      | some shader1 =>
        rw [hp] at h
        simp only [Option.map_some', Option.some.injEq] at h
        subst h
        obtain ⟨v, e, hv, he, hnew, horg, hc, hf⟩ := process_lines_complete fs _ ih q _ _ _
          (by simp [RHI_Shader.extended]) hp
        refine ⟨q :: v, e, ?_, ?_, ?_, ?_, ?_⟩
        · simp only [extended_visited, List.append_nil, hv]
          simp
        · rw [show (shader1.extended fs [] [] [q]).emitted_lines =
            shader1.emitted_lines by simp [RHI_Shader.extended], he]
          simp [RHI_Shader.extended]
        · intro p hp'
          rcases List.mem_cons.mp hp' with h | h
          · rw [h]; exact hq
          · exact fun hs => hnew p h (by simp [RHI_Shader.extended, hs])
        · intro x hx
          rcases horg x hx with h | h
          · rw [h]; exact List.mem_cons_self _ _
          · exact List.mem_cons_of_mem _ h
        · intro p hp'
          rcases List.mem_cons.mp hp' with h | h
          · rw [h]; exact hf
          · exact hc p h


/-- The shader object `LoadSource` hands to `PreprocessIncludeDirectives`: every call returns
from it within the bound. -/
theorem load_source_preprocess_returns (fs : FileSystem) (root : String) (shader : RHI_Shader) :
    ∃ s1 : RHI_Shader,
      RHI_Shader.PreprocessIncludeDirectives fs (fs.files.length + 1) root
        { shader with
          m_object_name := fs.GetFileNameWithoutExtensionFromFilePath root
          m_file_path := root
          m_preprocessed_source := ""
          emitted_lines := []
          m_names := []
          m_file_paths := []
          m_sources := []
          m_file_paths_multiple := [] } = some s1 :=
  preprocess_terminates fs (fs.files.length + 1) root _
    (by
      have := List.length_filter_le (fun file : String × String => decide (file.1 ∉ []))
        fs.files
      simp only [unvisited_files]
      omega)

/-- `LoadSource` returns, and its preprocessed source, emitted lines and visited paths are those
of the specification side, run from the root with nothing visited. -/
theorem load_source_as_specified (fs : FileSystem) (hasher : String → Nat)
    (rhi_hash_combine : Nat → Nat → Nat) (root : String) (shader : RHI_Shader) :
    ∃ shader' : RHI_Shader,
      shader.LoadSource fs hasher rhi_hash_combine root = some shader' ∧
      spec_emitted_text fs (fs.files.length + 1) root [] =
        some (shader'.m_preprocessed_source, shader'.m_file_paths_multiple) ∧
      spec_inlined_lines fs (fs.files.length + 1) root [] =
        some (shader'.emitted_lines, shader'.m_file_paths_multiple) ∧
      EachFileComplete fs shader'.m_file_paths_multiple shader'.emitted_lines := by
  obtain ⟨s1, h1⟩ := load_source_preprocess_returns fs root shader
  obtain ⟨t, l, ht, hl, hs, he⟩ := preprocess_as_specified fs _ _ _ _ h1
  obtain ⟨v, e, hv, he', -, -, hc⟩ := preprocess_complete fs _ _ _ _ h1
  refine ⟨_, load_source_of_preprocess fs hasher rhi_hash_combine root shader s1 h1, ?_, ?_, ?_⟩
  · simp only [String.empty_append] at hs
    show _ = some (s1.m_preprocessed_source, s1.m_file_paths_multiple)
    rw [hs]; exact ht
  · simp only [List.nil_append] at he
    show _ = some (s1.emitted_lines, s1.m_file_paths_multiple)
    rw [he]; exact hl
  · show EachFileComplete fs s1.m_file_paths_multiple s1.emitted_lines
    simp only [List.nil_append] at hv he'
    rw [hv, he']; exact hc

/-- The lines of the root around one of its include directives: what `LoadSource` emits is what
the lines before the directive contribute, then what the target of the directive contributes,
then what the lines after it contribute. -/
theorem load_source_at_directive (fs : FileSystem) (hasher : String → Nat)
    (rhi_hash_combine : Nat → Nat → Nat) (root : String) (shader : RHI_Shader)
    (A C : List String) (inc : String)
    (hlines : getlines (fs.read root) = A ++ inc :: C)
    (hinc : is_include_directive inc = true) :
    ∃ (shader' : RHI_Shader) (before included after : List (String × String))
        (v1 v2 : List String),
      shader.LoadSource fs hasher rhi_hash_combine root = some shader' ∧
      spec_inlined_lines_of_lines fs (spec_inlined_lines fs fs.files.length) root A [root] =
        some (before, v1) ∧
      spec_inlined_lines fs fs.files.length (include_file_path fs root inc) v1 =
        some (included, v2) ∧
      spec_inlined_lines_of_lines fs (spec_inlined_lines fs fs.files.length) root C v2 =
        some (after, shader'.m_file_paths_multiple) ∧
      shader'.emitted_lines = before ++ (included ++ after) := by
  obtain ⟨s1, h1⟩ := load_source_preprocess_returns fs root shader
  have hload := load_source_of_preprocess fs hasher rhi_hash_combine root shader s1 h1
  rw [preprocess_unvisited fs _ (List.not_mem_nil _), hlines, process_lines_append] at h1
  cases hA : process_lines fs (RHI_Shader.PreprocessIncludeDirectives fs fs.files.length) root A
      (RHI_Shader.extended fs _ [root] [] []) with
  | none => rw [hA] at h1; simp at h1
  | some sA =>
    rw [hA, Option.some_bind] at h1
    simp only [process_lines, hinc, if_true] at h1
    cases hB : RHI_Shader.PreprocessIncludeDirectives fs fs.files.length
        (include_file_path fs root inc) sA with
    | none => rw [hB] at h1; simp at h1
    | some sB =>
      rw [hB] at h1
      simp only at h1
      cases hC : process_lines fs (RHI_Shader.PreprocessIncludeDirectives fs fs.files.length)
          root C sB with
      | none => rw [hC] at h1; simp at h1
      | some sC =>
        rw [hC] at h1
        simp only [Option.map_some', Option.some.injEq] at h1
        obtain ⟨-, l1, -, hl1, -, he1⟩ := process_lines_as_specified fs _ _ _
          (preprocess_as_specified fs fs.files.length) root _ _ _ hA
        obtain ⟨-, l2, -, hl2, -, he2⟩ := preprocess_as_specified fs _ _ _ _ hB
        obtain ⟨-, l3, -, hl3, -, he3⟩ := process_lines_as_specified fs _ _ _
          (preprocess_as_specified fs fs.files.length) root _ _ _ hC
        refine ⟨_, l1, l2, l3, sA.m_file_paths_multiple, sB.m_file_paths_multiple, hload,
          ?_, hl2, ?_, ?_⟩
        · simpa [RHI_Shader.extended] using hl1
        · show _ = some (l3, s1.m_file_paths_multiple)
          rw [← h1]
          simpa [RHI_Shader.extended] using hl3
        · show s1.emitted_lines = _
          rw [← h1]
          simp only [RHI_Shader.extended, List.append_nil, List.nil_append] at he1 ⊢
          rw [he3, he2, he1]
          simp


/-! ## Include resolution: the properties -/

/-- C17: after `LoadSource (p)` the first entry of each recorded list belongs to the root file:
`m_file_paths[0] = p`, `m_sources[0]` is the raw text of `p`, `m_names[0]` is the file name of
`p`; and every other entry belongs to a file transitively included from `p`: at every later
index the path is that of such a file and the source and name at that index are its own. -/
theorem load_source_root_first (fs : FileSystem) (hasher : String → Nat)
    (rhi_hash_combine : Nat → Nat → Nat) (p : String) (shader : RHI_Shader) :
    ∃ shader',
      shader.LoadSource fs hasher rhi_hash_combine p = some shader' ∧
      shader'.m_file_paths[0]? = some p ∧
      shader'.m_sources[0]? = some (fs.read p) ∧
      shader'.m_names[0]? = some (fs.GetFileNameFromFilePath p) ∧
      ∀ i q, 0 < i → shader'.m_file_paths[i]? = some q →
        Relation.TransGen (includes fs) p q ∧
        shader'.m_sources[i]? = some (fs.read q) ∧
        shader'.m_names[i]? = some (fs.GetFileNameFromFilePath q) := by
  obtain ⟨v, e, r, hla, heq⟩ := load_source_eq fs hasher rhi_hash_combine p shader
  obtain ⟨-, -, h3, h4, -, -⟩ := hla
  refine ⟨_, heq, by simp, by simp, by simp, ?_⟩
  intro i q hi hq
  obtain ⟨j, rfl⟩ : ∃ j, i = j + 1 := ⟨i - 1, by omega⟩
  simp only [List.getElem?_cons_succ] at hq ⊢
  refine ⟨?_, ?_, ?_⟩
  · have hmem : q ∈ r.reverse := List.getElem?_mem hq
    obtain ⟨line, hline, hdir, hreach⟩ := h4 q (h3.subset (List.mem_reverse.mp hmem))
    exact Relation.TransGen.head' ⟨line, hline, hdir, rfl⟩ hreach
  · rw [← List.map_reverse, List.getElem?_map, hq]; rfl
  · rw [← List.map_reverse, List.getElem?_map, hq]; rfl

/-- C18: for every file system and root path, `LoadSource` returns and no line of the
preprocessed source it produces contains the include-directive prefix (`#include`, a space and a
double quote): the directive lines are never emitted. -/
theorem load_source_emits_no_directive (fs : FileSystem) (hasher : String → Nat)
    (rhi_hash_combine : Nat → Nat → Nat) (root : String) (shader : RHI_Shader) :
    ∃ shader',
      shader.LoadSource fs hasher rhi_hash_combine root = some shader' ∧
      ∀ line, line ∈ getlines shader'.m_preprocessed_source →
        is_include_directive line = false ∧
        contains_text line.data "#include \"".data = false := by
  obtain ⟨v, e, r, hla, heq⟩ := load_source_eq fs hasher rhi_hash_combine root shader
  obtain ⟨-, -, -, -, h5, -⟩ := hla
  refine ⟨_, heq, ?_⟩
  have hfree : ∀ line, line ∈ e.map Prod.snd → '\n' ∉ line.data := by
    intro line hline
    obtain ⟨entry, hentry, rfl⟩ := List.mem_map.mp hline
    rcases (h5 entry hentry).2 with ⟨-, hmem⟩ | ⟨-, hmem⟩
    · exact getlines_no_newline _ _ hmem
    · exact getlines_no_newline _ _ hmem
  intro line hline
  simp only at hline
  rw [getlines_join_lines _ hfree] at hline
  obtain ⟨entry, hentry, rfl⟩ := List.mem_map.mp hline
  exact ⟨(h5 entry hentry).1, (h5 entry hentry).1⟩

theorem files_ne_nil_of_lines (fs : FileSystem) (root : String)
    (h : getlines (fs.read root) ≠ []) : ∃ n, fs.files.length = n + 1 := by
  cases hfiles : fs.files with
  | nil =>
    exfalso
    apply h
    rw [read_of_not_file fs (by rw [hfiles]; exact List.not_mem_nil root), getlines_empty]
  | cons f rest => exact ⟨rest.length, rfl⟩

/-- A root whose lines are lines `A` without directive, one include directive of a
directive-free file not yet visited, and lines `C` without directive: the preprocessed source
and the emitted lines. -/
theorem load_source_one_include (fs : FileSystem) (hasher : String → Nat)
    (rhi_hash_combine : Nat → Nat → Nat) (root inc : String) (A C : List String)
    (shader : RHI_Shader)
    (hlines : getlines (fs.read root) = A ++ inc :: C)
    (hA : ∀ line, line ∈ A → is_include_directive line = false)
    (hinc : is_include_directive inc = true)
    (hC : ∀ line, line ∈ C → is_include_directive line = false)
    (hB : ∀ line, line ∈ getlines (fs.read (include_file_path fs root inc)) →
      is_include_directive line = false)
    (hne : include_file_path fs root inc ≠ root) :
    (∀ (fuel : Nat) (q : String) (sh : RHI_Shader), q ∈ sh.m_file_paths_multiple →
      sh.PreprocessIncludeDirectives fs (fuel + 1) q = some sh) ∧
    ∃ shader',
      shader.LoadSource fs hasher rhi_hash_combine root = some shader' ∧
      shader'.m_preprocessed_source =
        join_lines A ++ (join_lines (getlines (fs.read (include_file_path fs root inc))) ++
          join_lines C) ∧
      shader'.emitted_lines =
        A.map (fun line => (root, line)) ++
          ((getlines (fs.read (include_file_path fs root inc))).map
              (fun line => (include_file_path fs root inc, line)) ++
            C.map (fun line => (root, line))) := by
  refine ⟨fun fuel q sh hq => preprocess_visited fs fuel hq, ?_⟩
  obtain ⟨n, hn⟩ := files_ne_nil_of_lines fs root (by rw [hlines]; simp)
  simp only [RHI_Shader.LoadSource, hn]
  rw [preprocess_one_include fs n (List.not_mem_nil _) (List.not_mem_nil _) hne hlines hA hinc
    hC hB]
  refine ⟨_, rfl, ?_, ?_⟩
  · simp [RHI_Shader.extended, join_lines_append, Function.comp_def]
  · simp [RHI_Shader.extended]

/-- C19: the text `PreprocessIncludeDirectives` emits for a file is what the specification
says (`spec_emitted_text`): line by line in file order, the line followed by a newline for
every line that is not an include directive, and for every include directive the text emitted by
processing its target, nothing if the target was already visited in this pass.  This holds of
every call that returns, a call on a visited path returns at once having changed nothing, and
`LoadSource` returns with that text for the root as preprocessed source.  So for a root with
lines `A`, then an include of a not-yet-visited directive-free file with lines `B`, then lines
`C`, the preprocessed source is `A` followed by `B` followed by `C`. -/
theorem preprocess_emits_text_in_file_order (fs : FileSystem) (hasher : String → Nat)
    (rhi_hash_combine : Nat → Nat → Nat) (root : String) (shader : RHI_Shader) :
    (∀ (fuel : Nat) (q : String) (sh sh' : RHI_Shader),
      sh.PreprocessIncludeDirectives fs fuel q = some sh' →
      ∃ text, spec_emitted_text fs fuel q sh.m_file_paths_multiple =
          some (text, sh'.m_file_paths_multiple) ∧
        sh'.m_preprocessed_source = sh.m_preprocessed_source ++ text) ∧
    (∀ (fuel : Nat) (q : String) (sh : RHI_Shader), q ∈ sh.m_file_paths_multiple →
      sh.PreprocessIncludeDirectives fs (fuel + 1) q = some sh) ∧
    (∃ shader' : RHI_Shader,
      shader.LoadSource fs hasher rhi_hash_combine root = some shader' ∧
      spec_emitted_text fs (fs.files.length + 1) root [] =
        some (shader'.m_preprocessed_source, shader'.m_file_paths_multiple)) ∧
    (∀ (inc : String) (A C : List String),
      getlines (fs.read root) = A ++ inc :: C →
      (∀ line, line ∈ A → is_include_directive line = false) →
      is_include_directive inc = true →
      (∀ line, line ∈ C → is_include_directive line = false) →
      (∀ line, line ∈ getlines (fs.read (include_file_path fs root inc)) →
        is_include_directive line = false) →
      include_file_path fs root inc ≠ root →
      ∃ shader' : RHI_Shader,
        shader.LoadSource fs hasher rhi_hash_combine root = some shader' ∧
        shader'.m_preprocessed_source =
          join_lines A ++ (join_lines (getlines (fs.read (include_file_path fs root inc))) ++
            join_lines C)) := by
  refine ⟨?_, fun fuel q sh hq => preprocess_visited fs fuel hq, ?_, ?_⟩
  · intro fuel q sh sh' h
    obtain ⟨t, -, ht, -, hs, -⟩ := preprocess_as_specified fs fuel q sh sh' h
    exact ⟨t, ht, hs⟩
  · obtain ⟨shader', hload, htext, -, -⟩ :=
      load_source_as_specified fs hasher rhi_hash_combine root shader
    exact ⟨shader', hload, htext⟩
  · intro inc A C hlines hA hinc hC hB hne
    obtain ⟨shader', hload, hsource, -⟩ :=
      (load_source_one_include fs hasher rhi_hash_combine root inc A C shader hlines hA
        hinc hC hB hne).2
    exact ⟨shader', hload, hsource⟩

/-- Witness for C19: `a` is `x`, an include of `b`, `y`; `b` is `z`. -/
theorem preprocess_emits_text_in_file_order_witness :
    getlines ((example_fs [("a", "x\n#include \"b\"\ny\n"), ("b", "z\n")]).read "a") =
      ["x"] ++ "#include \"b\"" :: ["y"] ∧
    ∃ shader' : RHI_Shader,
      example_shader.LoadSource (example_fs [("a", "x\n#include \"b\"\ny\n"), ("b", "z\n")])
        (fun _ => 0) (fun seed _ => seed) "a" = some shader' ∧
      shader'.m_preprocessed_source =
        join_lines ["x"] ++ (join_lines (getlines
          ((example_fs [("a", "x\n#include \"b\"\ny\n"), ("b", "z\n")]).read
            (include_file_path (example_fs [("a", "x\n#include \"b\"\ny\n"), ("b", "z\n")])
              "a" "#include \"b\""))) ++ join_lines ["y"]) :=
  ⟨by decide,
    (preprocess_emits_text_in_file_order
      (example_fs [("a", "x\n#include \"b\"\ny\n"), ("b", "z\n")]) (fun _ => 0)
      (fun seed _ => seed) "a" example_shader).2.2.2 "#include \"b\"" ["x"] ["y"]
      (by decide) (by decide) (by decide) (by decide) (by decide) (by decide)⟩

/-- C20, as stated, fails: the root `a` is an include of `b` followed by `root_line`, and `b`
is `b_line`; in the preprocessed source the line of the included file comes first and the
non-directive line of the root after it. -/
theorem load_source_root_line_after_include_counterexample :
    (example_shader.LoadSource
      (example_fs [("a", "#include \"b\"\nroot_line\n"), ("b", "b_line\n")])
      (fun _ => 0) (fun seed _ => seed) "a").map
        (fun s => (s.m_preprocessed_source, s.emitted_lines)) =
      some ("b_line\nroot_line\n", [("b", "b_line"), ("a", "root_line")]) ∧
    ¬ (∀ (i j : Nat) (e1 e2 : String × String),
        [("b", "b_line"), ("a", "root_line")][i]? = some e1 →
        [("b", "b_line"), ("a", "root_line")][j]? = some e2 →
        e1.1 = "a" → e2.1 ≠ "a" → i < j) := by
  refine ⟨by decide, ?_⟩
  intro h
  have := h 1 0 ("a", "root_line") ("b", "b_line") rfl rfl rfl (by decide)
  omega

/-- The lines of the root that come before its first include directive are emitted first; every
emitted line is a non-directive line of a recorded file; the recorded lists start with the
root. -/
theorem load_source_prefix_first (fs : FileSystem) (hasher : String → Nat)
    (rhi_hash_combine : Nat → Nat → Nat) (root : String) (A rest : List String)
    (shader : RHI_Shader) (hlines : getlines (fs.read root) = A ++ rest)
    (hA : ∀ line, line ∈ A → is_include_directive line = false) :
    ∃ shader' later,
      shader.LoadSource fs hasher rhi_hash_combine root = some shader' ∧
      shader'.m_preprocessed_source = join_lines (shader'.emitted_lines.map Prod.snd) ∧
      (∀ e, e ∈ shader'.emitted_lines → e.1 ∈ shader'.m_file_paths ∧
        e.2 ∈ getlines (fs.read e.1) ∧ is_include_directive e.2 = false) ∧
      shader'.emitted_lines = A.map (fun line => (root, line)) ++ later ∧
      shader'.m_file_paths[0]? = some root ∧
      shader'.m_sources[0]? = some (fs.read root) := by
  obtain ⟨v, e, r, hla, heq⟩ := load_source_eq fs hasher rhi_hash_combine root shader
  obtain ⟨-, -, h3, -, h5, -⟩ := hla
  -- the same result, computed through the lines `A` first
  have hpre : ∃ later, e = A.map (fun line => (root, line)) ++ later := by
    have hcomp := heq
    simp only [RHI_Shader.LoadSource] at hcomp
    rw [preprocess_unvisited fs _ (List.not_mem_nil _), hlines, process_lines_append,
      process_lines_plain fs _ root A _ hA, Option.some_bind] at hcomp
    cases hp : process_lines fs (RHI_Shader.PreprocessIncludeDirectives fs fs.files.length)
        root rest
        ((RHI_Shader.extended fs _ [root] [] []).extended fs []
          (A.map (fun line => (root, line))) []) with
    | none => rw [hp] at hcomp; simp at hcomp
    | some shader2 =>
      obtain ⟨v2, e2, r2, rfl, -⟩ := process_lines_added fs _
        (preprocess_added fs fs.files.length) root rest _ _
        (by simp [extended_visited]) hp
      rw [hp] at hcomp
      simp only [Option.map_some', Option.some.injEq] at hcomp
      have := congrArg RHI_Shader.emitted_lines hcomp
      simp only [RHI_Shader.extended, List.nil_append, List.append_nil] at this
      exact ⟨e2, this.symm⟩
  obtain ⟨later, hlater⟩ := hpre
  refine ⟨_, later, heq, rfl, ?_, hlater, by simp, by simp⟩
  intro entry hentry
  obtain ⟨hnd, hsrc⟩ := h5 entry hentry
  rcases hsrc with ⟨hq, hmem⟩ | ⟨hv, hmem⟩
  · exact ⟨by rw [hq]; exact List.mem_cons_self _ _, by rw [hq]; exact hmem, hnd⟩
  · exact ⟨List.mem_cons_of_mem _ (List.mem_reverse.mpr (h3.symm.subset hv)), hmem, hnd⟩

/-- C20, amended: the preprocessed source produced by `LoadSource` is the concatenation of the
emitted lines, each followed by a newline, and the emitted lines are the non-directive lines of
the visited files in the order of inclusion (`spec_inlined_lines`), not with the root's unit
first: every emitted line is a non-directive line of the recorded file it comes from, every
visited file contributes exactly its non-directive lines in file order, the non-directive lines
of the root before its first include directive come first, and at the place of an include
directive of the root stand the lines its target contributes, after what the lines before the
directive contribute and before what the lines after it contribute.  The root's unit is ordered
first in the recorded lists (`m_file_paths`, `m_sources`), not in the preprocessed source. -/
theorem load_source_lines_in_inclusion_order (fs : FileSystem) (hasher : String → Nat)
    (rhi_hash_combine : Nat → Nat → Nat) (root : String) (shader : RHI_Shader) :
    ∃ shader' : RHI_Shader,
      shader.LoadSource fs hasher rhi_hash_combine root = some shader' ∧
      shader'.m_preprocessed_source = join_lines (shader'.emitted_lines.map Prod.snd) ∧
      spec_inlined_lines fs (fs.files.length + 1) root [] =
        some (shader'.emitted_lines, shader'.m_file_paths_multiple) ∧
      (∀ e, e ∈ shader'.emitted_lines → e.1 ∈ shader'.m_file_paths ∧
        e.2 ∈ getlines (fs.read e.1) ∧ is_include_directive e.2 = false) ∧
      (∀ p, p ∈ shader'.m_file_paths_multiple →
        (shader'.emitted_lines.filter (fun e => decide (e.1 = p))).map Prod.snd =
          (getlines (fs.read p)).filter (fun line => !is_include_directive line)) ∧
      (∀ (A rest : List String), getlines (fs.read root) = A ++ rest →
        (∀ line, line ∈ A → is_include_directive line = false) →
        ∃ later, shader'.emitted_lines = A.map (fun line => (root, line)) ++ later) ∧
      (∀ (A C : List String) (inc : String), getlines (fs.read root) = A ++ inc :: C →
        is_include_directive inc = true →
        ∃ (before included after : List (String × String)) (v1 v2 : List String),
          spec_inlined_lines_of_lines fs (spec_inlined_lines fs fs.files.length) root A
            [root] = some (before, v1) ∧
          spec_inlined_lines fs fs.files.length (include_file_path fs root inc) v1 =
            some (included, v2) ∧
          spec_inlined_lines_of_lines fs (spec_inlined_lines fs fs.files.length) root C v2 =
            some (after, shader'.m_file_paths_multiple) ∧
          shader'.emitted_lines = before ++ (included ++ after)) ∧
      shader'.m_file_paths[0]? = some root ∧
      shader'.m_sources[0]? = some (fs.read root) := by
  obtain ⟨shader', hload, -, hlines, hcomplete⟩ :=
    load_source_as_specified fs hasher rhi_hash_combine root shader
  obtain ⟨s0, later0, hload0, hpre, hmem, -, hp0, hs0⟩ :=
    load_source_prefix_first fs hasher rhi_hash_combine root [] (getlines (fs.read root))
      shader rfl (fun line hline => absurd hline (List.not_mem_nil line))
  have h0 : s0 = shader' := Option.some.inj (hload0.symm.trans hload)
  subst h0
  refine ⟨s0, hload, hpre, hlines, hmem, hcomplete, ?_, ?_, hp0, hs0⟩
  · intro A rest hl hA
    obtain ⟨s1, later, hload1, -, -, hprefix, -, -⟩ :=
      load_source_prefix_first fs hasher rhi_hash_combine root A rest shader hl hA
    have h1 : s1 = s0 := Option.some.inj (hload1.symm.trans hload)
    subst h1
    exact ⟨later, hprefix⟩
  · intro A C inc hl hinc
    obtain ⟨s1, before, included, after, v1, v2, hload1, h1, h2, h3, h4⟩ :=
      load_source_at_directive fs hasher rhi_hash_combine root shader A C inc hl hinc
    have h5 : s1 = s0 := Option.some.inj (hload1.symm.trans hload)
    subst h5
    exact ⟨before, included, after, v1, v2, h1, h2, h3, h4⟩

/-- Witness for C20 (amended): `a` is `x`, an include of `b`, `y`; `b` is `z`. -/
theorem load_source_lines_in_inclusion_order_witness :
    getlines ((example_fs [("a", "x\n#include \"b\"\ny\n"), ("b", "z\n")]).read "a") =
      ["x"] ++ "#include \"b\"" :: ["y"] ∧
    is_include_directive "#include \"b\"" = true ∧
    ∃ (shader' : RHI_Shader) (before included after : List (String × String)),
      example_shader.LoadSource (example_fs [("a", "x\n#include \"b\"\ny\n"), ("b", "z\n")])
        (fun _ => 0) (fun seed _ => seed) "a" = some shader' ∧
      shader'.emitted_lines = before ++ (included ++ after) ∧
      shader'.emitted_lines = [("a", "x"), ("b", "z"), ("a", "y")] := by
  obtain ⟨s, hload, -, -, -, -, -, hat, -, -⟩ :=
    load_source_lines_in_inclusion_order
      (example_fs [("a", "x\n#include \"b\"\ny\n"), ("b", "z\n")]) (fun _ => 0)
      (fun seed _ => seed) "a" example_shader
  obtain ⟨before, included, after, -, -, -, -, -, hsplit⟩ :=
    hat ["x"] ["y"] "#include \"b\"" (by decide) (by decide)
  have hval : (example_shader.LoadSource
      (example_fs [("a", "x\n#include \"b\"\ny\n"), ("b", "z\n")]) (fun _ => 0)
      (fun seed _ => seed) "a").map (fun s => s.emitted_lines) =
      some [("a", "x"), ("b", "z"), ("a", "y")] := by decide
  rw [hload] at hval
  simp only [Option.map_some', Option.some.injEq] at hval
  exact ⟨by decide, by decide, s, before, included, after, hload, hsplit, hval⟩

/-! ## Include resolution: the recorded lists -/

/-- C29: after `LoadSource` returns, the name list, the file-path list and the source list have
the same length, which is the number of paths visited in the pass (the visited-path list holds
each visited path once); the file-path list has no duplicate and is a permutation of the
visited-path list; and for every index the three entries describe the same file: the name is the
file name of the path and the source is the text read from the path. -/
theorem load_source_lists_aligned (fs : FileSystem) (hasher : String → Nat)
    (rhi_hash_combine : Nat → Nat → Nat) (root : String) (shader : RHI_Shader) :
    ∃ shader' : RHI_Shader,
      shader.LoadSource fs hasher rhi_hash_combine root = some shader' ∧
      shader'.m_file_paths_multiple.Nodup ∧
      shader'.m_names.length = shader'.m_file_paths_multiple.length ∧
      shader'.m_file_paths.length = shader'.m_file_paths_multiple.length ∧
      shader'.m_sources.length = shader'.m_file_paths_multiple.length ∧
      shader'.m_file_paths.Nodup ∧
      shader'.m_file_paths.Perm shader'.m_file_paths_multiple ∧
      ∀ (i : Nat) (path : String), shader'.m_file_paths[i]? = some path →
        shader'.m_names[i]? = some (fs.GetFileNameFromFilePath path) ∧
        shader'.m_sources[i]? = some (fs.read path) := by
  obtain ⟨v, e, r, hla, heq⟩ := load_source_eq fs hasher rhi_hash_combine root shader
  obtain ⟨h1, h2, h3, -, -, -⟩ := hla
  have hroot : root ∉ v := fun hv => h1 root hv (List.mem_singleton_self root)
  have hlen : r.length = v.length := h3.length_eq
  refine ⟨_, heq, List.nodup_cons.mpr ⟨hroot, h2⟩, by simp [hlen], by simp [hlen],
    by simp [hlen], ?_, ?_, ?_⟩
  · exact List.nodup_cons.mpr
      ⟨fun hm => hroot (h3.subset (List.mem_reverse.mp hm)),
        List.nodup_reverse.mpr (h3.nodup_iff.mpr h2)⟩
  · exact List.Perm.cons root ((List.reverse_perm r).trans h3)
  · intro i path hi
    cases i with
    | zero =>
      simp only [List.getElem?_cons_zero, Option.some.injEq] at hi
      subst hi
      exact ⟨by simp, by simp⟩
    | succ j =>
      simp only [List.getElem?_cons_succ] at hi ⊢
      constructor
      · rw [← List.map_reverse, List.getElem?_map, hi]; rfl
      · rw [← List.map_reverse, List.getElem?_map, hi]; rfl

/-! ## Shader fingerprint -/

/-- The loop over the lines neither reads nor writes the other members: run on a shader object
whose other members are those of `donor`, it gives the same result with those members. -/
theorem process_lines_other_members (fs : FileSystem) (donor : RHI_Shader)
    (recurse : String → RHI_Shader → Option RHI_Shader)
    (hrec : ∀ q shader, recurse q (shader.with_other_members donor) =
      (recurse q shader).map (fun s => s.with_other_members donor))
    (file_path : String) :
    ∀ (lines : List String) (shader : RHI_Shader),
      process_lines fs recurse file_path lines (shader.with_other_members donor) =
        (process_lines fs recurse file_path lines shader).map
          (fun s => s.with_other_members donor) := by
  intro lines
  induction lines with
  | nil => intro shader; simp [process_lines]
  | cons line rest ih =>
    intro shader
    by_cases hd : is_include_directive line = true
    · simp only [process_lines, hd, if_true, hrec]
      cases recurse (include_file_path fs file_path line) shader with
      | none => rfl
      | some shader1 =>
        simp only [Option.map_some']
        exact ih shader1
    · have hd' : is_include_directive line = false := by simpa using hd
      simp only [process_lines, hd', Bool.false_eq_true, if_false]
      exact ih
        { shader with
          m_preprocessed_source := shader.m_preprocessed_source ++ (line ++ "\n")
          emitted_lines := shader.emitted_lines ++ [(file_path, line)] }

/-- `PreprocessIncludeDirectives` neither reads nor writes the other members. -/
theorem preprocess_other_members (fs : FileSystem) (donor : RHI_Shader) :
    ∀ (fuel : Nat) (q : String) (shader : RHI_Shader),
      (shader.with_other_members donor).PreprocessIncludeDirectives fs fuel q =
        (shader.PreprocessIncludeDirectives fs fuel q).map
          (fun s => s.with_other_members donor) := by
  intro fuel
  induction fuel with
  | zero => intro q shader; rfl
  | succ fuel ih =>
    intro q shader
    by_cases hq : q ∈ shader.m_file_paths_multiple
    · have hq' : q ∈ (shader.with_other_members donor).m_file_paths_multiple := hq
      rw [preprocess_visited fs fuel hq, preprocess_visited fs fuel hq']
      rfl
    · have hq' : q ∉ (shader.with_other_members donor).m_file_paths_multiple := hq
      rw [preprocess_unvisited fs fuel hq, preprocess_unvisited fs fuel hq']
      have h := process_lines_other_members fs donor
        (RHI_Shader.PreprocessIncludeDirectives fs fuel) ih q (getlines (fs.read q))
        (shader.extended fs [q] [] [])
      have hx : (shader.with_other_members donor).extended fs [q] [] [] =
          (shader.extended fs [q] [] []).with_other_members donor := rfl
      rw [hx, h]
      cases process_lines fs (RHI_Shader.PreprocessIncludeDirectives fs fuel) q
          (getlines (fs.read q)) (shader.extended fs [q] [] []) with
      | none => rfl
      | some shader1 => rfl

/-- `LoadSource` on two shader objects: both calls return, with the same preprocessed source;
each keeps its own definitions and stores the hash computed from that source and them. -/
theorem load_source_pair (fs : FileSystem) (hasher : String → Nat)
    (rhi_hash_combine : Nat → Nat → Nat) (root : String) (shader1 shader2 : RHI_Shader) :
    ∃ result1 result2 : RHI_Shader,
      shader1.LoadSource fs hasher rhi_hash_combine root = some result1 ∧
      shader2.LoadSource fs hasher rhi_hash_combine root = some result2 ∧
      result1.m_preprocessed_source = result2.m_preprocessed_source ∧
      result1.m_defines = shader1.m_defines ∧
      result2.m_defines = shader2.m_defines ∧
      result1.m_hash =
        update_hash hasher rhi_hash_combine result1.m_preprocessed_source shader1.m_defines ∧
      result2.m_hash =
        update_hash hasher rhi_hash_combine result2.m_preprocessed_source shader2.m_defines := by
  obtain ⟨s1, h1⟩ := preprocess_terminates fs (fs.files.length + 1) root
    { shader1 with
      m_object_name := fs.GetFileNameWithoutExtensionFromFilePath root
      m_file_path := root
      m_preprocessed_source := ""
      emitted_lines := []
      m_names := []
      m_file_paths := []
      m_sources := []
      m_file_paths_multiple := [] }
    (by
      have := List.length_filter_le (fun file : String × String => decide (file.1 ∉ []))
        fs.files
      simp only [unvisited_files]
      omega)
  have h2 := preprocess_other_members fs
    { shader2 with
      m_object_name := fs.GetFileNameWithoutExtensionFromFilePath root
      m_file_path := root } (fs.files.length + 1) root
    { shader1 with
      m_object_name := fs.GetFileNameWithoutExtensionFromFilePath root
      m_file_path := root
      m_preprocessed_source := ""
      emitted_lines := []
      m_names := []
      m_file_paths := []
      m_sources := []
      m_file_paths_multiple := [] }
  rw [h1] at h2
  have hd1 : s1.m_defines = shader1.m_defines := by
    obtain ⟨v, e, r, hs, -⟩ := preprocess_added fs _ _ _ _ h1
    rw [hs]
    rfl
  exact ⟨_, _, load_source_of_preprocess fs hasher rhi_hash_combine root shader1 s1 h1,
    load_source_of_preprocess fs hasher rhi_hash_combine root shader2 _ h2, rfl, hd1, rfl,
    by simp only [hd1], rfl⟩

/-- The hash of `LoadSource` is the same for two orders of the definitions when the combiner
gives the same value for two values combined in either order. -/
theorem update_hash_perm (hasher : String → Nat) (rhi_hash_combine : Nat → Nat → Nat)
    (hcomm : ∀ seed a b, rhi_hash_combine (rhi_hash_combine seed a % 2 ^ 64) b % 2 ^ 64 =
      rhi_hash_combine (rhi_hash_combine seed b % 2 ^ 64) a % 2 ^ 64)
    (preprocessed_source : String) {defines1 defines2 : List (String × String)}
    (hperm : defines1.Perm defines2) :
    update_hash hasher rhi_hash_combine preprocessed_source defines1 =
      update_hash hasher rhi_hash_combine preprocessed_source defines2 := by
  unfold update_hash
  apply List.Perm.foldl_eq' hperm
  intro x _ y _ z
  rw [hcomm (rhi_hash_combine z (hasher x.1 % 2 ^ 64) % 2 ^ 64) (hasher x.2 % 2 ^ 64)
      (hasher y.1 % 2 ^ 64),
    hcomm z (hasher x.1 % 2 ^ 64) (hasher y.1 % 2 ^ 64),
    hcomm (rhi_hash_combine (rhi_hash_combine z (hasher y.1 % 2 ^ 64) % 2 ^ 64)
      (hasher x.1 % 2 ^ 64) % 2 ^ 64) (hasher x.2 % 2 ^ 64) (hasher y.2 % 2 ^ 64),
    hcomm (rhi_hash_combine z (hasher y.1 % 2 ^ 64) % 2 ^ 64) (hasher x.1 % 2 ^ 64)
      (hasher y.2 % 2 ^ 64)]

/-- C21, as stated, fails: with the same one-line source file and the two definitions `A = 1`
and `BB = 22` iterated in the two possible orders, `LoadSource` produces the same preprocessed
source and two different hashes (the hasher being the length of the text and the combiner the
shift-and-xor `example_hash_combine`). -/
theorem load_source_hash_order_counterexample :
    ([("A", "1"), ("BB", "22")] : List (String × String)).Perm [("BB", "22"), ("A", "1")] ∧
    (({ example_shader with m_defines := [("A", "1"), ("BB", "22")] } : RHI_Shader).LoadSource
      (example_fs [("a.hlsl", "x\n")]) String.length example_hash_combine "a.hlsl").map
        (fun s => s.m_preprocessed_source) =
      (({ example_shader with m_defines := [("BB", "22"), ("A", "1")] } : RHI_Shader).LoadSource
        (example_fs [("a.hlsl", "x\n")]) String.length example_hash_combine "a.hlsl").map
          (fun s => s.m_preprocessed_source) ∧
    (({ example_shader with m_defines := [("A", "1"), ("BB", "22")] } : RHI_Shader).LoadSource
      (example_fs [("a.hlsl", "x\n")]) String.length example_hash_combine "a.hlsl").map
        (fun s => s.m_hash) ≠
      (({ example_shader with m_defines := [("BB", "22"), ("A", "1")] } : RHI_Shader).LoadSource
        (example_fs [("a.hlsl", "x\n")]) String.length example_hash_combine "a.hlsl").map
          (fun s => s.m_hash) :=
  ⟨List.Perm.swap _ _ [], by decide, by decide⟩

/-- C21, amended: for the same source files and two definition collections that contain the
same (name, value) pairs iterated in different orders, the hashes computed by `LoadSource` are
equal provided the combiner gives the same value for two values combined in either order
(`combine (combine seed a) b = combine (combine seed b) a` in 64-bit arithmetic). -/
theorem load_source_hash_of_reordered_defines (fs : FileSystem) (hasher : String → Nat)
    (rhi_hash_combine : Nat → Nat → Nat) (root : String) (shader1 shader2 : RHI_Shader)
    (hperm : shader1.m_defines.Perm shader2.m_defines)
    (hcomm : ∀ seed a b, rhi_hash_combine (rhi_hash_combine seed a % 2 ^ 64) b % 2 ^ 64 =
      rhi_hash_combine (rhi_hash_combine seed b % 2 ^ 64) a % 2 ^ 64) :
    ∃ result1 result2 : RHI_Shader,
      shader1.LoadSource fs hasher rhi_hash_combine root = some result1 ∧
      shader2.LoadSource fs hasher rhi_hash_combine root = some result2 ∧
      result1.m_preprocessed_source = result2.m_preprocessed_source ∧
      result1.m_hash = result2.m_hash := by
  obtain ⟨result1, result2, h1, h2, hsource, -, -, hhash1, hhash2⟩ :=
    load_source_pair fs hasher rhi_hash_combine root shader1 shader2
  refine ⟨result1, result2, h1, h2, hsource, ?_⟩
  rw [hhash1, hhash2, hsource]
  exact update_hash_perm hasher rhi_hash_combine hcomm _ hperm

/-- Witness for C21 (amended): the two orders of two definitions, with 64-bit addition as the
combiner. -/
theorem load_source_hash_of_reordered_defines_witness :
    ∃ result1 result2 : RHI_Shader,
      ({ example_shader with m_defines := [("A", "1"), ("BB", "22")] } : RHI_Shader).LoadSource
        (example_fs [("a.hlsl", "x\n")]) String.length (fun seed value => seed + value)
        "a.hlsl" = some result1 ∧
      ({ example_shader with m_defines := [("BB", "22"), ("A", "1")] } : RHI_Shader).LoadSource
        (example_fs [("a.hlsl", "x\n")]) String.length (fun seed value => seed + value)
        "a.hlsl" = some result2 ∧
      result1.m_preprocessed_source = result2.m_preprocessed_source ∧
      result1.m_hash = result2.m_hash :=
  load_source_hash_of_reordered_defines (example_fs [("a.hlsl", "x\n")]) String.length
    (fun seed value => seed + value) "a.hlsl"
    { example_shader with m_defines := [("A", "1"), ("BB", "22")] }
    { example_shader with m_defines := [("BB", "22"), ("A", "1")] }
    (List.Perm.swap _ _ [])
    (by
      intro seed a b
      show ((seed + a) % 2 ^ 64 + b) % 2 ^ 64 = ((seed + b) % 2 ^ 64 + a) % 2 ^ 64
      omega)

/-- C22: the hash stored by `LoadSource` is `update_hash` of the preprocessed source text and
the definitions as iterated, whatever the shader object held before (previous hash, previous
sources, any other member): two calls on the same files by two shader objects with the same
definitions store the same hash, and so does a second call on the same object. -/
theorem load_source_hash_determined (fs : FileSystem) (hasher : String → Nat)
    (rhi_hash_combine : Nat → Nat → Nat) (root : String) (shader1 shader2 : RHI_Shader)
    (hdefines : shader1.m_defines = shader2.m_defines) :
    ∃ result1 result2 again : RHI_Shader,
      shader1.LoadSource fs hasher rhi_hash_combine root = some result1 ∧
      shader2.LoadSource fs hasher rhi_hash_combine root = some result2 ∧
      result1.LoadSource fs hasher rhi_hash_combine root = some again ∧
      result1.m_preprocessed_source = result2.m_preprocessed_source ∧
      result1.m_hash =
        update_hash hasher rhi_hash_combine result1.m_preprocessed_source shader1.m_defines ∧
      result2.m_hash =
        update_hash hasher rhi_hash_combine result2.m_preprocessed_source shader2.m_defines ∧
      result1.m_hash = result2.m_hash ∧
      again.m_hash = result1.m_hash := by
  obtain ⟨result1, result2, h1, h2, hsource, hd1, -, hhash1, hhash2⟩ :=
    load_source_pair fs hasher rhi_hash_combine root shader1 shader2
  obtain ⟨again, result1', ha, h1', hsource', -, -, hhasha, -⟩ :=
    load_source_pair fs hasher rhi_hash_combine root result1 shader1
  have hsame : result1' = result1 := Option.some.inj (h1'.symm.trans h1)
  subst hsame
  refine ⟨result1', result2, again, h1, h2, ha, hsource, hhash1, hhash2, ?_, ?_⟩
  · rw [hhash1, hhash2, hsource, hdefines]
  · rw [hhasha, hhash1, hsource', hd1]

/-- Witness for C22: a fresh shader object and one that holds a hash and sources from before. -/
theorem load_source_hash_determined_witness :
    ({ example_shader with m_hash := 7, m_sources := ["old"], m_preprocessed_source := "old" } :
      RHI_Shader).m_defines = example_shader.m_defines ∧
    ∃ result1 result2 : RHI_Shader,
      ({ example_shader with m_hash := 7, m_sources := ["old"], m_preprocessed_source := "old" } :
        RHI_Shader).LoadSource (example_fs [("a.hlsl", "x\n")]) String.length
          example_hash_combine "a.hlsl" = some result1 ∧
      example_shader.LoadSource (example_fs [("a.hlsl", "x\n")]) String.length
        example_hash_combine "a.hlsl" = some result2 ∧
      result1.m_hash = result2.m_hash := by
  obtain ⟨result1, result2, -, h1, h2, -, -, -, -, hhash, -⟩ :=
    load_source_hash_determined (example_fs [("a.hlsl", "x\n")]) String.length
      example_hash_combine "a.hlsl"
      { example_shader with m_hash := 7, m_sources := ["old"], m_preprocessed_source := "old" }
      example_shader rfl
  exact ⟨rfl, result1, result2, h1, h2, hhash⟩

/-! ## Shader compilation: the two modes, the state writes, the summary message -/

/-- `LoadSource` always returns. -/
theorem load_source_ne_none (fs : FileSystem) (hasher : String → Nat)
    (rhi_hash_combine : Nat → Nat → Nat) (root : String) (shader : RHI_Shader) :
    shader.LoadSource fs hasher rhi_hash_combine root ≠ none := by
  obtain ⟨v, e, r, -, heq⟩ := load_source_eq fs hasher rhi_hash_combine root shader
  rw [heq]
  exact Option.some_ne_none _

/-- What `Compile` does when the file exists: the type members are set, `LoadSource` returns,
Idle is written, and `CompileShader` is called on the members, at once (synchronous mode) or in
a submitted task (asynchronous mode). -/
theorem compile_of_existing_file (env : ShaderEnvironment) (type : RHI_Shader_Type)
    (file_path : String) (vertex_type : Nat) (w : ShaderWorld)
    (hfile : env.fs.IsFile file_path = true) :
    ∃ shader : RHI_Shader,
      RHI_Shader.Compile env type file_path false vertex_type w =
        some (({ w with
            shader := { shader with m_compilation_state := RHI_ShaderCompilationState.Idle }
            state_writes := w.state_writes ++ [RHI_ShaderCompilationState.Idle] } :
              ShaderWorld).compile_shader_on_members env) ∧
      RHI_Shader.Compile env type file_path true vertex_type w =
        some { w with
            shader := { shader with m_compilation_state := RHI_ShaderCompilationState.Idle }
            state_writes := w.state_writes ++ [RHI_ShaderCompilationState.Idle]
            tasks := w.tasks ++ [Task.compile_shader] } := by
  unfold RHI_Shader.Compile
  simp only [hfile, not_true_eq_false, if_false]
  split
  · next heq => exact absurd heq (load_source_ne_none _ _ _ _ _)
  · next shader heq =>
    exact ⟨shader, by simp, by simp⟩

/-- The call of `CompileShader` on the members writes Compiling and then the final state. -/
theorem compile_shader_on_members_writes (env : ShaderEnvironment) (w : ShaderWorld) :
    ∃ final : RHI_ShaderCompilationState,
      (final = .Succeeded ∨ final = .Failed) ∧
      (w.compile_shader_on_members env).state_writes =
        w.state_writes ++ [RHI_ShaderCompilationState.Compiling, final] ∧
      (w.compile_shader_on_members env).shader.m_compilation_state = final := by
  by_cases h : env.RHI_Compile
      { w.shader with m_compilation_state := RHI_ShaderCompilationState.Compiling } = 0
  · exact ⟨.Failed, Or.inr rfl,
      by simp [ShaderWorld.compile_shader_on_members, CompileShader, h],
      by simp [ShaderWorld.compile_shader_on_members, CompileShader, h]⟩
  · exact ⟨.Succeeded, Or.inl rfl,
      by simp [ShaderWorld.compile_shader_on_members, CompileShader, h],
      by simp [ShaderWorld.compile_shader_on_members, CompileShader, h]⟩

/-- C23: for every existing source file and every backend compile function, `Compile` in
asynchronous mode followed by the run of the task it submitted (nothing else pending or
happening in between) leaves exactly what `Compile` in synchronous mode with the same arguments
leaves: the same shader object (compilation state and resource handle included), the same log
messages, the same state writes and the same number of backend calls. -/
theorem compile_async_then_task_eq_sync (env : ShaderEnvironment) (type : RHI_Shader_Type)
    (file_path : String) (vertex_type : Nat) (w : ShaderWorld)
    (hfile : env.fs.IsFile file_path = true) (htasks : w.tasks = []) :
    ∃ w_sync w_async : ShaderWorld,
      RHI_Shader.Compile env type file_path false vertex_type w = some w_sync ∧
      RHI_Shader.Compile env type file_path true vertex_type w = some w_async ∧
      w_async.tasks = [Task.compile_shader] ∧
      w_async.run_task env = w_sync ∧
      (w_async.run_task env).shader.m_compilation_state = w_sync.shader.m_compilation_state ∧
      (w_async.run_task env).shader.m_rhi_resource = w_sync.shader.m_rhi_resource ∧
      (w_async.run_task env).log = w_sync.log := by
  obtain ⟨shader, hsync, hasync⟩ := compile_of_existing_file env type file_path vertex_type w hfile
  have hrun : ({ w with
      shader := { shader with m_compilation_state := RHI_ShaderCompilationState.Idle }
      state_writes := w.state_writes ++ [RHI_ShaderCompilationState.Idle]
      tasks := w.tasks ++ [Task.compile_shader] } : ShaderWorld).run_task env =
      ({ w with
        shader := { shader with m_compilation_state := RHI_ShaderCompilationState.Idle }
        state_writes := w.state_writes ++ [RHI_ShaderCompilationState.Idle] } :
          ShaderWorld).compile_shader_on_members env := by
    simp [ShaderWorld.run_task, htasks, ShaderWorld.compile_shader_on_members]
  refine ⟨_, _, hsync, hasync, by simp [htasks], hrun, ?_, ?_, ?_⟩ <;> rw [hrun]

/-- Witness for C23: a pixel shader compiled from an existing one-line file. -/
theorem compile_async_then_task_eq_sync_witness :
    (example_environment [("a.hlsl", "x\n")]).fs.IsFile "a.hlsl" = true ∧
    example_world.tasks = [] ∧
    ∃ w_sync w_async : ShaderWorld,
      RHI_Shader.Compile (example_environment [("a.hlsl", "x\n")]) .RHI_Shader_Pixel "a.hlsl"
        false 0 example_world = some w_sync ∧
      RHI_Shader.Compile (example_environment [("a.hlsl", "x\n")]) .RHI_Shader_Pixel "a.hlsl"
        true 0 example_world = some w_async ∧
      w_async.tasks = [Task.compile_shader] ∧
      w_async.run_task (example_environment [("a.hlsl", "x\n")]) = w_sync ∧
      (w_async.run_task (example_environment [("a.hlsl", "x\n")])).shader.m_compilation_state =
        w_sync.shader.m_compilation_state ∧
      (w_async.run_task (example_environment [("a.hlsl", "x\n")])).shader.m_rhi_resource =
        w_sync.shader.m_rhi_resource ∧
      (w_async.run_task (example_environment [("a.hlsl", "x\n")])).log = w_sync.log :=
  ⟨by decide, rfl,
    compile_async_then_task_eq_sync (example_environment [("a.hlsl", "x\n")]) .RHI_Shader_Pixel
      "a.hlsl" 0 example_world (by decide) rfl⟩

/-- C24: for every `Compile` of an existing file, whatever the state of the shader object
before, the values written to the compilation state during the attempt are exactly Idle, then
Compiling, then one of Succeeded and Failed, which is the state the attempt ends in.  In
synchronous mode all three are written before `Compile` returns; in asynchronous mode `Compile`
writes Idle and the submitted task, when it runs, writes the other two. -/
theorem compile_state_writes (env : ShaderEnvironment) (type : RHI_Shader_Type)
    (file_path : String) (vertex_type : Nat) (w : ShaderWorld)
    (hfile : env.fs.IsFile file_path = true) :
    (∃ (w' : ShaderWorld) (final : RHI_ShaderCompilationState),
      RHI_Shader.Compile env type file_path false vertex_type w = some w' ∧
      w'.state_writes = w.state_writes ++ [.Idle, .Compiling, final] ∧
      (final = .Succeeded ∨ final = .Failed) ∧
      w'.shader.m_compilation_state = final) ∧
    (∃ (w' : ShaderWorld) (final : RHI_ShaderCompilationState),
      RHI_Shader.Compile env type file_path true vertex_type w = some w' ∧
      w'.state_writes = w.state_writes ++ [.Idle] ∧
      w'.shader.m_compilation_state = .Idle ∧
      (w.tasks = [] →
        (w'.run_task env).state_writes = w.state_writes ++ [.Idle, .Compiling, final] ∧
        (final = .Succeeded ∨ final = .Failed) ∧
        (w'.run_task env).shader.m_compilation_state = final)) := by
  obtain ⟨shader, hsync, hasync⟩ := compile_of_existing_file env type file_path vertex_type w hfile
  obtain ⟨final, hfinal, hwrites, hstate⟩ := compile_shader_on_members_writes env
    { w with
      shader := { shader with m_compilation_state := RHI_ShaderCompilationState.Idle }
      state_writes := w.state_writes ++ [RHI_ShaderCompilationState.Idle] }
  refine ⟨⟨_, final, hsync, ?_, hfinal, hstate⟩, ⟨_, final, hasync, rfl, rfl, ?_⟩⟩
  · rw [hwrites]; simp
  · intro htasks
    have hrun : ({ w with
        shader := { shader with m_compilation_state := RHI_ShaderCompilationState.Idle }
        state_writes := w.state_writes ++ [RHI_ShaderCompilationState.Idle]
        tasks := w.tasks ++ [Task.compile_shader] } : ShaderWorld).run_task env =
        ({ w with
          shader := { shader with m_compilation_state := RHI_ShaderCompilationState.Idle }
          state_writes := w.state_writes ++ [RHI_ShaderCompilationState.Idle] } :
            ShaderWorld).compile_shader_on_members env := by
      simp [ShaderWorld.run_task, htasks, ShaderWorld.compile_shader_on_members]
    rw [hrun]
    refine ⟨?_, hfinal, hstate⟩
    rw [hwrites]; simp

/-- Witness for C24: a shader object left in state Failed is compiled again, synchronously, from
an existing file that compiles. -/
theorem compile_state_writes_witness :
    (example_environment [("a.hlsl", "x\n")]).fs.IsFile "a.hlsl" = true ∧
    ∃ (w' : ShaderWorld) (final : RHI_ShaderCompilationState),
      RHI_Shader.Compile (example_environment [("a.hlsl", "x\n")]) .RHI_Shader_Pixel "a.hlsl"
        false 0
        { example_world with
          shader := { example_shader with m_compilation_state := .Failed } } = some w' ∧
      w'.state_writes =
        ({ example_world with
          shader := { example_shader with m_compilation_state := .Failed } } :
            ShaderWorld).state_writes ++ [.Idle, .Compiling, final] ∧
      (final = .Succeeded ∨ final = .Failed) ∧
      w'.shader.m_compilation_state = final :=
  ⟨by decide,
    (compile_state_writes (example_environment [("a.hlsl", "x\n")]) .RHI_Shader_Pixel "a.hlsl" 0
      { example_world with shader := { example_shader with m_compilation_state := .Failed } }
      (by decide)).1⟩

/-- C25 fails on the code for the Failed outcome: the message logged for a vertex shader named
`shader` with the definition `A = 1` whose compilation fails carries the object name and the
definitions but not the shader kind, although the kind text is computed and the message of the
Succeeded outcome on the same input carries it. -/
theorem compile_shader_failure_message_omits_kind :
    (CompileShader .Idle .RHI_Shader_Vertex [("A", "1")] "shader" 0
      (fun _ => 0)).compilation_state = .Failed ∧
    (CompileShader .Idle .RHI_Shader_Vertex [("A", "1")] "shader" 0 (fun _ => 0)).log =
      [{ level := .Error
         format := "Failed to compile shader \"%s\" with definitions \"%s\"."
         arguments := [.text "shader", .text "A = 1"] }] ∧
    (CompileShader .Idle .RHI_Shader_Vertex [] "shader" 0 (fun _ => 0)).log =
      [{ level := .Error
         format := "Failed to compile shader \"%s\"."
         arguments := [.text "shader"] }] ∧
    type_string .RHI_Shader_Vertex = "vertex" ∧
    (CompileShader .Idle .RHI_Shader_Vertex [("A", "1")] "shader" 0 (fun _ => 42)).log =
      [{ level := .Info
         format := "Successfully compiled %s shader \"%s\" with definitions \"%s\" in %.2f ms."
         arguments := [.text "vertex", .text "shader", .text "A = 1", .elapsed_time_ms] }] := by
  decide

/-! ## D3D11 sampler filter: the property -/

/-- C26: `get_filter` reaches the fatal "filter not supported" assertion only for an
unsupported combination: with anisotropy enabled, and also whenever `filter_min` and
`filter_mag` are each Nearest or Linear and `filter_mipmap` is Nearest or Linear, it returns a
filter; a fault occurs only without anisotropy and with some argument outside these values; and
every filter returned is a comparison variant if and only if `comparison_enabled` is true. -/
theorem get_filter_supported (filter_min filter_mag : RHI_Filter)
    (filter_mipmap : RHI_Sampler_Mipmap_Mode) (anisotropy_enabled comparison_enabled : Bool) :
    ((anisotropy_enabled = true ∨
        ((filter_min = .Nearest ∨ filter_min = .Linear) ∧
          (filter_mag = .Nearest ∨ filter_mag = .Linear) ∧
          (filter_mipmap = .Nearest ∨ filter_mipmap = .Linear))) →
      ∃ filter, get_filter filter_min filter_mag filter_mipmap anisotropy_enabled
        comparison_enabled = .ok filter) ∧
    (∀ fault, get_filter filter_min filter_mag filter_mipmap anisotropy_enabled
        comparison_enabled = .error fault →
      fault = .assertion "D3D11_Sampler filter not supported." ∧
      anisotropy_enabled = false ∧
      ((∃ v, filter_min = .other v) ∨ (∃ v, filter_mag = .other v) ∨
        (∃ v, filter_mipmap = .other v))) ∧
    (∀ filter, get_filter filter_min filter_mag filter_mipmap anisotropy_enabled
        comparison_enabled = .ok filter →
      (filter ∈ comparison_filters ↔ comparison_enabled = true)) := by
  cases filter_min <;> cases filter_mag <;> cases filter_mipmap <;>
    cases anisotropy_enabled <;> cases comparison_enabled <;>
    simp [get_filter, SP_ASSERT_MSG, comparison_filters]

/-- Witness for C26: linear minification and magnification, nearest mip, with comparison. -/
theorem get_filter_supported_witness :
    get_filter .Linear .Linear .Nearest false true =
      .ok D3D11_FILTER_COMPARISON_MIN_MAG_LINEAR_MIP_POINT ∧
    (D3D11_FILTER_COMPARISON_MIN_MAG_LINEAR_MIP_POINT ∈ comparison_filters ↔
      true = true) :=
  ⟨by decide,
    (get_filter_supported .Linear .Linear .Nearest false true).2.2
      D3D11_FILTER_COMPARISON_MIN_MAG_LINEAR_MIP_POINT (by decide)⟩

/-! ## `Cb_Frame`: the comparison operator -/

/-- C30 fails on the code: `operator==` does not compare `bloom_intensity`.  Two frame buffers
that differ in `bloom_intensity` alone compare equal (and `operator!=` reports no
difference). -/
theorem cb_frame_eq_ignores_bloom_intensity :
    (example_frame 0 1).operator_eq (example_frame 0 2) = true ∧
    (example_frame 0 1).operator_ne (example_frame 0 2) = false ∧
    (example_frame 0 1).bloom_intensity ≠ (example_frame 0 2).bloom_intensity := by
  decide

/-! ## Evaluation checks of the embedding -/

example : access_flags_to_pipeline_stage 0 96 = .ok 2048 := by decide
example : access_flags_to_pipeline_stage 8 0x4060 = .ok 0x4808 := by decide
example : access_flags_to_pipeline_stage 8 0xFFFFFFFF = .ok 0x5E8E := by decide
example : access_flags_to_pipeline_stage_loop 8 3 0xFFFFFFFF 0 = .error .out_of_fuel := by
  decide
example : (set_layout (fun l => l) 8 1 1 1 0 1 1 VK_IMAGE_LAYOUT_UNDEFINED
    VK_IMAGE_LAYOUT_TRANSFER_DST_OPTIMAL { log := [], commands := [] }).2.commands =
    [⟨1, 1, 4096, 0, [⟨0, 7, 0xFFFFFFFF, 0xFFFFFFFF, 1, 1, 0, 1, 0, 1, 0, 4096⟩]⟩] := by decide
example : (example_index_buffer._create (fun n => n + 1) (fun h => 1000 + h) (some [1, 2, 3, 4])
    example_device).2.buffers = [⟨2, 4, 66, 1, [1, 2, 3, 4]⟩] := by decide
example : (example_index_buffer._create (fun n => n + 1) (fun h => 1000 + h) none
    example_device).1 = ⟨1, true, 1001, 4, "index_buffer"⟩ := by decide
example : (example_index_buffer.lifetime (fun n => n + 1) (fun h => 1000 + h)
    [none, some [1, 2, 3, 4], none] example_device).2.2.deletion_queue =
    [(.Buffer, 1), (.Buffer, 3), (.Buffer, 4)] := by decide

example : getlines "a\n\nb" = ["a", "", "b"] := by decide
example : getlines "a\nb\n" = ["a", "b"] := by decide
example : getlines "" = [] := by decide
example : getlines "\n" = [""] := by decide
example : is_include_directive "  #include \"common.hlsl\"" = true := by decide
example : is_include_directive "#include <x>" = false := by decide
example : ((example_shader.LoadSource
    (example_fs [("a", "x\n#include \"b\"\ny\n"), ("b", "#include \"a\"\nz")])
    (fun _ => 0) (fun a _ => a) "a").map (fun s => (s.m_preprocessed_source, s.m_file_paths)))
    = some ("x\nz\ny\n", ["a", "b"]) := by decide

example : ((example_shader.LoadSource (example_fs [("a", "x\n#include \"a\"\ny\n")])
    (fun _ => 0) (fun a _ => a) "a").map
      (fun s => (s.m_preprocessed_source, s.m_file_paths, s.m_sources, s.m_names)))
    = some ("x\ny\n", ["a"], ["x\n#include \"a\"\ny\n"], ["a"]) := by decide
example : ((example_shader.LoadSource (example_fs [("a", "#include \"nowhere\"\nx")])
    (fun _ => 0) (fun a _ => a) "a").map
      (fun s => (s.m_preprocessed_source, s.m_file_paths, s.m_sources)))
    = some ("x\n", ["a", "nowhere"], ["#include \"nowhere\"\nx", ""]) := by decide
example : (RHI_Shader.Compile (example_environment [("a.hlsl", "x\n")]) .RHI_Shader_Pixel
    "a.hlsl" false 0 example_world).map
      (fun w => (w.shader.m_compilation_state, w.shader.m_rhi_resource, w.state_writes,
        w.shader.m_object_name, w.shader.m_hash))
    = some (.Succeeded, 42, [.Idle, .Compiling, .Succeeded], "a", 2) := by decide
example : ((RHI_Shader.Compile (example_environment [("a.hlsl", "x\n")]) .RHI_Shader_Pixel
    "a.hlsl" true 0 example_world).map
      (fun w => ((w.run_task (example_environment [("a.hlsl", "x\n")])).shader.m_compilation_state,
        w.shader.m_compilation_state, w.tasks)))
    = some (.Succeeded, .Idle, [Task.compile_shader]) := by decide

example : get_filter .Nearest .Linear .Linear false false =
    .ok D3D11_FILTER_MIN_POINT_MAG_MIP_LINEAR := by decide
example : get_filter (.other 7) .Linear .Linear true true =
    .ok D3D11_FILTER_COMPARISON_ANISOTROPIC := by decide
example : get_filter (.other 7) .Linear .Linear false true =
    .error (.assertion "D3D11_Sampler filter not supported.") := by decide
example : (example_frame 0 1).operator_eq (example_frame 3 1) = false := by decide
example : (example_frame 3 1).operator_eq (example_frame 3 1) = true := by decide
example : update_hash String.length example_hash_combine "x\n" [] = 0x9e3779bb := by decide
example : defines_string [("A", "1"), ("BB", "22")] = "A = 1, BB = 22" := by decide
example : ((RHI_Shader.Compile (example_environment [("a.hlsl", "x\n")]) .RHI_Shader_Pixel
    "a.hlsl" true 0 example_world).map (fun w => (w.run_task
      (example_environment [("a.hlsl", "x\n")])).state_writes)) =
    some [.Idle, .Compiling, .Succeeded] := by decide

example : spec_emitted_text
    (example_fs [("a", "#include \"b\"\n#include \"c\"\nx"), ("b", "#include \"d\"\nb1"),
      ("c", "#include \"d\"\nc1"), ("d", "d1")]) 5 "a" [] =
    some ("d1\nb1\nc1\nx\n", ["a", "b", "d", "c"]) := by decide
example : (example_shader.LoadSource
    (example_fs [("a", "#include \"b\"\n#include \"c\"\nx"), ("b", "#include \"d\"\nb1"),
      ("c", "#include \"d\"\nc1"), ("d", "d1")]) (fun _ => 0) (fun seed _ => seed) "a").map
      (fun s => (s.m_preprocessed_source, s.m_file_paths_multiple, s.m_file_paths)) =
    some ("d1\nb1\nc1\nx\n", ["a", "b", "d", "c"], ["a", "c", "b", "d"]) := by decide
example : spec_inlined_lines
    (example_fs [("a", "#include \"b\"\n#include \"c\"\nx"), ("b", "#include \"d\"\nb1"),
      ("c", "#include \"d\"\nc1"), ("d", "d1")]) 5 "a" [] =
    some ([("d", "d1"), ("b", "b1"), ("c", "c1"), ("a", "x")], ["a", "b", "d", "c"]) := by
  decide
example : (example_fs_with_directories []).GetDirectoryFromFilePath "shaders/common/a.hlsl" =
    "shaders/common/" := by decide
example : (example_fs_with_directories []).GetDirectoryFromFilePath "a.hlsl" = "" := by decide

end Spartan
